import Mathlib

/-!
# Order lifecycle and payment validation of the giyim storefront

A shallow embedding of the order endpoints of `src/server.js` and of the helpers
they call (`normalizeText`, `onlyDigits`, `toInt`, `isValidCardNumber`,
`validateCardPayment`, `resolveTrackingStatus`), followed by the properties proved
about them.

Modelling conventions
* A JavaScript string is a Lean `String`; text helpers work on its list of
  characters.  `length` of a JavaScript string counts UTF-16 code units, so it is
  modelled by `jsLength`.
* A field of a request body is modelled by its string form (`String(value)`).
* Numbers stored in the JSON files are whole numbers (`Int`), and sums, differences and
  products of them are exact, as they are in JavaScript on the safe-integer range.
* A number read from a request goes through `Number.parseInt`, whose result is a
  `JsNumber`: `NaN`, an infinity, or the double nearest to the digits read.  `null` is
  `none`.
* The JSON files are the `Store`; a handler maps a store to a response and the
  store that is on disk when it returns.
* Every reading of the clock and every random draw is an explicit argument.
-/

namespace Giyim

/-! ## Text helpers -/

/-- Code points that `String.prototype.trim` strips (WhiteSpace and LineTerminator). -/
def isJsSpace (c : Char) : Bool :=
  let n := c.toNat
  n == 0x09 || n == 0x0A || n == 0x0B || n == 0x0C || n == 0x0D || n == 0x20 ||
  n == 0xA0 || n == 0x1680 || (decide (0x2000 ≤ n) && decide (n ≤ 0x200A)) ||
  n == 0x2028 || n == 0x2029 || n == 0x202F || n == 0x205F || n == 0x3000 || n == 0xFEFF

/-- The regular expression class `\d` (without the unicode flag): `0`..`9`. -/
def isDigitChar (c : Char) : Bool :=
  decide (48 ≤ c.toNat) && decide (c.toNat ≤ 57)

/-- Result of `String.prototype.trim` on the characters of a string. -/
def jsTrim (cs : List Char) : List Char :=
  ((cs.dropWhile isJsSpace).reverse.dropWhile isJsSpace).reverse

/-- The `length` property of a JavaScript string: UTF-16 code units. -/
def jsLength (s : String) : Nat :=
  (s.data.map (fun c => if c.toNat < 0x10000 then 1 else 2)).sum

/-- Value of `normalizeText(value)`: `String(value || "").trim().replace(/[<>]/g, "")`. -/
def normalizeText (value : String) : String :=
  ⟨(jsTrim value.data).filter (fun c => !(c == '<' || c == '>'))⟩

/-- Value of `onlyDigits(value)`: `normalizeText(value).replace(/\D/g, "")`. -/
def onlyDigits (value : String) : String :=
  ⟨(normalizeText value).data.filter isDigitChar⟩

/-- Value of a run of decimal digits, most significant first. -/
def digitsValue (cs : List Char) : Nat :=
  cs.foldl (fun acc c => 10 * acc + (c.toNat - 48)) 0

/-! ## Numbers -/

/-- The least `e` from the given one on with `n / 2 ^ e < 2 ^ 53`, looked for among
`fuel` candidates: the binary exponent of the double nearest to `n`. -/
def significandShift (n : Nat) : Nat → Nat → Nat
  | 0, e => e
  | fuel + 1, e => if n >>> e < 2 ^ 53 then e else significandShift n fuel (e + 1)

/-- The Number value for a natural number, as an exact natural number.  A double has a
significand of 53 bits: with `e` the least exponent such that `q = n / 2 ^ e` has at
most 53 bits and `r` the remainder, the result is `q * 2 ^ e`, or `(q + 1) * 2 ^ e` when
`r` is more than half of `2 ^ e` or exactly half with `q` odd (ties to even).  A
number of more than 1024 bits is beyond every double and is returned as it is; a result
of `2 ^ 1024` or more stands for an overflow. -/
def roundNat (n : Nat) : Nat :=
  if n >>> 1024 ≠ 0 then n
  else
    let e := significandShift n 971 0
    let q := n >>> e
    let r := n - q <<< e
    if 1 <<< e < 2 * r ∨ (2 * r = 1 <<< e ∧ q % 2 = 1) then (q + 1) <<< e else q <<< e

/-- The Number value for an integer whose rounding does not overflow. -/
def roundInt (i : Int) : Int :=
  if i < 0 then -(roundNat i.natAbs : Int) else (roundNat i.natAbs : Int)

/-- A value of the JavaScript Number type, as `Number.parseInt` returns it: `NaN`,
`Infinity` or `-Infinity`, or a finite whole number. -/
inductive JsNumber where
  | nan
  | infinity (negative : Bool)
  | finite (value : Int)
deriving DecidableEq

/-- JavaScript `x > n` for a Number `x` and a whole number `n`. -/
def JsNumber.gt (x : JsNumber) (n : Int) : Bool :=
  match x with
  | .nan => false
  | .infinity negative => !negative
  | .finite value => decide (n < value)

/-- Value of `Number.parseInt(value, 10)` as Node evaluates it.  Leading white space is
skipped, one sign is read, then the longest run of digits; no digit gives `NaN`.  The
digits are read as a decimal numeral and the result is the nearest double: exact below
`2 ^ 53`, rounded above, and `Infinity` from `2 ^ 1024 - 2 ^ 970` on (every numeral of
310 digits or more). -/
def parseInt10 (value : String) : JsNumber :=
  let s := value.data.dropWhile isJsSpace
  let neg := s.head? == some '-'
  let body := if s.head? == some '-' || s.head? == some '+' then s.tail else s
  let z := body.takeWhile isDigitChar
  if z.isEmpty then .nan
  else if roundNat (digitsValue z) >>> 1024 ≠ 0 then .infinity neg
  else .finite (if neg then -(roundNat (digitsValue z) : Int) else (roundNat (digitsValue z) : Int))

/-- Value of `toInt(value)`: `Number.parseInt(value, 10)`. -/
def toInt (value : String) : JsNumber :=
  parseInt10 value

/-! ## Card number check -/

/-- One pass of the `for` loop of `isValidCardNumber`, on the characters from the
rightmost one on: state is `sum` and `shouldDouble`. -/
def luhnLoop : List Char → Nat → Bool → Nat
  | [], sum, _ => sum
  | c :: rest, sum, shouldDouble =>
    let digit := c.toNat - 48
    let digit := if shouldDouble then (if digit * 2 > 9 then digit * 2 - 9 else digit * 2) else digit
    luhnLoop rest (sum + digit) (!shouldDouble)

/-- Value of `isValidCardNumber(rawNumber)` of `src/server.js`. -/
def isValidCardNumber (rawNumber : String) : Bool :=
  let cardNumber := onlyDigits rawNumber
  if jsLength cardNumber < 13 || jsLength cardNumber > 19 then false
  else luhnLoop cardNumber.data.reverse 0 false % 10 == 0

/-- Digits of the digits-only form of a string, as numbers, left to right. -/
def digitsOf (s : String) : List Nat :=
  (s.data.filter isDigitChar).map (fun c => c.toNat - 48)

/-- The standard Luhn sum as the specification words it: positions are counted
from the rightmost digit (position 0), every second digit (odd positions) is
doubled, and 9 is subtracted when the double exceeds 9. -/
def luhnSumSpec (digits : List Nat) : Nat :=
  ((List.range digits.length).map (fun k =>
    let d := digits.reverse.getD k 0
    if k % 2 = 1 then (if 2 * d > 9 then 2 * d - 9 else 2 * d) else d)).sum

/-- Contribution of one digit to the Luhn sum, as computed in the loop body. -/
def luhnDigit (shouldDouble : Bool) (d : Nat) : Nat :=
  if shouldDouble then (if d * 2 > 9 then d * 2 - 9 else d * 2) else d

/-- Value of `shouldDouble` after the loop has consumed the given characters. -/
def luhnFlag : List Char → Bool → Bool
  | [], b => b
  | _ :: rest, b => luhnFlag rest (!b)

/-! ## Card number check of the checkout page (`src/public/app.js`) -/

/-- Source `onlyDigits(value)` of `src/public/app.js`: `String(value || "").replace(/\D/g, "")`. -/
def App.onlyDigits (value : String) : String :=
  ⟨value.data.filter isDigitChar⟩

/-- The `for` loop of `isValidCardNumber` of `src/public/app.js`, on the characters from
the rightmost one on: state is `sum` and `shouldDouble`. -/
def App.luhnLoop : List Char → Nat → Bool → Nat
  | [], sum, _ => sum
  | c :: rest, sum, shouldDouble =>
    let digit := c.toNat - 48
    let digit := if shouldDouble then (if digit * 2 > 9 then digit * 2 - 9 else digit * 2) else digit
    App.luhnLoop rest (sum + digit) (!shouldDouble)

/-- Source `isValidCardNumber(rawNumber)` of `src/public/app.js`. -/
def App.isValidCardNumber (rawNumber : String) : Bool :=
  let cardNumber := App.onlyDigits rawNumber
  if jsLength cardNumber < 13 || jsLength cardNumber > 19 then false
  else App.luhnLoop cardNumber.data.reverse 0 false % 10 == 0

/-! ## Card payment validation -/

/-- Value of `normalizeExpiryYear(rawYear)`; `none` stands for `null`, returned when
`Number.isInteger(year)` is false (`NaN` and the infinities).  The sum `2000 + year` is
a Number, so it is rounded like any other. -/
def normalizeExpiryYear (rawYear : String) : Option Int :=
  match toInt rawYear with
  | .finite year => if year < 100 then some (roundInt (2000 + year)) else some year
  | _ => none

/-- Value of `detectCardBrand(cardNumber)`: the regular expressions `^4`, `^(5[1-5]|2[2-7])`,
`^3[47]` tried in this order. -/
def detectCardBrand (cardNumber : String) : String :=
  match cardNumber.data with
  | c₁ :: rest =>
    if c₁ == '4' then "Visa"
    else
      match rest with
      | c₂ :: _ =>
        if (c₁ == '5' && decide ('1'.toNat ≤ c₂.toNat) && decide (c₂.toNat ≤ '5'.toNat)) ||
            (c₁ == '2' && decide ('2'.toNat ≤ c₂.toNat) && decide (c₂.toNat ≤ '7'.toNat)) then
          "Mastercard"
        else if c₁ == '3' && (c₂ == '4' || c₂ == '7') then "Amex"
        else "Kart"
      | [] => "Kart"
  | [] => "Kart"

/-- ECMAScript `DayFromYear(y)`: day number of 1 January of year `y`. -/
def dayFromYear (y : Int) : Int :=
  365 * (y - 1970) + (y - 1969) / 4 - (y - 1901) / 100 + (y - 1601) / 400

/-- ECMAScript leap-year rule. -/
def isLeapYear (y : Int) : Bool :=
  (y % 4 == 0 && y % 100 != 0) || y % 400 == 0

/-- Days of the year before the first day of month `mn` (0 = January). -/
def daysBeforeMonth (leap : Bool) (mn : Int) : Int :=
  let l : Int := if leap then 1 else 0
  if mn = 0 then 0 else if mn = 1 then 31 else if mn = 2 then 59 + l
  else if mn = 3 then 90 + l else if mn = 4 then 120 + l else if mn = 5 then 151 + l
  else if mn = 6 then 181 + l else if mn = 7 then 212 + l else if mn = 8 then 243 + l
  else if mn = 9 then 273 + l else if mn = 10 then 304 + l else 334 + l

/-- ECMAScript `MakeDay(year, month, date)` with a 0-based month index. -/
def makeDay (year month date : Int) : Int :=
  let ym := year + month / 12
  let mn := month % 12
  dayFromYear ym + daysBeforeMonth (isLeapYear ym) mn + date - 1

/-- ECMAScript `TimeClip`: a time value beyond 8.64e15 ms is an invalid date (`NaN`). -/
def timeClip (t : Int) : Option Int :=
  if t.natAbs > 8640000000000000 then none else some t

/-- Time value of `new Date(year, month, 0, 23, 59, 59, 999)`: the local-time
constructor, which reads years 0..99 as 1900..1999; `tzOffset` gives the offset of
local time from UTC at a local time value. -/
def lastMomentOfMonth (tzOffset : Int → Int) (month year : Int) : Option Int :=
  let yr := if 0 ≤ year ∧ year ≤ 99 then 1900 + year else year
  let localTime := makeDay yr month 0 * 86400000 + (23 * 3600000 + 59 * 60000 + 59 * 1000 + 999)
  timeClip (localTime - tzOffset localTime)

/-- Value of `isCardExpired(month, year)`, `now` being the time value of `new Date()`. -/
def isCardExpired (tzOffset : Int → Int) (now : Int) (month year : Int) : Bool :=
  match lastMomentOfMonth tzOffset month year with
  | some t => decide (t < now)
  | none => false

/-- Last `n` UTF-16 units of a string of BMP characters: `slice(-n)`. -/
def sliceLast (n : Nat) (s : String) : String :=
  ⟨s.data.drop (s.data.length - n)⟩

/-- Value of `createApprovalCode()`; `draw` is `Math.floor(Math.random() * 900)`. -/
def createApprovalCode (now : Int) (draw : Fin 900) : String :=
  "APR-" ++ sliceLast 6 (toString now) ++ "-" ++ toString (draw.val + 100)

/-- Value of `createOrderNo()`; `draw` is `Math.floor(Math.random() * 900)`. -/
def createOrderNo (now : Int) (draw : Fin 900) : String :=
  "GS-" ++ sliceLast 8 (toString now) ++ "-" ++ toString (draw.val + 100)

/-- The `payment` object of the request body; an absent object or field behaves as
the empty string in every helper that reads it. -/
structure CardPayload where
  cardHolder : String
  cardNumber : String
  expiryMonth : String
  expiryYear : String
  cvv : String
deriving DecidableEq

/-- The `payment` field of a stored order. -/
structure PaymentSnapshot where
  method : String
  cardHolder : Option String
  cardBrand : Option String
  cardLast4 : Option String
  approvalCode : Option String
deriving DecidableEq

/-- Result of `validateCardPayment`: `{ ok: false, message }` or `{ ok: true, snapshot }`. -/
inductive CardValidation where
  | rejected (message : String)
  | accepted (snapshot : PaymentSnapshot)
deriving DecidableEq

/-- Clock readings and random draw used by `validateCardPayment`. -/
structure CardEnv where
  /-- Offset of local time from UTC, used by the `Date` constructor -/
  tzOffset : Int → Int
  /-- Value of `new Date()` in `isCardExpired` -/
  nowExpiry : Int
  /-- Value of `Date.now()` in `createApprovalCode` -/
  nowApproval : Int
  /-- Value of `Math.floor(Math.random() * 900)` in `createApprovalCode` -/
  drawApproval : Fin 900

/-- Value of `validateCardPayment(payment)`. -/
def validateCardPayment (env : CardEnv) (payment : CardPayload) : CardValidation :=
  let cardHolder := normalizeText payment.cardHolder
  let cardNumber := onlyDigits payment.cardNumber
  let expiryMonth := toInt payment.expiryMonth
  let expiryYear := normalizeExpiryYear payment.expiryYear
  let cvv := onlyDigits payment.cvv
  if cardHolder.data.isEmpty || jsLength cardHolder < 2 then
    .rejected "Kart uzerindeki isim gecersiz."
  else if !isValidCardNumber cardNumber then
    .rejected "Kart numarasi gecersiz."
  else
    match expiryMonth, expiryYear with
    | .finite month, some year =>
      if month < 1 || month > 12 || year == 0 then
        .rejected "Son kullanma tarihi gecersiz."
      else if isCardExpired env.tzOffset env.nowExpiry month year then
        .rejected "Kartin son kullanma tarihi gecmis."
      else if !(cvv.data.all isDigitChar && decide (3 ≤ cvv.data.length) &&
          decide (cvv.data.length ≤ 4)) then
        .rejected "CVV gecersiz."
      else
        .accepted {
          method := "Kredi Karti"
          cardHolder := some cardHolder
          cardBrand := some (detectCardBrand cardNumber)
          cardLast4 := some (sliceLast 4 cardNumber)
          approvalCode := some (createApprovalCode env.nowApproval env.drawApproval) }
    | _, _ => .rejected "Son kullanma tarihi gecersiz."

/-! ## Stores -/

/-- An entry of `products.json` (the fields the order endpoints read or write). -/
structure Product where
  id : String
  name : String
  price : Int
  stock : Int
  sizes : List String
deriving DecidableEq

/-- A normalized line of a stored order. -/
structure OrderItem where
  productId : String
  name : String
  size : String
  quantity : Int
  unitPrice : Int
  lineTotal : Int
deriving DecidableEq

/-- The `customer` record of a stored order (`cleanCustomer`). -/
structure Customer where
  fullName : String
  email : String
  phone : String
  address : String
  city : String
  district : String
  postalCode : String
deriving DecidableEq

/-- An entry of `orders.json`.  `createdAt` and `cancelledAt` hold the time value
(milliseconds) of the stored ISO string; `createdAt = none` is a value that
`new Date(createdAt).getTime()` reads as `NaN`, `cancelledAt = none` an absent field. -/
structure Order where
  orderNo : String
  userId : String
  createdAt : Option Int
  customer : Customer
  items : List OrderItem
  paymentMethod : String
  payment : PaymentSnapshot
  subtotal : Int
  shipping : Int
  total : Int
  status : String
  cancelled : Bool
  cancelledAt : Option Int
deriving DecidableEq

/-- The two JSON collections the order endpoints read and write. -/
structure Store where
  products : List Product
  orders : List Order
deriving DecidableEq

/-- The authenticated user record `req.authUser`. -/
structure User where
  id : String
  fullName : String
  email : String
  phone : String
deriving DecidableEq

/-! ## Requests and responses -/

/-- A cart line of the request body. -/
structure RawItem where
  productId : String
  size : String
  quantity : String
deriving DecidableEq

/-- The `customer` object of the request body. -/
structure RawCustomer where
  fullName : String
  email : String
  phone : String
  address : String
  city : String
  district : String
  postalCode : String
deriving DecidableEq

/-- Body of `POST /api/orders`.  A body whose `items` is not an array is answered
like one with an empty array. -/
structure OrderRequest where
  customer : RawCustomer
  items : List RawItem
  paymentMethod : String
  payment : CardPayload
deriving DecidableEq

/-- The error answers of the order endpoints. -/
inductive ApiError where
  /-- Status 400 `Musteri bilgileri eksik.` with `missingFields` -/
  | missingCustomer (missingFields : List String)
  /-- Status 400 `Sepet bos olamaz.` -/
  | emptyCart
  /-- Status 400 with the message of `validateCardPayment` -/
  | payment (message : String)
  /-- Status 400 `Urun bulunamadi: ${productId}` -/
  | productNotFound (productId : String)
  /-- Status 400 `Beden gecersiz: ${product.name}` -/
  | invalidSize (productName : String)
  /-- Status 400 `Adet gecersiz: ${product.name}` -/
  | invalidQuantity (productName : String)
  /-- Status 400 `Yetersiz stok: ${product.name}. Kalan stok: ${product.stock}` -/
  | insufficientStock (productName : String) (stock : Int)
  /-- Status 404 `Siparis bulunamadi.` -/
  | orderNotFound
  /-- Status 400 `Bu siparis zaten iptal edilmis.` -/
  | alreadyCancelled
  /-- Status 400 `Teslim edilmis siparisler iptal edilemez.` -/
  | delivered
  /-- Status 400 `Gecersiz durum degeri.` -/
  | invalidStatus
deriving DecidableEq

/-- HTTP status of an error answer. -/
def ApiError.status : ApiError → Nat
  | .orderNotFound => 404
  | _ => 400

/-- The `message` field of an error answer. -/
def ApiError.message : ApiError → String
  | .missingCustomer _ => "Musteri bilgileri eksik."
  | .emptyCart => "Sepet bos olamaz."
  | .payment message => message
  | .productNotFound productId => "Urun bulunamadi: " ++ productId
  | .invalidSize productName => "Beden gecersiz: " ++ productName
  | .invalidQuantity productName => "Adet gecersiz: " ++ productName
  | .insufficientStock productName stock =>
    "Yetersiz stok: " ++ productName ++ ". Kalan stok: " ++ toString stock
  | .orderNotFound => "Siparis bulunamadi."
  | .alreadyCancelled => "Bu siparis zaten iptal edilmis."
  | .delivered => "Teslim edilmis siparisler iptal edilemez."
  | .invalidStatus => "Gecersiz durum degeri."

/-- What a handler sends. -/
inductive Response where
  /-- Status 201 `{ message: "Siparis alindi.", orderNo, total, trackingStatus, approvalCode }` -/
  | created (orderNo : String) (total : Int) (trackingStatus : String)
      (approvalCode : Option String)
  /-- Status 200 `{ message, order: withTracking(order) }` -/
  | updated (message : String) (order : Order) (trackingStatus : String)
  /-- Status 200 `withTracking(order)` -/
  | tracked (order : Order) (trackingStatus : String)
  /-- Status 200 array of `withTracking(order)` -/
  | listed (orders : List (Order × String))
  | failure (error : ApiError)
deriving DecidableEq

/-! ## Tracking status -/

/-- Value of `resolveTrackingStatus(createdAt)`, `now` being `Date.now()`.  The code compares
`ageHours = (now - createdTime) / 3600000` with 2, 24 and 72; the same comparisons are
made here on the age in milliseconds. -/
def resolveTrackingStatus (now : Int) (createdAt : Option Int) : String :=
  match createdAt with
  | none => "Hazirlaniyor"
  | some createdTime =>
    let ageMs := now - createdTime
    if ageMs < 2 * 3600000 then "Hazirlaniyor"
    else if ageMs < 24 * 3600000 then "Kargoya Verildi"
    else if ageMs < 72 * 3600000 then "Yolda"
    else "Teslim Edildi"

/-! ## Product map and stock loops -/

/-- Position in `products` of the entry that
`new Map(products.map((item) => [item.id, item]))` holds for `id`: a later product
with the same id replaces an earlier one. -/
def productIndex : List Product → String → Option Nat
  | [], _ => none
  | p :: rest, id =>
    match productIndex rest id with
    | some k => some (k + 1)
    | none => if p.id = id then some 0 else none

/-- Value of `productById.get(id)`. -/
def productById (products : List Product) (id : String) : Option Product :=
  match productIndex products id with
  | some k => products[k]?
  | none => none

/-- The assignment `product.stock += delta` on the product at position `k`. -/
def addStock : List Product → Nat → Int → List Product
  | [], _, _ => []
  | p :: rest, 0, delta => { p with stock := p.stock + delta } :: rest
  | p :: rest, k + 1, delta => p :: addStock rest k delta

/-- The loop after order creation: `product.stock -= item.quantity` for every line,
`product` being `productById.get(item.productId)` of the map built before the loop. -/
def reserveStock (products : List Product) (items : List OrderItem) : List Product :=
  items.foldl (fun ps item =>
    match productIndex products item.productId with
    | some k => addStock ps k (-item.quantity)
    | none => ps) products

/-- The loop of both cancel handlers: `if (product) product.stock += item.quantity`. -/
def releaseStock (products : List Product) (items : List OrderItem) : List Product :=
  items.foldl (fun ps item =>
    match productIndex products item.productId with
    | some k => addStock ps k item.quantity
    | none => ps) products

/-- Result of `findIndex(pred)` together with the element found. -/
def findOrder (pred : Order → Bool) : List Order → Option (Nat × Order)
  | [] => none
  | o :: rest =>
    if pred o then some (0, o)
    else
      match findOrder pred rest with
      | some (i, found) => some (i + 1, found)
      | none => none

/-! ## POST /api/orders -/

/-- Clock readings and random draws of one `POST /api/orders` request. -/
structure CreateEnv where
  card : CardEnv
  /-- Value of `Date.now()` in `createOrderNo` -/
  nowOrderNo : Int
  /-- Value of `Math.floor(Math.random() * 900)` in `createOrderNo` -/
  drawOrderNo : Fin 900
  /-- Value of `new Date()` of `createdAt` -/
  nowCreated : Int
  /-- Value of `Date.now()` in `withTracking` of the answer -/
  nowResponse : Int

/-- Value of `cleanCustomer`. -/
def cleanCustomer (user : User) (customer : RawCustomer) : Customer :=
  { fullName :=
      if (normalizeText customer.fullName).data.isEmpty then user.fullName
      else normalizeText customer.fullName
    email := user.email
    phone :=
      if (normalizeText customer.phone).data.isEmpty then user.phone
      else normalizeText customer.phone
    address := normalizeText customer.address
    city := normalizeText customer.city
    district := normalizeText customer.district
    postalCode := normalizeText customer.postalCode }

/-- Value of `Object.entries(cleanCustomer).filter(([, value]) => !value).map(([key]) => key)`. -/
def missingFields (c : Customer) : List String :=
  ([("fullName", c.fullName), ("email", c.email), ("phone", c.phone), ("address", c.address),
    ("city", c.city), ("district", c.district), ("postalCode", c.postalCode)].filter
      (fun entry => entry.2.data.isEmpty)).map (fun entry => entry.1)

/-- Body of the `for (const rawItem of items)` loop: the four checks of one cart line,
then the normalized line. -/
def checkItem (products : List Product) (rawItem : RawItem) : Except ApiError OrderItem :=
  let productId := normalizeText rawItem.productId
  let size := normalizeText rawItem.size
  let quantity := toInt rawItem.quantity
  match productById products productId with
  | none => .error (.productNotFound productId)
  | some product =>
    if size.data.isEmpty || !product.sizes.contains size then
      .error (.invalidSize product.name)
    else
      match quantity with
      | .finite quantity =>
        if quantity ≤ 0 then .error (.invalidQuantity product.name)
        else if quantity > product.stock then
          .error (.insufficientStock product.name product.stock)
        else
          .ok { productId := product.id, name := product.name, size := size,
                quantity := quantity, unitPrice := product.price,
                lineTotal := product.price * quantity }
      | _ => .error (.invalidQuantity product.name)

/-- The `for (const rawItem of items)` loop with its accumulators `normalizedItems`
and `subtotal`; the first failing line ends it. -/
def normalizeItems (products : List Product) :
    List RawItem → List OrderItem → Int → Except ApiError (List OrderItem × Int)
  | [], normalizedItems, subtotal => .ok (normalizedItems, subtotal)
  | rawItem :: rest, normalizedItems, subtotal =>
    match checkItem products rawItem with
    | .error e => .error e
    | .ok item =>
      normalizeItems products rest (normalizedItems ++ [item]) (subtotal + item.lineTotal)

/-- Handler of `POST /api/orders` for the authenticated `user`: the answer and the
stores as they are on disk afterwards. -/
def createOrder (env : CreateEnv) (user : User) (req : OrderRequest) (s : Store) :
    Response × Store :=
  let customer := cleanCustomer user req.customer
  if missingFields customer ≠ [] then
    (.failure (.missingCustomer (missingFields customer)), s)
  else if req.items.isEmpty then
    (.failure .emptyCart, s)
  else
    let selectedPaymentMethod :=
      if (normalizeText req.paymentMethod).data.isEmpty then "Kapida Odeme"
      else normalizeText req.paymentMethod
    let cardValidation : CardValidation :=
      if selectedPaymentMethod = "Kredi Karti" then validateCardPayment env.card req.payment
      else .accepted { method := selectedPaymentMethod, cardHolder := none, cardBrand := none,
                       cardLast4 := none, approvalCode := none }
    match cardValidation with
    | .rejected message => (.failure (.payment message), s)
    | .accepted paymentSnapshot =>
      match normalizeItems s.products req.items [] 0 with
      | .error e => (.failure e, s)
      | .ok (normalizedItems, subtotal) =>
        let shipping : Int := if subtotal ≥ 1500 then 0 else 79
        let total := subtotal + shipping
        let order : Order :=
          { orderNo := createOrderNo env.nowOrderNo env.drawOrderNo
            userId := user.id
            createdAt := some env.nowCreated
            customer := customer
            items := normalizedItems
            paymentMethod := selectedPaymentMethod
            payment := paymentSnapshot
            subtotal := subtotal
            shipping := shipping
            total := total
            status := "Hazirlaniyor"
            cancelled := false
            cancelledAt := none }
        (.created order.orderNo order.total
            (resolveTrackingStatus env.nowResponse order.createdAt) paymentSnapshot.approvalCode,
          { products := reserveStock s.products normalizedItems
            orders := s.orders ++ [order] })

/-! ## Cancellation and status update -/

/-- Clock readings of one cancel request. -/
structure CancelEnv where
  /-- Value of `Date.now()` in `resolveTrackingStatus(order.createdAt)` (self-service only) -/
  nowTracking : Int
  /-- Value of `new Date()` of `cancelledAt` -/
  nowCancelled : Int
  /-- Value of `Date.now()` in `withTracking` of the answer -/
  nowResponse : Int
deriving DecidableEq

/-- The three assignments `cancelled = true`, `status = "Iptal Edildi"`, `cancelledAt`. -/
def markCancelled (now : Int) (order : Order) : Order :=
  { order with cancelled := true, status := "Iptal Edildi", cancelledAt := some now }

/-- Handler of `POST /api/orders/:orderNo/cancel` for the authenticated `user`. -/
def cancelOrder (env : CancelEnv) (user : User) (rawOrderNo : String) (s : Store) :
    Response × Store :=
  let orderNo := normalizeText rawOrderNo
  match findOrder (fun item => item.orderNo == orderNo && item.userId == user.id) s.orders with
  | none => (.failure .orderNotFound, s)
  | some (orderIndex, order) =>
    if order.cancelled then (.failure .alreadyCancelled, s)
    else if resolveTrackingStatus env.nowTracking order.createdAt = "Teslim Edildi" then
      (.failure .delivered, s)
    else
      let products := releaseStock s.products order.items
      let order := markCancelled env.nowCancelled order
      (.updated "Siparis basariyla iptal edildi." order
          (resolveTrackingStatus env.nowResponse order.createdAt),
        { products := products, orders := s.orders.set orderIndex order })

/-- Handler of `POST /api/admin/orders/:orderNo/cancel`. -/
def adminCancelOrder (env : CancelEnv) (rawOrderNo : String) (s : Store) : Response × Store :=
  let orderNo := normalizeText rawOrderNo
  match findOrder (fun item => item.orderNo == orderNo) s.orders with
  | none => (.failure .orderNotFound, s)
  | some (orderIndex, order) =>
    if order.cancelled then (.failure .alreadyCancelled, s)
    else
      let products := releaseStock s.products order.items
      let order := markCancelled env.nowCancelled order
      (.updated "Siparis basariyla iptal edildi." order
          (resolveTrackingStatus env.nowResponse order.createdAt),
        { products := products, orders := s.orders.set orderIndex order })

/-- Value of `validStatuses` of the status-update handler. -/
def validStatuses : List String :=
  ["Hazirlaniyor", "Kargoya Verildi", "Yolda", "Teslim Edildi"]

/-- Handler of `PUT /api/admin/orders/:orderNo/status`; `now` is `Date.now()` in
`withTracking` of the answer. -/
def updateOrderStatus (now : Int) (rawOrderNo rawStatus : String) (s : Store) :
    Response × Store :=
  let orderNo := normalizeText rawOrderNo
  let newStatus := normalizeText rawStatus
  if newStatus.data.isEmpty || !validStatuses.contains newStatus then
    (.failure .invalidStatus, s)
  else
    match findOrder (fun item => item.orderNo == orderNo) s.orders with
    | none => (.failure .orderNotFound, s)
    | some (orderIndex, order) =>
      let order := { order with status := newStatus }
      let order := if order.cancelled then { order with cancelled := false } else order
      (.updated "Siparis durumu guncellendi." order (resolveTrackingStatus now order.createdAt),
        { s with orders := s.orders.set orderIndex order })

/-! ## Reading orders -/

/-- Source function `withTracking(order)`: the order with its derived `trackingStatus`,
`now` being the `Date.now()` of this call. -/
def withTracking (now : Int) (order : Order) : Order × String :=
  (order, resolveTrackingStatus now order.createdAt)

/-- The `.map((order) => withTracking(order))` of the list endpoints: the call for the
`k`-th order reads the clock as `nowAt k`. -/
def withTrackingAll (nowAt : Nat → Int) : Nat → List Order → List (Order × String)
  | _, [] => []
  | k, order :: rest => withTracking (nowAt k) order :: withTrackingAll nowAt (k + 1) rest

/-- The comparator `(a, b) => new Date(b.createdAt).getTime() - new Date(a.createdAt).getTime()`;
a `NaN` result is read as 0, as `Array.prototype.sort` does. -/
def compareCreated (a b : Order × String) : Int :=
  match b.1.createdAt, a.1.createdAt with
  | some tb, some ta => tb - ta
  | _, _ => 0

/-- One insertion step of the sort: `x` goes before the first element it does not
compare greater than. -/
def insertByCreated (x : Order × String) : List (Order × String) → List (Order × String)
  | [] => [x]
  | y :: rest =>
    if compareCreated x y ≤ 0 then x :: y :: rest else y :: insertByCreated x rest

/-- The call `.sort(comparator)` with `compareCreated`.  `Array.prototype.sort` is stable,
and for a consistent comparator every stable sort gives the same array; it is computed
here by insertion. -/
def sortByCreated (l : List (Order × String)) : List (Order × String) :=
  l.foldr insertByCreated []

/-- Handler of `GET /api/orders/my` for the authenticated `user`. -/
def myOrders (nowAt : Nat → Int) (user : User) (s : Store) : Response :=
  .listed (sortByCreated
    (withTrackingAll nowAt 0 (s.orders.filter (fun order => order.userId == user.id))))

/-- Handler of `GET /api/orders/track/:orderNo` (and of `GET /api/orders/:orderNo`, which
has the same body) for the authenticated `user`. -/
def trackOrder (now : Int) (user : User) (rawOrderNo : String) (s : Store) : Response :=
  let orderNo := normalizeText rawOrderNo
  match s.orders.find? (fun item => item.orderNo == orderNo && item.userId == user.id) with
  | none => .failure .orderNotFound
  | some order => .tracked (withTracking now order).1 (withTracking now order).2

/-! ## Sequences of requests -/

/-- A request to one of the order endpoints that write to the stores. -/
inductive Request where
  | create (env : CreateEnv) (user : User) (req : OrderRequest)
  | cancel (env : CancelEnv) (user : User) (orderNo : String)
  | adminCancel (env : CancelEnv) (orderNo : String)
  | adminStatus (now : Int) (orderNo status : String)

/-- The handler answering a request. -/
def handle : Request → Store → Response × Store
  | .create env user req, s => createOrder env user req s
  | .cancel env user orderNo, s => cancelOrder env user orderNo s
  | .adminCancel env orderNo, s => adminCancelOrder env orderNo s
  | .adminStatus now orderNo status, s => updateOrderStatus now orderNo status s

/-- The stores after a sequence of requests, handled one after the other. -/
def run (s : Store) (requests : List Request) : Store :=
  requests.foldl (fun st r => (handle r st).2) s

/-! ## Notions used in the statements -/

/-- Total quantity of the lines of `items` that are for the product at position `j`
of `products`, a line being for the product that `productById.get(item.productId)`
returns. -/
def lineQuantity (products : List Product) (items : List OrderItem) (j : Nat) : Int :=
  ((items.filter (fun item => productIndex products item.productId == some j)).map
    (fun item => item.quantity)).sum

/-- Both stock loops at once: `sign * quantity` is added for every line, starting from
the list `ps`. -/
def shiftStock (products : List Product) (sign : Int) (ps : List Product)
    (items : List OrderItem) : List Product :=
  items.foldl (fun ps item =>
    match productIndex products item.productId with
    | some k => addStock ps k (sign * item.quantity)
    | none => ps) ps

/-- The payment method of a request: `normalizeText(paymentMethod) || "Kapida Odeme"`. -/
def paymentMethodOf (req : OrderRequest) : String :=
  if (normalizeText req.paymentMethod).data.isEmpty then "Kapida Odeme"
  else normalizeText req.paymentMethod

/-- Check (a): every field of the cleaned customer record is filled. -/
def customerViolation (user : User) (req : OrderRequest) : Option ApiError :=
  if missingFields (cleanCustomer user req.customer) = [] then none
  else some (.missingCustomer (missingFields (cleanCustomer user req.customer)))

/-- Check (b): the cart is not empty. -/
def cartViolation (req : OrderRequest) : Option ApiError :=
  if req.items = [] then some .emptyCart else none

/-- Check (d): a card payment passes the payment validator. -/
def paymentViolation (env : CardEnv) (req : OrderRequest) : Option ApiError :=
  if paymentMethodOf req = "Kredi Karti" then
    match validateCardPayment env req.payment with
    | .rejected message => some (.payment message)
    | .accepted _ => none
  else none

/-- Line check 1: the product exists. -/
def productMissing (products : List Product) (raw : RawItem) : Option ApiError :=
  match productById products (normalizeText raw.productId) with
  | none => some (.productNotFound (normalizeText raw.productId))
  | some _ => none

/-- Line check 2: the size is given and is one of the product's sizes. -/
def sizeInvalid (products : List Product) (raw : RawItem) : Option ApiError :=
  match productById products (normalizeText raw.productId) with
  | some product =>
    if normalizeText raw.size = "" ∨ normalizeText raw.size ∉ product.sizes then
      some (.invalidSize product.name)
    else none
  | none => none

/-- Line check 3: the quantity is a positive integer (a finite whole Number above 0). -/
def quantityInvalid (products : List Product) (raw : RawItem) : Option ApiError :=
  match productById products (normalizeText raw.productId), parseInt10 raw.quantity with
  | some product, .finite quantity =>
    if 0 < quantity then none else some (.invalidQuantity product.name)
  | some product, _ => some (.invalidQuantity product.name)
  | none, _ => none

/-- Line check 4: the quantity does not exceed the product's stock. -/
def stockInsufficient (products : List Product) (raw : RawItem) : Option ApiError :=
  match productById products (normalizeText raw.productId) with
  | some product =>
    if (parseInt10 raw.quantity).gt product.stock then
      some (.insufficientStock product.name product.stock)
    else none
  | none => none

/-- The first of the four line checks that a cart line fails. -/
def lineViolation (products : List Product) (raw : RawItem) : Option ApiError :=
  [productMissing products raw, sizeInvalid products raw, quantityInvalid products raw,
    stockInsufficient products raw].findSome? id

/-- The first failing check of a request, in the order customer, cart, card payment,
then the cart lines from first to last. -/
def firstViolation (env : CreateEnv) (user : User) (req : OrderRequest) (s : Store) :
    Option ApiError :=
  ([customerViolation user req, cartViolation req, paymentViolation env.card req] ++
    req.items.map (lineViolation s.products)).findSome? id

/-- The normalized lines of the cart lines that pass their checks. -/
def okItems (products : List Product) (raws : List RawItem) : List OrderItem :=
  raws.filterMap (fun raw =>
    match checkItem products raw with
    | .ok item => some item
    | .error _ => none)

/-- The payment snapshot stored with an accepted request. -/
def snapshotOf (env : CardEnv) (req : OrderRequest) : PaymentSnapshot :=
  match (if paymentMethodOf req = "Kredi Karti" then validateCardPayment env req.payment
    else .rejected "") with
  | .accepted snapshot => snapshot
  | .rejected _ =>
    { method := paymentMethodOf req, cardHolder := none, cardBrand := none, cardLast4 := none,
      approvalCode := none }

/-- Sum of the `lineTotal` fields. -/
def sumLineTotals (items : List OrderItem) : Int :=
  (items.map (fun item => item.lineTotal)).sum

/-- The order that an accepted request stores. -/
def orderOf (env : CreateEnv) (user : User) (req : OrderRequest) (products : List Product) :
    Order :=
  { orderNo := createOrderNo env.nowOrderNo env.drawOrderNo
    userId := user.id
    createdAt := some env.nowCreated
    customer := cleanCustomer user req.customer
    items := okItems products req.items
    paymentMethod := paymentMethodOf req
    payment := snapshotOf env.card req
    subtotal := sumLineTotals (okItems products req.items)
    shipping := if sumLineTotals (okItems products req.items) ≥ 1500 then 0 else 79
    total := sumLineTotals (okItems products req.items) +
      (if sumLineTotals (okItems products req.items) ≥ 1500 then 0 else 79)
    status := "Hazirlaniyor"
    cancelled := false
    cancelledAt := none }

/-- The totals of an order agree with its lines: `subtotal` is the sum of the line
totals, shipping is free from 1500 on and 79 below, `total` is their sum. -/
def TotalsOk (o : Order) : Prop :=
  o.subtotal = sumLineTotals o.items ∧
  o.shipping = (if o.subtotal ≥ 1500 then 0 else 79) ∧
  o.total = o.subtotal + o.shipping

/-- The five rules of the payment validator, in the order the code tests them. -/
inductive CardRule where
  | name
  | number
  | expiryFormat
  | expired
  | cvv
deriving DecidableEq

/-- The rules from the lowest-numbered to the highest-numbered. -/
def cardRules : List CardRule :=
  [.name, .number, .expiryFormat, .expired, .cvv]

/-- The rejection reason of a rule. -/
def CardRule.message : CardRule → String
  | .name => "Kart uzerindeki isim gecersiz."
  | .number => "Kart numarasi gecersiz."
  | .expiryFormat => "Son kullanma tarihi gecersiz."
  | .expired => "Kartin son kullanma tarihi gecmis."
  | .cvv => "CVV gecersiz."

/-- The test that the code makes for a rule: the normalized card holder has fewer than 2
characters; the card number fails `isValidCardNumber`; the month is not an integer in
1..12 or the year does not normalize to a non-zero integer; `isCardExpired` holds of a
well-formed expiry; the digits of the CVV are not 3 or 4. -/
def CardRule.violated (env : CardEnv) (p : CardPayload) : CardRule → Bool
  | .name => decide (jsLength (normalizeText p.cardHolder) < 2)
  | .number => !isValidCardNumber (onlyDigits p.cardNumber)
  | .expiryFormat =>
    match toInt p.expiryMonth, normalizeExpiryYear p.expiryYear with
    | .finite month, some year => decide (month < 1 ∨ 12 < month ∨ year = 0)
    | _, _ => true
  | .expired =>
    match toInt p.expiryMonth, normalizeExpiryYear p.expiryYear with
    | .finite month, some year => isCardExpired env.tzOffset env.nowExpiry month year
    | _, _ => false
  | .cvv =>
    !(decide (3 ≤ (onlyDigits p.cvv).data.length) && decide ((onlyDigits p.cvv).data.length ≤ 4))

/-- The first rule whose test in the code fails. -/
def firstViolatedRule (env : CardEnv) (p : CardPayload) : Option CardRule :=
  cardRules.find? (fun r => r.violated env p)

/-- The redacted snapshot of an accepted payload. -/
def cardSnapshot (env : CardEnv) (p : CardPayload) : PaymentSnapshot :=
  { method := "Kredi Karti"
    cardHolder := some (normalizeText p.cardHolder)
    cardBrand := some (detectCardBrand (onlyDigits p.cardNumber))
    cardLast4 := some (sliceLast 4 (onlyDigits p.cardNumber))
    approvalCode := some (createApprovalCode env.nowApproval env.drawApproval) }

/-- Who sends a cancel request: a user through the self-service endpoint, or an admin. -/
inductive Canceller where
  | owner (user : User)
  | admin
deriving DecidableEq

/-- The order that the cancel handler of the caller finds for an order number: the
`orders.findIndex(...)` of that handler. -/
def Canceller.lookup (c : Canceller) (rawOrderNo : String) (orders : List Order) :
    Option (Nat × Order) :=
  match c with
  | .owner user =>
    findOrder (fun item => item.orderNo == normalizeText rawOrderNo && item.userId == user.id)
      orders
  | .admin => findOrder (fun item => item.orderNo == normalizeText rawOrderNo) orders

/-- The cancel handler of the caller. -/
def cancelBy (c : Canceller) (env : CancelEnv) (rawOrderNo : String) (s : Store) :
    Response × Store :=
  match c with
  | .owner user => cancelOrder env user rawOrderNo s
  | .admin => adminCancelOrder env rawOrderNo s

/-- Whether the delivered check of the self-service handler stops the caller. -/
def Canceller.blockedByDelivery (c : Canceller) (env : CancelEnv) (o : Order) : Bool :=
  match c with
  | .owner _ => decide (resolveTrackingStatus env.nowTracking o.createdAt = "Teslim Edildi")
  | .admin => false

/-- The `ageHours` of `resolveTrackingStatus`, as an exact fraction:
`(Date.now() - createdTime) / (1000 * 60 * 60)`. -/
def ageHours (now createdTime : Int) : ℚ :=
  ((now - createdTime : Int) : ℚ) / (1000 * 60 * 60)

/-- In a list answer, `a` stands before `b` only if both have a valid `createdAt` and
that of `a` is not older. -/
def NewestFirst (a b : Order × String) : Prop :=
  ∃ ta tb, a.1.createdAt = some ta ∧ b.1.createdAt = some tb ∧ tb ≤ ta

/-- Whether a request is an order creation. -/
def Request.isCreate : Request → Bool
  | .create _ _ _ => true
  | _ => false

/-- The fields of an order other than `status`, `cancelled` and `cancelledAt` are the
same in `o'` as in `o`. -/
def SameFixedFields (o o' : Order) : Prop :=
  o'.orderNo = o.orderNo ∧ o'.userId = o.userId ∧ o'.createdAt = o.createdAt ∧
  o'.customer = o.customer ∧ o'.items = o.items ∧ o'.paymentMethod = o.paymentMethod ∧
  o'.payment = o.payment ∧ o'.subtotal = o.subtotal ∧ o'.shipping = o.shipping ∧
  o'.total = o.total

/-- The card brand as the specification words it, on the digits of the digits-only
number: Visa when it starts with 4, Mastercard when its first two digits are 51..55 or
22..27, Amex when they are 34 or 37, and the generic brand otherwise. -/
def cardBrandSpec (number : String) : String :=
  let ds := digitsOf number
  let firstTwo := 10 * ds.getD 0 0 + ds.getD 1 0
  if ds.head? = some 4 then "Visa"
  else if 2 ≤ ds.length ∧ ((51 ≤ firstTwo ∧ firstTwo ≤ 55) ∨ (22 ≤ firstTwo ∧ firstTwo ≤ 27)) then
    "Mastercard"
  else if 2 ≤ ds.length ∧ (firstTwo = 34 ∨ firstTwo = 37) then "Amex"
  else "Kart"

/-- The flag `cancelled` agrees with the persisted status, and the status is one of the
five states of the state machine. -/
def StatusOk (o : Order) : Prop :=
  (o.cancelled = true ↔ o.status = "Iptal Edildi") ∧
  o.status ∈ ["Hazirlaniyor", "Kargoya Verildi", "Yolda", "Teslim Edildi", "Iptal Edildi"]

/-- Position of a tracking status in the order
Hazirlaniyor < Kargoya Verildi < Yolda < Teslim Edildi. -/
def statusRank (status : String) : Nat :=
  if status = "Hazirlaniyor" then 0
  else if status = "Kargoya Verildi" then 1
  else if status = "Yolda" then 2
  else 3

/-- The character of a digit value below 10. -/
def digitChar (k : Nat) : Char :=
  "0123456789".data.getD k '0'

/-- Total quantity, in all orders that are not cancelled, of the lines for the product at
position `j` of `products`. -/
def activeQuantity (products : List Product) (orders : List Order) (j : Nat) : Int :=
  (orders.map (fun o => if o.cancelled then 0 else lineQuantity products o.items j)).sum

/-- Stock conservation relative to the initial product list `init`: the products are
still the same entries, and for each the current stock plus the quantity held by
non-cancelled orders is the initial stock. -/
def Conserved (init : List Product) (s : Store) : Prop :=
  s.products.map (fun p => p.id) = init.map (fun p => p.id) ∧
  ∀ j : Nat, s.products[j]?.map (fun q => q.stock + activeQuantity s.products s.orders j) =
    init[j]?.map (fun p => p.stock)

/-- Whether the request is an admin status update. -/
def Request.isStatusUpdate : Request → Bool
  | .adminStatus _ _ _ => true
  | _ => false

/-- Number of days of month `m` (1 = January) of year `y` in the Gregorian calendar. -/
def daysInMonth (y m : Int) : Int :=
  if m = 2 then (if isLeapYear y then 29 else 28)
  else if m = 4 ∨ m = 6 ∨ m = 9 ∨ m = 11 then 30
  else 31

/-- Local time value of the first instant of month `m` (1 = January) of year `y`. -/
def monthStart (y m : Int) : Int :=
  (dayFromYear y + ((List.range (m.toNat - 1)).map (fun k => daysInMonth y (k + 1))).sum) *
    86400000

/-- The last instant of month `m` of year `y`, in the words of the specification: the
millisecond before the month ends in local time, as a time value. -/
def lastInstantOfMonth (tzOffset : Int → Int) (m y : Int) : Int :=
  let localTime := monthStart y m + daysInMonth y m * 86400000 - 1
  localTime - tzOffset localTime

/-- The year that `new Date(year, ...)` takes for a year argument: 0..99 stand for
1900..1999. -/
def dateYear (year : Int) : Int :=
  if 0 ≤ year ∧ year ≤ 99 then 1900 + year else year

/-- The expiry of a payload, read on the payload itself: the month and the year when both
fields are read by `Number.parseInt` as finite whole numbers, a year below 100 being
mapped to `2000 + year`. -/
def expiryOf (p : CardPayload) : Option (Int × Int) :=
  match parseInt10 p.expiryMonth, parseInt10 p.expiryYear with
  | .finite month, .finite year =>
    some (month, if year < 100 then roundInt (2000 + year) else year)
  | _, _ => none

/-- Whether a payload breaks a rule of the payment validator, each rule stated on the
payload itself and not through the functions of the code:
1. the card holder, trimmed and without `<` and `>`, has fewer than 2 UTF-16 units;
2. the digits of the card number are not 13 to 19 in number, or their Luhn sum is not
   divisible by 10;
3. the month is not a whole number in 1..12, or the year is not a whole number, or the
   normalized year is 0;
4. the expiry is well-formed and the last instant of its month, in the year the `Date`
   constructor takes, is a valid time value strictly before the current instant;
5. the digits of the CVV are not 3 or 4 in number. -/
def CardRule.brokenBy (env : CardEnv) (p : CardPayload) : CardRule → Bool
  | .name =>
    decide (jsLength ⟨(jsTrim p.cardHolder.data).filter (fun c => !(c == '<' || c == '>'))⟩ < 2)
  | .number =>
    !(decide (13 ≤ (digitsOf p.cardNumber).length) &&
      decide ((digitsOf p.cardNumber).length ≤ 19) &&
      decide (luhnSumSpec (digitsOf p.cardNumber) % 10 = 0))
  | .expiryFormat =>
    match expiryOf p with
    | some (month, year) => decide (month < 1 ∨ 12 < month ∨ year = 0)
    | none => true
  | .expired =>
    match expiryOf p with
    | some (month, year) =>
      decide (1 ≤ month ∧ month ≤ 12 ∧ year ≠ 0 ∧
        (lastInstantOfMonth env.tzOffset month (dateYear year)).natAbs ≤ 8640000000000000 ∧
        lastInstantOfMonth env.tzOffset month (dateYear year) < env.nowExpiry)
    | none => false
  | .cvv =>
    !(decide (3 ≤ (digitsOf p.cvv).length) && decide ((digitsOf p.cvv).length ≤ 4))

/-- The lowest-numbered rule that a payload breaks. -/
def firstBrokenRule (env : CardEnv) (p : CardPayload) : Option CardRule :=
  cardRules.find? (fun r => r.brokenBy env p)

/-! ## Sample data -/

/-- A registered user. -/
def sampleUser : User :=
  ⟨"USR-1", "Ayse Yilmaz", "ayse@example.com", "5550000000"⟩

/-- Another registered user. -/
def otherUser : User :=
  ⟨"USR-2", "Mehmet Kaya", "mehmet@example.com", "5551111111"⟩

/-- A complete customer record. -/
def sampleCustomer : RawCustomer :=
  ⟨"Ayse Yilmaz", "ayse@example.com", "5550000000", "Cadde 1", "Izmir", "Konak", "35000"⟩

/-- The product of the specification's scenario: stock 2, sizes M and L. -/
def sampleProduct : Product :=
  ⟨"P1", "Gomlek", 400, 2, ["M", "L"]⟩

/-- A payload with no card data, as sent with cash on delivery. -/
def noCard : CardPayload :=
  ⟨"", "", "", "", ""⟩

/-- Clock at 2023-11-14T22:13:20Z in UTC, first random draw 0. -/
def sampleCardEnv : CardEnv :=
  ⟨fun _ => 0, 1700000000000, 1700000000000, ⟨0, by decide⟩⟩

/-- Clock at 2023-11-14T22:13:20Z for every reading. -/
def sampleCreateEnv : CreateEnv :=
  ⟨sampleCardEnv, 1700000000000, ⟨23, by decide⟩, 1700000000000, 1700000000000⟩

/-- One hour after `sampleCreateEnv`. -/
def sampleCancelEnv : CancelEnv :=
  ⟨1700003600000, 1700003600000, 1700003600000⟩

/-- A cart with two lines for the same product, in two sizes, each within stock. -/
def twoSizesRequest : OrderRequest :=
  ⟨sampleCustomer, [⟨"P1", "M", "2"⟩, ⟨"P1", "L", "2"⟩], "", noCard⟩

/-- A cart whose first line names an undeclared size and whose second line asks for
more than the stock. -/
def badSizeThenOverStockRequest : OrderRequest :=
  ⟨sampleCustomer, [⟨"P1", "XL", "1"⟩, ⟨"P1", "M", "5"⟩], "", noCard⟩

/-- A cart whose only line asks for more than the stock. -/
def overStockRequest : OrderRequest :=
  ⟨sampleCustomer, [⟨"P1", "M", "5"⟩], "", noCard⟩

/-- A card request with an unknown product in the cart and no card data. -/
def badLineBadCardRequest : OrderRequest :=
  ⟨sampleCustomer, [⟨"P9", "M", "1"⟩], "Kredi Karti", noCard⟩

/-- A request for one piece of the sample product, cash on delivery. -/
def oneLineRequest : OrderRequest :=
  ⟨sampleCustomer, [⟨"P1", "M", "1"⟩], "", noCard⟩

/-- The order stored for `oneLineRequest`. -/
def sampleOrder : Order :=
  orderOf sampleCreateEnv sampleUser oneLineRequest [sampleProduct]

/-- Creation of `sampleOrder` followed by its cancellation by the owner an hour later. -/
def createThenCancel : List Request :=
  [.create sampleCreateEnv sampleUser oneLineRequest,
   .cancel sampleCancelEnv sampleUser "GS-00000000-123"]

/-- The stores after `oneLineRequest` was accepted: stock 1 and one order. -/
def storeWithOrder : Store :=
  (createOrder sampleCreateEnv sampleUser oneLineRequest ⟨[sampleProduct], []⟩).2

/-- The order number of `sampleOrder`. -/
def sampleOrderNo : String :=
  "GS-00000000-123"

/-- Exactly 72 hours after `sampleCreateEnv`. -/
def lateCancelEnv : CancelEnv :=
  ⟨1700259200000, 1700259200000, 1700259200000⟩

/-- The sample order after its owner cancelled it an hour after creation. -/
def storeCancelled : Store :=
  (cancelOrder sampleCancelEnv sampleUser sampleOrderNo storeWithOrder).2

/-- Clock 100000000 ms (about 27.8 hours) after `sampleCreateEnv`, same random draw. -/
def laterCreateEnv : CreateEnv :=
  ⟨⟨fun _ => 0, 1700100000000, 1700100000000, ⟨0, by decide⟩⟩, 1700100000000, ⟨23, by decide⟩,
    1700100000000, 1700100000000⟩

/-- The same cart as `oneLineRequest`, sent by `otherUser`. -/
def otherUserRequest : OrderRequest :=
  ⟨⟨"Mehmet Kaya", "mehmet@example.com", "5551111111", "Sokak 2", "Ankara", "Cankaya", "06000"⟩,
    [⟨"P1", "M", "1"⟩], "", noCard⟩

/-- A valid Visa payload, expiring in December 2026. -/
def sampleCard : CardPayload :=
  ⟨"Ayse Yilmaz", "4111 1111 1111 1111", "12", "26", "123"⟩

/-- Another valid Visa payload of the same holder with the same last four digits, other
digits, expiry and CVV. -/
def sampleCardTwin : CardPayload :=
  ⟨"Ayse Yilmaz", "4000000791901111", "3", "2030", "9876"⟩

/-- A later clock reading and another draw for the payment validator. -/
def laterCardEnv : CardEnv :=
  ⟨fun _ => 0, 1700000012345, 1700000012345, ⟨7, by decide⟩⟩

/-- The snapshot of `sampleCardTwin` under `laterCardEnv`. -/
def twinSnapshot : PaymentSnapshot :=
  ⟨"Kredi Karti", some "Ayse Yilmaz", some "Visa", some "1111", some "APR-012345-107"⟩

/-- The snapshot stored for `sampleCard` under `sampleCardEnv`. -/
def sampleSnapshot : PaymentSnapshot :=
  ⟨"Kredi Karti", some "Ayse Yilmaz", some "Visa", some "1111", some "APR-000000-100"⟩

/-- A single line for the whole stock of the sample product. -/
def wholeStockRequest : OrderRequest :=
  ⟨sampleCustomer, [⟨"P1", "M", "2"⟩], "", noCard⟩

/-- A card request with the Luhn-invalid number of the specification and a valid holder. -/
def badNumberRequest : OrderRequest :=
  ⟨sampleCustomer, [⟨"P1", "M", "1"⟩], "Kredi Karti",
    ⟨"Ayse Yilmaz", "4111111111111112", "12", "26", "123"⟩⟩

/-- The same request with no card holder. -/
def badNumberNoHolderRequest : OrderRequest :=
  ⟨sampleCustomer, [⟨"P1", "M", "1"⟩], "Kredi Karti",
    ⟨"", "4111111111111112", "12", "26", "123"⟩⟩

/-- A request whose customer record gives only the address fields. -/
def accountCustomerRequest : OrderRequest :=
  ⟨⟨"", "", "", "Cadde 1", "Izmir", "Konak", "35000"⟩, [⟨"P1", "M", "1"⟩], "", noCard⟩

/-- The sample order an hour after creation, set to Teslim Edildi by an admin. -/
def storeDelivered : Store :=
  (updateOrderStatus 1700003600000 sampleOrderNo "Teslim Edildi" storeWithOrder).2

/-- Creation of `sampleOrder`, its cancellation by the owner, then an admin status
update of the cancelled order to Yolda. -/
def uncancelRequests : List Request :=
  createThenCancel ++ [.adminStatus 1700003600000 "GS-00000000-123" "Yolda"]

/-- A Visa payload whose expiry year is sent as -300000. -/
def farPastCard : CardPayload :=
  ⟨"Ayse Yilmaz", "4111 1111 1111 1111", "1", "-300000", "123"⟩

/-- A numeral of 401 digits. -/
def hugeNumeral : String :=
  ⟨List.replicate 401 '9'⟩

/-- A request for the sample product whose quantity is a numeral of 401 digits. -/
def hugeQuantityRequest : OrderRequest :=
  ⟨sampleCustomer, [⟨"P1", "M", hugeNumeral⟩], "", noCard⟩

/-- A valid Visa payload but for its card holder, which is `<A>` between two blanks, and
its Luhn-invalid number. -/
def bracketHolderBadNumberCard : CardPayload :=
  ⟨" <A> ", "4111111111111112", "12", "26", "123"⟩

/-- The store after `sampleUser` at `sampleCreateEnv` and `otherUser` at `laterCreateEnv`
each ordered one piece: two orders with the number GS-00000000-123. -/
def storeSharedNo : Store :=
  run ⟨[sampleProduct], []⟩
    [.create sampleCreateEnv sampleUser oneLineRequest,
     .create laterCreateEnv otherUser otherUserRequest]

/-! ## Theorems -/



/-! ### Text helpers -/

theorem filter_dropWhile_disjoint (p q : Char → Bool) (h : ∀ c, p c = true → q c = false)
    (l : List Char) : (l.dropWhile p).filter q = l.filter q := by
  induction l with
  | nil => rfl
  | cons c rest ih =>
    by_cases hp : p c = true
    · simp [List.dropWhile_cons, hp, h c hp, ih]
    · simp [List.dropWhile_cons, hp]

theorem isJsSpace_not_digit (c : Char) (h : isJsSpace c = true) : isDigitChar c = false := by
  simp only [isJsSpace, isDigitChar, Bool.or_eq_true, Bool.and_eq_true, beq_iff_eq,
    decide_eq_true_eq] at h
  simp only [isDigitChar, Bool.and_eq_false_iff, decide_eq_false_iff_not]
  omega

theorem filter_digits_jsTrim (cs : List Char) :
    (jsTrim cs).filter isDigitChar = cs.filter isDigitChar := by
  unfold jsTrim
  rw [List.filter_reverse, filter_dropWhile_disjoint _ _ isJsSpace_not_digit,
    List.filter_reverse, filter_dropWhile_disjoint _ _ isJsSpace_not_digit, List.reverse_reverse]

/-- The digits-only form keeps exactly the digit characters, in order. -/
theorem onlyDigits_data (s : String) : (onlyDigits s).data = s.data.filter isDigitChar := by
  simp only [onlyDigits, normalizeText, List.filter_filter]
  rw [← filter_digits_jsTrim s.data]
  apply List.filter_congr
  intro c _
  by_cases hd : isDigitChar c = true
  · have h1 : c ≠ '<' := by rintro rfl; revert hd; decide
    have h2 : c ≠ '>' := by rintro rfl; revert hd; decide
    simp [hd, h1, h2]
  · simp [hd]

theorem jsLength_of_digits (l : List Char) (h : ∀ c ∈ l, isDigitChar c = true) :
    jsLength ⟨l⟩ = l.length := by
  unfold jsLength
  induction l with
  | nil => rfl
  | cons c rest ih =>
    have hc := h c (List.mem_cons_self _ _)
    simp only [isDigitChar, Bool.and_eq_true, decide_eq_true_eq] at hc
    have hlt : c.toNat < 0x10000 := by omega
    have := ih (fun d hd => h d (List.mem_cons_of_mem _ hd))
    simp only [List.map_cons, List.sum_cons, List.length_cons] at this ⊢
    rw [this, if_pos hlt]; omega

theorem jsLength_onlyDigits (s : String) :
    jsLength (onlyDigits s) = (s.data.filter isDigitChar).length := by
  have h := jsLength_of_digits (s.data.filter isDigitChar)
    (fun c hc => (List.mem_filter.mp hc).2)
  rw [← h]
  congr 1
  exact String.ext (onlyDigits_data s)

/-! ### Luhn check -/

theorem luhnLoop_cons (c : Char) (rest : List Char) (s : Nat) (b : Bool) :
    luhnLoop (c :: rest) s b = luhnLoop rest (s + luhnDigit b (c.toNat - 48)) (!b) := rfl

theorem luhnLoop_acc (l : List Char) (s : Nat) (b : Bool) :
    luhnLoop l s b = s + luhnLoop l 0 b := by
  induction l generalizing s b with
  | nil => simp [luhnLoop]
  | cons c rest ih =>
    rw [luhnLoop_cons, luhnLoop_cons, ih, ih (0 + _)]
    omega

theorem luhnLoop_append (l₁ l₂ : List Char) (s : Nat) (b : Bool) :
    luhnLoop (l₁ ++ l₂) s b = luhnLoop l₂ (luhnLoop l₁ s b) (luhnFlag l₁ b) := by
  induction l₁ generalizing s b with
  | nil => rfl
  | cons c rest ih => simp only [List.cons_append, luhnLoop_cons, luhnFlag, ih]

theorem luhnDigit_inj : ∀ b : Bool, ∀ x, x < 10 → ∀ y, y < 10 →
    luhnDigit b x % 10 = luhnDigit b y % 10 → x = y := by
  decide

theorem digit_val_lt (c : Char) (h : isDigitChar c = true) : c.toNat - 48 < 10 := by
  simp only [isDigitChar, Bool.and_eq_true, decide_eq_true_eq] at h
  omega

theorem digit_val_inj (c d : Char) (hc : isDigitChar c = true) (hd : isDigitChar d = true)
    (h : c.toNat - 48 = d.toNat - 48) : c = d := by
  simp only [isDigitChar, Bool.and_eq_true, decide_eq_true_eq] at hc hd
  have h2 : c.toNat = d.toNat := by omega
  have := congrArg Char.ofNat h2
  simpa [Char.ofNat_toNat] using this

/-- Replacing one digit by a different digit changes the Luhn sum modulo 10. -/
theorem luhnLoop_replace (pre post : List Char) (a d : Char)
    (ha : isDigitChar a = true) (hd : isDigitChar d = true) (hne : d ≠ a) :
    luhnLoop (pre ++ d :: post).reverse 0 false % 10 ≠
      luhnLoop (pre ++ a :: post).reverse 0 false % 10 := by
  simp only [List.reverse_append, List.reverse_cons, List.append_assoc, List.singleton_append]
  rw [luhnLoop_append, luhnLoop_append, luhnLoop_cons, luhnLoop_cons]
  generalize luhnLoop post.reverse 0 false = s
  generalize luhnFlag post.reverse false = b
  rw [luhnLoop_acc _ (s + luhnDigit b (d.toNat - 48)), luhnLoop_acc _ (s + luhnDigit b (a.toNat - 48))]
  generalize luhnLoop pre.reverse 0 (!b) = t
  intro h
  have hmod : luhnDigit b (d.toNat - 48) % 10 = luhnDigit b (a.toNat - 48) % 10 := by omega
  exact hne (digit_val_inj d a hd ha
    (luhnDigit_inj b _ (digit_val_lt d hd) _ (digit_val_lt a ha) hmod))

/-- The loop of the code computes the position-wise sum. -/
theorem luhnLoop_eq_sum (l : List Char) (s : Nat) (b : Bool) :
    luhnLoop l s b = s + ((List.range l.length).map (fun k =>
      luhnDigit (if k % 2 = 1 then !b else b) ((l.getD k '0').toNat - 48))).sum := by
  induction l generalizing s b with
  | nil => simp [luhnLoop]
  | cons c rest ih =>
    rw [luhnLoop_cons, ih, List.length_cons, List.range_succ_eq_map]
    simp only [List.map_cons, List.sum_cons, List.map_map, List.getD_cons_zero]
    have hfun : (fun k => luhnDigit (if k % 2 = 1 then !(!b) else !b)
          ((rest.getD k '0').toNat - 48)) =
        ((fun k => luhnDigit (if k % 2 = 1 then !b else b)
          (((c :: rest).getD k '0').toNat - 48)) ∘ Nat.succ) := by
      funext k
      simp only [Function.comp, Nat.succ_eq_add_one, List.getD_cons_succ, Bool.not_not]
      rcases Nat.mod_two_eq_zero_or_one k with h | h
      · have h1 : (k + 1) % 2 = 1 := by omega
        simp [h, h1]
      · have h1 : (k + 1) % 2 = 0 := by omega
        simp [h, h1]
    rw [hfun]
    simp
    omega

theorem isValidCardNumber_iff (s : String) :
    isValidCardNumber s = true ↔
      13 ≤ (s.data.filter isDigitChar).length ∧ (s.data.filter isDigitChar).length ≤ 19 ∧
      luhnLoop (s.data.filter isDigitChar).reverse 0 false % 10 = 0 := by
  unfold isValidCardNumber
  simp only [jsLength_onlyDigits, onlyDigits_data]
  by_cases h : (s.data.filter isDigitChar).length < 13 ∨ (s.data.filter isDigitChar).length > 19
  · have : ¬ (13 ≤ (s.data.filter isDigitChar).length ∧ (s.data.filter isDigitChar).length ≤ 19) := by
      omega
    simp [h]
    omega
  · have h1 : 13 ≤ (s.data.filter isDigitChar).length := by omega
    have h2 : (s.data.filter isDigitChar).length ≤ 19 := by omega
    simp [h, h1, h2]

theorem luhnSumSpec_digitsOf (s : String) :
    luhnSumSpec (digitsOf s) = luhnLoop (s.data.filter isDigitChar).reverse 0 false := by
  rw [luhnLoop_eq_sum]
  unfold luhnSumSpec digitsOf
  simp only [List.length_map, List.length_reverse, Nat.zero_add, ← List.map_reverse]
  apply congrArg
  apply List.map_congr_left
  intro k _
  have hget : (List.map (fun c : Char => c.toNat - 48) (s.data.filter isDigitChar).reverse).getD k 0
      = ((s.data.filter isDigitChar).reverse.getD k '0').toNat - 48 := by
    have := List.getD_map (l := (s.data.filter isDigitChar).reverse) (d := '0') (n := k)
      (fun c : Char => c.toNat - 48)
    simpa using this
  simp only [hget]
  rcases Nat.mod_two_eq_zero_or_one k with h | h
  · simp [h, luhnDigit]
  · simp [h, luhnDigit, Nat.mul_comm]

/-- C4: the Luhn validator rejects every single-digit alteration of an accepted digit
string: if `isValidCardNumber` accepts a string of digits, it rejects the string with
any one position replaced by a different digit. -/
theorem isValidCardNumber_rejects_single_digit_change (s : String) (i : Nat) (d : Char)
    (hs : ∀ c ∈ s.data, isDigitChar c = true) (hi : i < s.data.length)
    (hd : isDigitChar d = true) (hne : d ≠ s.data.get ⟨i, hi⟩)
    (hacc : isValidCardNumber s = true) :
    isValidCardNumber ⟨s.data.set i d⟩ = false := by
  have hfs : s.data.filter isDigitChar = s.data := List.filter_eq_self.mpr hs
  have hs2 : ∀ c ∈ s.data.set i d, isDigitChar c = true := by
    intro c hc
    rcases List.mem_or_eq_of_mem_set hc with h | h
    · exact hs c h
    · exact h ▸ hd
  have hfs2 : (s.data.set i d).filter isDigitChar = s.data.set i d := List.filter_eq_self.mpr hs2
  rw [isValidCardNumber_iff, hfs] at hacc
  rw [Bool.eq_false_iff]
  intro hacc2
  rw [isValidCardNumber_iff] at hacc2
  simp only [hfs2] at hacc2
  have hset : s.data.set i d = s.data.take i ++ d :: s.data.drop (i + 1) :=
    List.set_eq_take_cons_drop d hi
  have horig : s.data = s.data.take i ++ s.data.get ⟨i, hi⟩ :: s.data.drop (i + 1) := by
    conv_lhs => rw [← List.take_append_drop i s.data]
    rw [List.drop_eq_getElem_cons hi]
    rfl
  have hrep := luhnLoop_replace (s.data.take i) (s.data.drop (i + 1)) (s.data.get ⟨i, hi⟩) d
    (hs _ (List.get_mem _ _ _)) hd hne
  rw [← hset, ← horig] at hrep
  omega

/-- C4, at the specification's example: `4111111111111111` is accepted and
`4111111111111112`, its last digit altered, is rejected. -/
theorem isValidCardNumber_rejects_single_digit_change_witness :
    isValidCardNumber "4111111111111111" = true ∧
      isValidCardNumber "4111111111111112" = false :=
  ⟨by decide,
   isValidCardNumber_rejects_single_digit_change "4111111111111111" 15 '2'
     (by decide) (by decide) (by decide) (by decide) (by decide)⟩

/-- C5: `isValidCardNumber` returns true exactly when the digits-only form of its input
has between 13 and 19 digits and the standard Luhn sum of these digits is divisible by
10; the result is that of the digits-only form, so non-digit characters do not affect it. -/
theorem isValidCardNumber_iff_luhnSumSpec (s : String) :
    (isValidCardNumber s = true ↔
      13 ≤ (digitsOf s).length ∧ (digitsOf s).length ≤ 19 ∧ luhnSumSpec (digitsOf s) % 10 = 0) ∧
    isValidCardNumber s = isValidCardNumber ⟨s.data.filter isDigitChar⟩ := by
  constructor
  · rw [isValidCardNumber_iff, luhnSumSpec_digitsOf]
    simp [digitsOf]
  · rw [Bool.eq_iff_iff, isValidCardNumber_iff, isValidCardNumber_iff]
    simp [List.filter_filter]

/-! ### Stock loops -/

theorem addStock_getElem? (ps : List Product) (k : Nat) (delta : Int) (j : Nat) :
    (addStock ps k delta)[j]? =
      if j = k then ps[j]?.map (fun p => { p with stock := p.stock + delta }) else ps[j]? := by
  induction ps generalizing k j with
  | nil => cases k <;> simp [addStock]
  | cons p rest ih =>
    cases k with
    | zero =>
      cases j with
      | zero => simp [addStock]
      | succ j => simp [addStock]
    | succ k =>
      cases j with
      | zero => simp [addStock]
      | succ j => simp [addStock, ih]

theorem addStock_length (ps : List Product) (k : Nat) (delta : Int) :
    (addStock ps k delta).length = ps.length := by
  induction ps generalizing k with
  | nil => cases k <;> rfl
  | cons p rest ih => cases k <;> simp [addStock, ih]

theorem shiftStock_length (products : List Product) (sign : Int) (ps : List Product)
    (items : List OrderItem) : (shiftStock products sign ps items).length = ps.length := by
  induction items generalizing ps with
  | nil => rfl
  | cons item rest ih =>
    simp only [shiftStock, List.foldl_cons] at ih ⊢
    rw [ih]
    cases productIndex products item.productId <;> simp [addStock_length]

theorem lineQuantity_nil (products : List Product) (j : Nat) : lineQuantity products [] j = 0 := rfl

theorem lineQuantity_cons (products : List Product) (item : OrderItem) (rest : List OrderItem)
    (j : Nat) :
    lineQuantity products (item :: rest) j =
      (if productIndex products item.productId = some j then item.quantity else 0) +
        lineQuantity products rest j := by
  unfold lineQuantity
  by_cases h : productIndex products item.productId = some j
  · simp [List.filter_cons, h]
  · simp [List.filter_cons, h]

/-- Effect of a stock loop on the product at position `j`. -/
theorem shiftStock_getElem? (products : List Product) (sign : Int) (ps : List Product)
    (items : List OrderItem) (j : Nat) :
    (shiftStock products sign ps items)[j]? =
      ps[j]?.map (fun p => { p with stock := p.stock + sign * lineQuantity products items j }) := by
  induction items generalizing ps with
  | nil =>
    simp only [shiftStock, List.foldl_nil, lineQuantity_nil, mul_zero, add_zero]
    cases ps[j]? <;> rfl
  | cons item rest ih =>
    simp only [shiftStock, List.foldl_cons] at ih ⊢
    rw [ih, lineQuantity_cons]
    cases hk : productIndex products item.productId with
    | none => simp
    | some k =>
      simp only [addStock_getElem?]
      by_cases hjk : j = k
      · subst hjk
        cases ps[j]? with
        | none => simp
        | some p => simp [mul_add, add_assoc]
      · have : ¬ (k = j) := fun h => hjk h.symm
        simp [hjk, this]

theorem reserveStock_eq (products : List Product) (items : List OrderItem) :
    reserveStock products items = shiftStock products (-1) products items := by
  unfold reserveStock shiftStock
  congr 1
  funext ps item
  cases productIndex products item.productId <;> simp

theorem releaseStock_eq (products : List Product) (items : List OrderItem) :
    releaseStock products items = shiftStock products 1 products items := by
  unfold releaseStock shiftStock
  congr 1
  funext ps item
  cases productIndex products item.productId <;> simp

theorem releaseStock_getElem? (products : List Product) (items : List OrderItem) (j : Nat) :
    (releaseStock products items)[j]? =
      products[j]?.map (fun p => { p with stock := p.stock + lineQuantity products items j }) := by
  rw [releaseStock_eq, shiftStock_getElem?]
  simp

theorem reserveStock_getElem? (products : List Product) (items : List OrderItem) (j : Nat) :
    (reserveStock products items)[j]? =
      products[j]?.map (fun p => { p with stock := p.stock - lineQuantity products items j }) := by
  rw [reserveStock_eq, shiftStock_getElem?]
  simp [sub_eq_add_neg]

/-! ### Order creation -/

theorem lineViolation_eq (products : List Product) (raw : RawItem) :
    lineViolation products raw =
      match checkItem products raw with
      | .error e => some e
      | .ok _ => none := by
  unfold lineViolation checkItem productMissing sizeInvalid quantityInvalid stockInsufficient
    toInt
  simp only [List.findSome?_cons, List.findSome?_nil, id]
  cases hp : productById products (normalizeText raw.productId) with
  | none => simp
  | some product =>
    simp only []
    have hdata : (normalizeText raw.size).data = [] ↔ normalizeText raw.size = "" :=
      ⟨fun h => String.ext h, fun h => by rw [h]⟩
    by_cases hsize : normalizeText raw.size = "" ∨ normalizeText raw.size ∉ product.sizes
    · have hs : (normalizeText raw.size).data = [] ∨ normalizeText raw.size ∉ product.sizes := by
        rwa [hdata]
      simp [hsize, hs]
    · have hs : ¬ ((normalizeText raw.size).data = [] ∨ normalizeText raw.size ∉ product.sizes) := by
        rwa [hdata]
      simp only [hsize, if_false]
      cases hq : parseInt10 raw.quantity with
      | nan => simp [hs]
      | infinity negative => simp [hs]
      | finite quantity =>
        simp only [JsNumber.gt]
        by_cases hpos : 0 < quantity
        · have : ¬ quantity ≤ 0 := by omega
          by_cases hst : product.stock < quantity
          · simp [hpos, this, hst, hs]
          · simp [hpos, this, hst, hs]
        · have : quantity ≤ 0 := by omega
          simp [hpos, this, hs]

theorem okItems_cons (products : List Product) (raw : RawItem) (rest : List RawItem) :
    okItems products (raw :: rest) =
      match checkItem products raw with
      | .ok item => item :: okItems products rest
      | .error _ => okItems products rest := by
  unfold okItems
  cases h : checkItem products raw <;> simp [List.filterMap_cons, h]

theorem normalizeItems_eq (products : List Product) (raws : List RawItem)
    (acc : List OrderItem) (sub : Int) :
    normalizeItems products raws acc sub =
      match (raws.map (lineViolation products)).findSome? id with
      | some e => .error e
      | none => .ok (acc ++ okItems products raws, sub + sumLineTotals (okItems products raws)) := by
  induction raws generalizing acc sub with
  | nil => simp [normalizeItems, okItems, sumLineTotals]
  | cons raw rest ih =>
    rw [normalizeItems, List.map_cons, List.findSome?_cons, okItems_cons, lineViolation_eq]
    cases h : checkItem products raw with
    | error e => simp
    | ok item =>
      simp only [id]
      rw [ih]
      cases (rest.map (lineViolation products)).findSome? id with
      | some e => rfl
      | none => simp [sumLineTotals, add_assoc]

/-- Closed form of the creation handler: the first failing check is the answer and
nothing is written; with no failing check the order is appended and stock reserved. -/
theorem createOrder_eq (env : CreateEnv) (user : User) (req : OrderRequest) (s : Store) :
    createOrder env user req s =
      match firstViolation env user req s with
      | some e => (.failure e, s)
      | none =>
        (.created (orderOf env user req s.products).orderNo (orderOf env user req s.products).total
            (resolveTrackingStatus env.nowResponse (some env.nowCreated))
            (snapshotOf env.card req).approvalCode,
          { products := reserveStock s.products (okItems s.products req.items)
            orders := s.orders ++ [orderOf env user req s.products] }) := by
  unfold createOrder firstViolation
  simp only [List.cons_append, List.nil_append, List.findSome?_cons, id]
  by_cases hc : missingFields (cleanCustomer user req.customer) = []
  · have hcv : customerViolation user req = none := by simp [customerViolation, hc]
    simp only [hc, hcv, ne_eq, not_true_eq_false, if_false]
    by_cases hi : req.items = []
    · simp [hi, cartViolation]
    · have hiv : cartViolation req = none := by simp [cartViolation, hi]
      have hie : req.items.isEmpty = false := by simpa [List.isEmpty_iff] using hi
      simp only [hiv, hie, Bool.false_eq_true, if_false]
      rw [normalizeItems_eq]
      by_cases hm : paymentMethodOf req = "Kredi Karti"
      · have hm2 := hm
        unfold paymentMethodOf at hm2
        unfold paymentViolation
        simp only [hm, hm2, if_true]
        cases hv : validateCardPayment env.card req.payment with
        | rejected message => rfl
        | accepted snapshot =>
          have hsnap : snapshotOf env.card req = snapshot := by simp [snapshotOf, hm, hv]
          simp only []
          cases (req.items.map (lineViolation s.products)).findSome? id with
          | some e => rfl
          | none => simp [orderOf, hsnap, hm]
      · have hm2 := hm
        unfold paymentMethodOf at hm2
        unfold paymentViolation
        have hsnap : snapshotOf env.card req = ⟨paymentMethodOf req, none, none, none, none⟩ := by
          simp [snapshotOf, hm]
        simp only [hm, hm2, if_false]
        cases (req.items.map (lineViolation s.products)).findSome? id with
        | some e => rfl
        | none => simp [orderOf, hsnap, paymentMethodOf]
  · have hcv : customerViolation user req =
        some (.missingCustomer (missingFields (cleanCustomer user req.customer))) := by
      simp [customerViolation, hc]
    simp [hc, hcv]

theorem findOrder_some (pred : Order → Bool) (l : List Order) (i : Nat) (o : Order)
    (h : findOrder pred l = some (i, o)) : l[i]? = some o ∧ pred o = true := by
  induction l generalizing i with
  | nil => simp [findOrder] at h
  | cons x rest ih =>
    unfold findOrder at h
    by_cases hx : pred x = true
    · simp only [hx, if_true, Option.some.injEq, Prod.mk.injEq] at h
      obtain ⟨rfl, rfl⟩ := h
      simp [hx]
    · simp only [hx, if_false] at h
      cases hr : findOrder pred rest with
      | none => simp [hr] at h
      | some found =>
        obtain ⟨k, other⟩ := found
        simp only [hr, Option.some.injEq, Prod.mk.injEq] at h
        obtain ⟨rfl, rfl⟩ := h
        simpa using ih k hr

theorem findOrder_mem (pred : Order → Bool) (l : List Order) (i : Nat) (o : Order)
    (h : findOrder pred l = some (i, o)) : o ∈ l :=
  List.getElem?_mem (findOrder_some pred l i o h).1

theorem totalsOk_orderOf (env : CreateEnv) (user : User) (req : OrderRequest)
    (products : List Product) : TotalsOk (orderOf env user req products) :=
  ⟨rfl, rfl, rfl⟩

theorem totalsOk_set (l : List Order) (i : Nat) (o' : Order)
    (hl : ∀ o ∈ l, TotalsOk o) (ho : TotalsOk o') : ∀ o ∈ l.set i o', TotalsOk o := by
  intro o hmem
  rcases List.mem_or_eq_of_mem_set hmem with h | h
  · exact hl o h
  · exact h ▸ ho

theorem handle_totalsOk (r : Request) (s : Store) (hs : ∀ o ∈ s.orders, TotalsOk o) :
    ∀ o ∈ (handle r s).2.orders, TotalsOk o := by
  cases r with
  | create env user req =>
    simp only [handle, createOrder_eq]
    cases firstViolation env user req s with
    | some e => exact hs
    | none =>
      intro o hmem
      simp only [List.mem_append, List.mem_singleton] at hmem
      rcases hmem with h | h
      · exact hs o h
      · exact h ▸ totalsOk_orderOf env user req s.products
  | cancel env user orderNo =>
    simp only [handle, cancelOrder]
    cases hf : findOrder (fun item => item.orderNo == normalizeText orderNo &&
        item.userId == user.id) s.orders with
    | none => exact hs
    | some found =>
      obtain ⟨i, o⟩ := found
      simp only []
      split
      · exact hs
      · split
        · exact hs
        · exact totalsOk_set _ _ _ hs (hs o (findOrder_mem _ _ _ _ hf))
  | adminCancel env orderNo =>
    simp only [handle, adminCancelOrder]
    cases hf : findOrder (fun item => item.orderNo == normalizeText orderNo) s.orders with
    | none => exact hs
    | some found =>
      obtain ⟨i, o⟩ := found
      simp only []
      split
      · exact hs
      · exact totalsOk_set _ _ _ hs (hs o (findOrder_mem _ _ _ _ hf))
  | adminStatus now orderNo status =>
    simp only [handle, updateOrderStatus]
    split
    · exact hs
    · cases hf : findOrder (fun item => item.orderNo == normalizeText orderNo) s.orders with
      | none => exact hs
      | some found =>
        obtain ⟨i, o⟩ := found
        simp only []
        apply totalsOk_set _ _ _ hs
        have ho := hs o (findOrder_mem _ _ _ _ hf)
        split <;> exact ho

theorem run_totalsOk (requests : List Request) (s : Store) (hs : ∀ o ∈ s.orders, TotalsOk o) :
    ∀ o ∈ (run s requests).orders, TotalsOk o := by
  induction requests generalizing s with
  | nil => exact hs
  | cons r rest ih => exact ih (handle r s).2 (handle_totalsOk r s hs)

/-! ### Claims on order creation -/

/-- C1 (the code departs from the claim): a cart with two lines for the same product,
each within the stock of 2, is accepted and leaves that product with stock -2, although
every stock was non-negative before. -/
theorem createOrder_two_lines_same_product_negative_stock :
    (∀ p ∈ [sampleProduct], 0 ≤ p.stock) ∧
    (createOrder sampleCreateEnv sampleUser twoSizesRequest ⟨[sampleProduct], []⟩).1 =
      .created "GS-00000000-123" 1600 "Hazirlaniyor" none ∧
    (createOrder sampleCreateEnv sampleUser twoSizesRequest ⟨[sampleProduct], []⟩).2.products =
      [{ sampleProduct with stock := -2 }] := by
  decide

/-- C2: starting from an empty order store, after any sequence of order creations,
self-service cancellations, admin cancellations and admin status updates, every stored
order has `subtotal` equal to the sum of its line totals, `shipping` 0 when
`subtotal >= 1500` and 79 otherwise, and `total = subtotal + shipping`. -/
theorem order_totals_hold_after_any_requests (products : List Product)
    (requests : List Request) :
    ∀ o ∈ (run ⟨products, []⟩ requests).orders,
      o.subtotal = sumLineTotals o.items ∧
      o.shipping = (if o.subtotal ≥ 1500 then 0 else 79) ∧
      o.total = o.subtotal + o.shipping :=
  run_totalsOk requests ⟨products, []⟩ (by simp)

/-- C2 at a created and then cancelled order: subtotal 400, shipping 79, total 479. -/
theorem order_totals_hold_after_any_requests_witness :
    markCancelled 1700003600000 sampleOrder ∈ (run ⟨[sampleProduct], []⟩ createThenCancel).orders ∧
    (markCancelled 1700003600000 sampleOrder).subtotal =
      sumLineTotals (markCancelled 1700003600000 sampleOrder).items ∧
    (markCancelled 1700003600000 sampleOrder).shipping =
      (if (markCancelled 1700003600000 sampleOrder).subtotal ≥ 1500 then 0 else 79) ∧
    (markCancelled 1700003600000 sampleOrder).total =
      (markCancelled 1700003600000 sampleOrder).subtotal +
        (markCancelled 1700003600000 sampleOrder).shipping :=
  ⟨by decide,
   order_totals_hold_after_any_requests [sampleProduct] createThenCancel
     (markCancelled 1700003600000 sampleOrder) (by decide)⟩

theorem stockInsufficient_of_over (products : List Product) (raw : RawItem) (product : Product)
    (hproduct : productById products (normalizeText raw.productId) = some product)
    (hover : (toInt raw.quantity).gt product.stock = true) :
    stockInsufficient products raw = some (.insufficientStock product.name product.stock) := by
  have h : (parseInt10 raw.quantity).gt product.stock = true := hover
  simp [stockInsufficient, hproduct, h]

theorem lineViolation_ne_none_of_over (products : List Product) (raw : RawItem)
    (product : Product)
    (hproduct : productById products (normalizeText raw.productId) = some product)
    (hover : (toInt raw.quantity).gt product.stock = true) :
    lineViolation products raw ≠ none := by
  intro hnone
  unfold lineViolation at hnone
  rw [List.findSome?_eq_none_iff] at hnone
  have h := hnone (stockInsufficient products raw) (by simp)
  rw [stockInsufficient_of_over products raw product hproduct hover] at h
  simp at h

/-- The quantity check of a line for an existing product passes exactly when the
quantity parses to a finite whole number above 0. -/
theorem quantityInvalid_eq_none_iff (products : List Product) (raw : RawItem)
    (product : Product)
    (hproduct : productById products (normalizeText raw.productId) = some product) :
    quantityInvalid products raw = none ↔ ∃ q, toInt raw.quantity = .finite q ∧ 0 < q := by
  unfold quantityInvalid toInt
  rw [hproduct]
  cases parseInt10 raw.quantity with
  | nan => simp
  | infinity negative => simp
  | finite q =>
    by_cases hq : 0 < q
    · simp [hq]
    · simp [hq]

theorem firstViolation_ne_none_of_line (env : CreateEnv) (user : User) (req : OrderRequest)
    (s : Store) (raw : RawItem) (hmem : raw ∈ req.items)
    (hline : lineViolation s.products raw ≠ none) : firstViolation env user req s ≠ none := by
  intro hnone
  unfold firstViolation at hnone
  rw [List.findSome?_eq_none_iff] at hnone
  exact hline (hnone (lineViolation s.products raw)
    (List.mem_append_right _ (List.mem_map_of_mem _ hmem)))

theorem findSome?_lines_first (products : List Product) (pre post : List RawItem) (raw : RawItem)
    (hpre : ∀ r ∈ pre, lineViolation products r = none) :
    ((pre ++ raw :: post).map (lineViolation products)).findSome? id =
      ((lineViolation products raw).or
        ((post.map (lineViolation products)).findSome? id)) := by
  rw [List.map_append, List.findSome?_append]
  have h : (pre.map (lineViolation products)).findSome? id = none := by
    rw [List.findSome?_eq_none_iff]
    intro x hx
    obtain ⟨r, hr, rfl⟩ := List.mem_map.mp hx
    exact hpre r hr
  rw [h, List.map_cons, List.findSome?_cons]
  cases lineViolation products raw <;> simp

/-- C3, as amended: when some cart line asks for more than the stock of its product
(the quantity read by `toInt` compares greater than the stock, `Infinity` included),
creation fails, no order is appended and no stock changes; the failure is the
insufficient-stock error when the customer and card checks pass, no earlier line fails
a check, and the line's own size and quantity checks pass, the quantity check passing
exactly for a finite whole number above 0. -/
theorem createOrder_over_stock_fails_unchanged (env : CreateEnv) (user : User)
    (req : OrderRequest) (s : Store) (pre post : List RawItem) (raw : RawItem)
    (product : Product)
    (hitems : req.items = pre ++ raw :: post)
    (hproduct : productById s.products (normalizeText raw.productId) = some product)
    (hover : (toInt raw.quantity).gt product.stock = true) :
    (∃ e, createOrder env user req s = (.failure e, s)) ∧
    (customerViolation user req = none → paymentViolation env.card req = none →
      (∀ r ∈ pre, lineViolation s.products r = none) →
      sizeInvalid s.products raw = none → quantityInvalid s.products raw = none →
      createOrder env user req s =
        (.failure (.insufficientStock product.name product.stock), s)) ∧
    (quantityInvalid s.products raw = none ↔ ∃ q, toInt raw.quantity = .finite q ∧ 0 < q) := by
  have hmem : raw ∈ req.items := by rw [hitems]; simp
  have hline := lineViolation_ne_none_of_over s.products raw product hproduct hover
  refine ⟨?_, ?_, quantityInvalid_eq_none_iff s.products raw product hproduct⟩
  · have hne := firstViolation_ne_none_of_line env user req s raw hmem hline
    rw [createOrder_eq]
    cases hfv : firstViolation env user req s with
    | none => exact absurd hfv hne
    | some e => exact ⟨e, rfl⟩
  · intro hcust hpay hpre hsize hquantity
    have hcart : cartViolation req = none := by simp [cartViolation, hitems]
    have hlv : lineViolation s.products raw =
        some (.insufficientStock product.name product.stock) := by
      have hso := stockInsufficient_of_over s.products raw product hproduct hover
      simp [lineViolation, productMissing, hproduct, hquantity, hsize, hso]
    rw [createOrder_eq]
    have hfv : firstViolation env user req s =
        some (.insufficientStock product.name product.stock) := by
      unfold firstViolation
      simp only [List.cons_append, List.nil_append, List.findSome?_cons, id, hcust, hcart, hpay]
      rw [hitems, findSome?_lines_first s.products pre post raw hpre, hlv]
      rfl
    rw [hfv]

/-- C3 at the sample product (stock 2): a single line asking for 5 is answered with the
insufficient-stock error and the stores are unchanged. -/
theorem createOrder_over_stock_fails_unchanged_witness :
    (∃ e, createOrder sampleCreateEnv sampleUser overStockRequest ⟨[sampleProduct], []⟩ =
      (.failure e, ⟨[sampleProduct], []⟩)) ∧
    createOrder sampleCreateEnv sampleUser overStockRequest ⟨[sampleProduct], []⟩ =
      (.failure (.insufficientStock "Gomlek" 2), ⟨[sampleProduct], []⟩) :=
  have h := createOrder_over_stock_fails_unchanged sampleCreateEnv sampleUser overStockRequest
    ⟨[sampleProduct], []⟩ [] [] ⟨"P1", "M", "5"⟩ sampleProduct (by decide) (by decide)
    (by decide)
  ⟨h.1, h.2.1 (by decide) (by decide) (by simp) (by decide) (by decide)⟩

/-- C3 as stated fails: the second line asks for 5 of a product with stock 2, yet the
request is answered with the size error of the first line, not with an
insufficient-stock error. -/
theorem createOrder_over_stock_other_error :
    productById [sampleProduct] (normalizeText "P1") = some sampleProduct ∧
    toInt "5" = .finite 5 ∧ (5 : Int) > sampleProduct.stock ∧
    (createOrder sampleCreateEnv sampleUser badSizeThenOverStockRequest
      ⟨[sampleProduct], []⟩).1 = .failure (.invalidSize "Gomlek") ∧
    ¬ ∃ name stock, (createOrder sampleCreateEnv sampleUser badSizeThenOverStockRequest
      ⟨[sampleProduct], []⟩).1 = .failure (.insufficientStock name stock) := by
  have h : (createOrder sampleCreateEnv sampleUser badSizeThenOverStockRequest
      ⟨[sampleProduct], []⟩).1 = .failure (.invalidSize "Gomlek") := by decide
  refine ⟨by decide, by decide, by decide, h, ?_⟩
  rintro ⟨name, stock, h2⟩
  rw [h] at h2
  cases h2

/-- C7, as amended: the checks of order creation are answered in the order customer
fields, cart non-empty, card payment, then the cart lines from first to last (each line:
product exists, size, quantity, stock); the first failing check is the answer and the
stores are unchanged, and a request failing no check is accepted. -/
theorem createOrder_answers_first_violation (env : CreateEnv) (user : User)
    (req : OrderRequest) (s : Store) :
    match firstViolation env user req s with
    | some e => createOrder env user req s = (.failure e, s)
    | none => ∃ orderNo total tracking approval,
        (createOrder env user req s).1 = .created orderNo total tracking approval := by
  rw [createOrder_eq]
  cases firstViolation env user req s with
  | some e => rfl
  | none => exact ⟨_, _, _, _, rfl⟩

/-- C7 as stated fails: a card request with an unknown product in the cart and an
invalid card is answered with the card error, not with the cart-line error. -/
theorem createOrder_card_error_before_line_error :
    paymentMethodOf badLineBadCardRequest = "Kredi Karti" ∧
    lineViolation [sampleProduct] ⟨"P9", "M", "1"⟩ = some (.productNotFound "P9") ∧
    paymentViolation sampleCardEnv badLineBadCardRequest =
      some (.payment "Kart uzerindeki isim gecersiz.") ∧
    (createOrder sampleCreateEnv sampleUser badLineBadCardRequest ⟨[sampleProduct], []⟩).1 =
      .failure (.payment "Kart uzerindeki isim gecersiz.") ∧
    (createOrder sampleCreateEnv sampleUser badLineBadCardRequest ⟨[sampleProduct], []⟩).1 ≠
      .failure (.productNotFound "P9") := by
  decide

/-! ### Card payment validation -/

theorem onlyDigits_all_digits (s : String) : (onlyDigits s).data.all isDigitChar = true := by
  rw [onlyDigits_data, List.all_eq_true]
  intro c hc
  exact (List.mem_filter.mp hc).2

theorem jsLength_eq_zero_of_empty (s : String) (h : s.data.isEmpty = true) : jsLength s = 0 := by
  rw [List.isEmpty_iff] at h
  simp [jsLength, h]

/-- Closed form of the payment validator. -/
theorem validateCardPayment_eq (env : CardEnv) (p : CardPayload) :
    validateCardPayment env p =
      match firstViolatedRule env p with
      | some r => .rejected r.message
      | none => .accepted (cardSnapshot env p) := by
  unfold validateCardPayment firstViolatedRule cardRules
  simp only [List.find?_cons, List.find?_nil, CardRule.violated, CardRule.message]
  by_cases h1 : jsLength (normalizeText p.cardHolder) < 2
  · simp [h1]
  · have h1e : (normalizeText p.cardHolder).data.isEmpty = false := by
      cases he : (normalizeText p.cardHolder).data.isEmpty with
      | false => rfl
      | true => exact absurd (jsLength_eq_zero_of_empty _ he) (by omega)
    simp only [h1, h1e, decide_False, Bool.or_self, Bool.false_eq_true, if_false]
    cases h2 : isValidCardNumber (onlyDigits p.cardNumber) with
    | false => simp
    | true =>
      simp only [Bool.not_true, Bool.false_eq_true, if_false]
      cases hm : toInt p.expiryMonth with
      | nan => simp
      | infinity negative => simp
      | finite month =>
        cases hy : normalizeExpiryYear p.expiryYear with
        | none => simp
        | some year =>
          simp only []
          by_cases h3 : month < 1 ∨ 12 < month ∨ year = 0
          · have : (decide (month < 1) || decide (month > 12) || year == 0) = true := by
              rcases h3 with h | h | h <;> simp [h]
            simp [h3, this]
          · have : (decide (month < 1) || decide (month > 12) || year == 0) = false := by
              push_neg at h3
              obtain ⟨ha, hb, hc⟩ := h3
              have ha2 : ¬ month < 1 := by omega
              have hb2 : ¬ month > 12 := by omega
              simp [ha2, hb2, hc]
            simp only [h3, this, decide_False, Bool.false_eq_true, if_false]
            cases h4 : isCardExpired env.tzOffset env.nowExpiry month year with
            | true => simp
            | false =>
              simp only [Bool.false_eq_true, if_false, onlyDigits_all_digits, Bool.true_and]
              cases h5 : (decide (3 ≤ (onlyDigits p.cvv).data.length) &&
                  decide ((onlyDigits p.cvv).data.length ≤ 4)) with
              | false => simp
              | true => simp [cardSnapshot]

theorem validateCardPayment_accepted (env : CardEnv) (p : CardPayload) (snap : PaymentSnapshot)
    (h : validateCardPayment env p = .accepted snap) :
    firstViolatedRule env p = none ∧ snap = cardSnapshot env p := by
  rw [validateCardPayment_eq] at h
  cases hf : firstViolatedRule env p with
  | some r => simp [hf] at h
  | none =>
    simp only [hf, CardValidation.accepted.injEq] at h
    exact ⟨rfl, h.symm⟩

/-! ### Cancellation -/

theorem findOrder_set (pred : Order → Bool) (l : List Order) (i : Nat) (o o' : Order)
    (h : findOrder pred l = some (i, o)) (hp : pred o' = true) :
    findOrder pred (l.set i o') = some (i, o') := by
  induction l generalizing i with
  | nil => simp [findOrder] at h
  | cons x rest ih =>
    unfold findOrder at h
    by_cases hx : pred x = true
    · simp only [hx, if_true, Option.some.injEq, Prod.mk.injEq] at h
      obtain ⟨rfl, rfl⟩ := h
      simp [findOrder, hp]
    · simp only [hx, if_false] at h
      cases hr : findOrder pred rest with
      | none => simp [hr] at h
      | some found =>
        obtain ⟨k, other⟩ := found
        simp only [hr, Option.some.injEq, Prod.mk.injEq] at h
        obtain ⟨rfl, rfl⟩ := h
        simp [findOrder, hx, ih k hr]

/-- Closed form of both cancel handlers. -/
theorem cancelBy_eq (c : Canceller) (env : CancelEnv) (orderNo : String) (s : Store) :
    cancelBy c env orderNo s =
      match c.lookup orderNo s.orders with
      | none => (.failure .orderNotFound, s)
      | some (i, o) =>
        if o.cancelled = true then (.failure .alreadyCancelled, s)
        else if c.blockedByDelivery env o = true then (.failure .delivered, s)
        else
          (.updated "Siparis basariyla iptal edildi." (markCancelled env.nowCancelled o)
              (resolveTrackingStatus env.nowResponse o.createdAt),
            { products := releaseStock s.products o.items
              orders := s.orders.set i (markCancelled env.nowCancelled o) }) := by
  cases c with
  | owner user =>
    simp only [cancelBy, cancelOrder, Canceller.lookup, Canceller.blockedByDelivery]
    cases findOrder (fun item => item.orderNo == normalizeText orderNo &&
        item.userId == user.id) s.orders with
    | none => rfl
    | some found =>
      obtain ⟨i, o⟩ := found
      simp only [decide_eq_true_eq]
      rfl
  | admin =>
    simp only [cancelBy, adminCancelOrder, Canceller.lookup, Canceller.blockedByDelivery]
    cases findOrder (fun item => item.orderNo == normalizeText orderNo) s.orders with
    | none => rfl
    | some found =>
      obtain ⟨i, o⟩ := found
      simp only [Bool.false_eq_true, if_false]
      rfl

/-- What a successful cancel call did. -/
theorem cancelBy_updated (c : Canceller) (env : CancelEnv) (orderNo : String) (s : Store)
    (message : String) (cancelled : Order) (tracking : String)
    (hok : (cancelBy c env orderNo s).1 = .updated message cancelled tracking) :
    ∃ i o, c.lookup orderNo s.orders = some (i, o) ∧ o.cancelled = false ∧
      cancelled = markCancelled env.nowCancelled o ∧
      (cancelBy c env orderNo s).2 =
        { products := releaseStock s.products o.items, orders := s.orders.set i cancelled } := by
  rw [cancelBy_eq] at hok ⊢
  cases hl : c.lookup orderNo s.orders with
  | none => simp [hl] at hok
  | some found =>
    obtain ⟨i, o⟩ := found
    simp only [hl] at hok ⊢
    by_cases hc : o.cancelled = true
    · simp [hc] at hok
    · by_cases hb : c.blockedByDelivery env o = true
      · simp [hc, hb] at hok
      · simp only [hc, hb, if_false, Response.updated.injEq, Bool.false_eq_true] at hok ⊢
        refine ⟨i, o, rfl, by simpa using hc, hok.2.1.symm, ?_⟩
        rw [hok.2.1]

theorem lookup_set_markCancelled (c : Canceller) (orderNo : String) (orders : List Order)
    (i : Nat) (o : Order) (now : Int) (h : c.lookup orderNo orders = some (i, o)) :
    c.lookup orderNo (orders.set i (markCancelled now o)) = some (i, markCancelled now o) := by
  cases c with
  | owner user =>
    simp only [Canceller.lookup] at h ⊢
    exact findOrder_set _ _ _ _ _ h (findOrder_some _ _ _ _ h).2
  | admin =>
    simp only [Canceller.lookup] at h ⊢
    exact findOrder_set _ _ _ _ _ h (findOrder_some _ _ _ _ h).2

/-- C8: when a cancel call (self-service or admin) succeeds and a second cancel call
(self-service or admin) addresses the same order, the second call fails with the
already-cancelled error and changes neither store, so after both calls the stock of
every product is its stock before the first call plus, once, the quantity of the
order's lines for it. -/
theorem cancel_twice_second_fails (c₁ c₂ : Canceller) (env₁ env₂ : CancelEnv)
    (orderNo : String) (s : Store) (message : String) (cancelled : Order) (tracking : String)
    (hsame : c₂.lookup orderNo s.orders = c₁.lookup orderNo s.orders)
    (hfirst : (cancelBy c₁ env₁ orderNo s).1 = .updated message cancelled tracking) :
    cancelBy c₂ env₂ orderNo (cancelBy c₁ env₁ orderNo s).2 =
      (.failure .alreadyCancelled, (cancelBy c₁ env₁ orderNo s).2) ∧
    ∀ (j : Nat) (p : Product), s.products[j]? = some p →
      (cancelBy c₂ env₂ orderNo (cancelBy c₁ env₁ orderNo s).2).2.products[j]? =
        some { p with stock := p.stock + lineQuantity s.products cancelled.items j } := by
  obtain ⟨i, o, hl, _, hco, hs1⟩ := cancelBy_updated c₁ env₁ orderNo s message cancelled tracking
    hfirst
  have hl2 : c₂.lookup orderNo (cancelBy c₁ env₁ orderNo s).2.orders = some (i, cancelled) := by
    rw [hs1, hco]
    exact lookup_set_markCancelled c₂ orderNo s.orders i o env₁.nowCancelled (hsame.trans hl)
  have hsecond : cancelBy c₂ env₂ orderNo (cancelBy c₁ env₁ orderNo s).2 =
      (.failure .alreadyCancelled, (cancelBy c₁ env₁ orderNo s).2) := by
    rw [cancelBy_eq c₂ env₂ orderNo (cancelBy c₁ env₁ orderNo s).2, hl2]
    have hc : cancelled.cancelled = true := by rw [hco]; rfl
    simp [hc]
  refine ⟨hsecond, ?_⟩
  intro j p hp
  rw [hsecond, hs1]
  simp only []
  rw [releaseStock_getElem?, hp, hco]
  rfl

/-- C8 at the sample order: the owner cancels, then an admin cancels again. -/
theorem cancel_twice_second_fails_witness :
    cancelBy .admin sampleCancelEnv sampleOrderNo
        (cancelBy (.owner sampleUser) sampleCancelEnv sampleOrderNo storeWithOrder).2 =
      (.failure .alreadyCancelled,
        (cancelBy (.owner sampleUser) sampleCancelEnv sampleOrderNo storeWithOrder).2) ∧
    ∀ (j : Nat) (p : Product), storeWithOrder.products[j]? = some p →
      (cancelBy .admin sampleCancelEnv sampleOrderNo
        (cancelBy (.owner sampleUser) sampleCancelEnv sampleOrderNo storeWithOrder).2).2.products[j]? =
        some { p with stock := p.stock +
          lineQuantity storeWithOrder.products (markCancelled 1700003600000 sampleOrder).items j } :=
  cancel_twice_second_fails (.owner sampleUser) .admin sampleCancelEnv sampleCancelEnv
    sampleOrderNo storeWithOrder "Siparis basariyla iptal edildi."
    (markCancelled 1700003600000 sampleOrder) "Hazirlaniyor" (by decide) (by decide)

/-- C9: for a non-cancelled order created at least 72 hours before the request, whose
number both handlers resolve to it, the derived tracking status is Teslim Edildi, the
owner's self-service cancellation fails with the delivered error and changes neither
store, and the admin cancellation succeeds. -/
theorem delivered_order_self_cancel_fails_admin_succeeds (env envAdmin : CancelEnv)
    (user : User) (orderNo : String) (s : Store) (i : Nat) (o : Order) (createdTime : Int)
    (howner : Canceller.lookup (.owner user) orderNo s.orders = some (i, o))
    (hadmin : Canceller.lookup .admin orderNo s.orders = some (i, o))
    (hactive : o.cancelled = false)
    (hcreated : o.createdAt = some createdTime)
    (hage : env.nowTracking - createdTime ≥ 72 * 3600000) :
    resolveTrackingStatus env.nowTracking o.createdAt = "Teslim Edildi" ∧
    cancelOrder env user orderNo s = (.failure .delivered, s) ∧
    adminCancelOrder envAdmin orderNo s =
      (.updated "Siparis basariyla iptal edildi." (markCancelled envAdmin.nowCancelled o)
          (resolveTrackingStatus envAdmin.nowResponse o.createdAt),
        { products := releaseStock s.products o.items
          orders := s.orders.set i (markCancelled envAdmin.nowCancelled o) }) := by
  have htrack : resolveTrackingStatus env.nowTracking o.createdAt = "Teslim Edildi" := by
    have h1 : ¬ env.nowTracking - createdTime < 2 * 3600000 := by omega
    have h2 : ¬ env.nowTracking - createdTime < 24 * 3600000 := by omega
    have h3 : ¬ env.nowTracking - createdTime < 72 * 3600000 := by omega
    simp only [resolveTrackingStatus, hcreated, h1, h2, h3, if_false]
  refine ⟨htrack, ?_, ?_⟩
  · have h := cancelBy_eq (.owner user) env orderNo s
    rw [howner] at h
    simp only [cancelBy, hactive, Canceller.blockedByDelivery, htrack, decide_True,
      Bool.false_eq_true, if_false, if_true] at h
    exact h
  · have h := cancelBy_eq .admin envAdmin orderNo s
    rw [hadmin] at h
    simp only [cancelBy, hactive, Canceller.blockedByDelivery, Bool.false_eq_true, if_false] at h
    exact h

/-- C9 at the sample order, exactly 72 hours after its creation. -/
theorem delivered_order_self_cancel_fails_admin_succeeds_witness :
    resolveTrackingStatus lateCancelEnv.nowTracking sampleOrder.createdAt = "Teslim Edildi" ∧
    cancelOrder lateCancelEnv sampleUser sampleOrderNo storeWithOrder =
      (.failure .delivered, storeWithOrder) ∧
    adminCancelOrder lateCancelEnv sampleOrderNo storeWithOrder =
      (.updated "Siparis basariyla iptal edildi."
          (markCancelled lateCancelEnv.nowCancelled sampleOrder)
          (resolveTrackingStatus lateCancelEnv.nowResponse sampleOrder.createdAt),
        { products := releaseStock storeWithOrder.products sampleOrder.items
          orders := storeWithOrder.orders.set 0
            (markCancelled lateCancelEnv.nowCancelled sampleOrder) }) :=
  delivered_order_self_cancel_fails_admin_succeeds lateCancelEnv lateCancelEnv sampleUser
    sampleOrderNo storeWithOrder 0 sampleOrder 1700000000000 (by decide) (by decide) (by decide)
    (by decide) (by decide)

/-- C10: a successful cancellation (self-service or admin) stores the order with
`cancelled = true`, `status = "Iptal Edildi"` and `cancelledAt` the time of the call,
at its place in the order store; the product store keeps its length, every product
keeps all fields but `stock`, which grows by exactly the total quantity of the order's
lines for that product, and a product that no line is for keeps its stock. -/
theorem cancel_success_effect (c : Canceller) (env : CancelEnv) (orderNo : String) (s : Store)
    (message : String) (cancelled : Order) (tracking : String)
    (hok : (cancelBy c env orderNo s).1 = .updated message cancelled tracking) :
    ∃ i o, c.lookup orderNo s.orders = some (i, o) ∧
      cancelled = { o with cancelled := true, status := "Iptal Edildi",
                           cancelledAt := some env.nowCancelled } ∧
      (cancelBy c env orderNo s).2.orders = s.orders.set i cancelled ∧
      (cancelBy c env orderNo s).2.products.length = s.products.length ∧
      (∀ (j : Nat) (p : Product), s.products[j]? = some p →
        (cancelBy c env orderNo s).2.products[j]? =
          some { p with stock := p.stock + lineQuantity s.products o.items j }) ∧
      (∀ (j : Nat) (p : Product), s.products[j]? = some p →
        (∀ item ∈ o.items, productIndex s.products item.productId ≠ some j) →
        (cancelBy c env orderNo s).2.products[j]? = some p) := by
  obtain ⟨i, o, hl, _, hco, hs1⟩ := cancelBy_updated c env orderNo s message cancelled tracking hok
  have hget : ∀ (j : Nat) (p : Product), s.products[j]? = some p →
      (cancelBy c env orderNo s).2.products[j]? =
        some { p with stock := p.stock + lineQuantity s.products o.items j } := by
    intro j p hp
    rw [hs1]
    simp only []
    rw [releaseStock_getElem?, hp]
    rfl
  refine ⟨i, o, hl, hco, by rw [hs1], ?_, hget, ?_⟩
  · rw [hs1]
    simp only []
    rw [releaseStock_eq, shiftStock_length]
  · intro j p hp hnone
    rw [hget j p hp]
    have hzero : lineQuantity s.products o.items j = 0 := by
      unfold lineQuantity
      have : o.items.filter (fun item => productIndex s.products item.productId == some j) = [] := by
        rw [List.filter_eq_nil_iff]
        intro item hitem
        simpa using hnone item hitem
      rw [this]
      rfl
    rw [hzero]
    simp

/-- C10 at the sample order, cancelled by its owner an hour after creation. -/
theorem cancel_success_effect_witness :
    ∃ i o, Canceller.lookup (.owner sampleUser) sampleOrderNo storeWithOrder.orders = some (i, o) ∧
      markCancelled 1700003600000 sampleOrder =
        { o with cancelled := true, status := "Iptal Edildi",
                 cancelledAt := some sampleCancelEnv.nowCancelled } ∧
      (cancelBy (.owner sampleUser) sampleCancelEnv sampleOrderNo storeWithOrder).2.orders =
        storeWithOrder.orders.set i (markCancelled 1700003600000 sampleOrder) ∧
      (cancelBy (.owner sampleUser) sampleCancelEnv sampleOrderNo storeWithOrder).2.products.length =
        storeWithOrder.products.length ∧
      (∀ (j : Nat) (p : Product), storeWithOrder.products[j]? = some p →
        (cancelBy (.owner sampleUser) sampleCancelEnv sampleOrderNo storeWithOrder).2.products[j]? =
          some { p with stock := p.stock + lineQuantity storeWithOrder.products o.items j }) ∧
      (∀ (j : Nat) (p : Product), storeWithOrder.products[j]? = some p →
        (∀ item ∈ o.items, productIndex storeWithOrder.products item.productId ≠ some j) →
        (cancelBy (.owner sampleUser) sampleCancelEnv sampleOrderNo storeWithOrder).2.products[j]? =
          some p) :=
  cancel_success_effect (.owner sampleUser) sampleCancelEnv sampleOrderNo storeWithOrder
    "Siparis basariyla iptal edildi." (markCancelled 1700003600000 sampleOrder) "Hazirlaniyor"
    (by decide)

/-! ### Tracking status -/

theorem ageHours_lt_iff (now createdTime h : Int) :
    ageHours now createdTime < h ↔ now - createdTime < h * 3600000 := by
  unfold ageHours
  rw [div_lt_iff₀ (by norm_num)]
  constructor
  · intro hq
    have : ((now - createdTime : Int) : ℚ) < ((h * 3600000 : Int) : ℚ) := by
      push_cast
      push_cast at hq
      linarith
    exact_mod_cast this
  · intro hz
    have : ((now - createdTime : Int) : ℚ) < ((h * 3600000 : Int) : ℚ) := by exact_mod_cast hz
    push_cast at this
    push_cast
    linarith

/-- C11: `resolveTrackingStatus` maps the age of an order (current time minus
`createdAt`, in hours) to one status: below 2 hours Hazirlaniyor, from 2 to below 24
Kargoya Verildi, from 24 to below 72 Yolda, from 72 on Teslim Edildi; the four statuses are
distinct, and the derived status of an order depends on its `createdAt` and the clock
only, so orders that differ in `status`, `cancelled` or any other field get the same. -/
theorem resolveTrackingStatus_by_age (now createdTime : Int) :
    (ageHours now createdTime < 2 →
      resolveTrackingStatus now (some createdTime) = "Hazirlaniyor") ∧
    (2 ≤ ageHours now createdTime ∧ ageHours now createdTime < 24 →
      resolveTrackingStatus now (some createdTime) = "Kargoya Verildi") ∧
    (24 ≤ ageHours now createdTime ∧ ageHours now createdTime < 72 →
      resolveTrackingStatus now (some createdTime) = "Yolda") ∧
    (72 ≤ ageHours now createdTime →
      resolveTrackingStatus now (some createdTime) = "Teslim Edildi") ∧
    ["Hazirlaniyor", "Kargoya Verildi", "Yolda", "Teslim Edildi"].Nodup ∧
    (∀ o₁ o₂ : Order, o₁.createdAt = o₂.createdAt →
      (withTracking now o₁).2 = (withTracking now o₂).2) := by
  have h2 := ageHours_lt_iff now createdTime 2
  have h24 := ageHours_lt_iff now createdTime 24
  have h72 := ageHours_lt_iff now createdTime 72
  simp only [Int.cast_ofNat] at h2 h24 h72
  refine ⟨?_, ?_, ?_, ?_, by decide, ?_⟩
  · intro h
    have := h2.mp h
    simp only [resolveTrackingStatus, this, if_true]
  · rintro ⟨ha, hb⟩
    have h1 : ¬ now - createdTime < 2 * 3600000 := fun h => absurd (h2.mpr h) (not_lt.mpr ha)
    have := h24.mp hb
    simp only [resolveTrackingStatus, h1, this, if_true, if_false]
  · rintro ⟨ha, hb⟩
    have h1 : ¬ now - createdTime < 24 * 3600000 := fun h => absurd (h24.mpr h) (not_lt.mpr ha)
    have h0 : ¬ now - createdTime < 2 * 3600000 := by omega
    have := h72.mp hb
    simp only [resolveTrackingStatus, h0, h1, this, if_true, if_false]
  · intro ha
    have h1 : ¬ now - createdTime < 72 * 3600000 := fun h => absurd (h72.mpr h) (not_lt.mpr ha)
    have h0 : ¬ now - createdTime < 2 * 3600000 := by omega
    have h3 : ¬ now - createdTime < 24 * 3600000 := by omega
    simp only [resolveTrackingStatus, h0, h1, h3, if_false]
  · intro o₁ o₂ h
    simp [withTracking, h]

/-! ### Admin status update -/

theorem normalizeText_data_nil_iff (t : String) : t.data.isEmpty = true ↔ t = "" := by
  rw [List.isEmpty_iff]
  exact ⟨fun h => String.ext h, fun h => by rw [h]⟩

/-- C12, as amended: for an order that the handler finds, the admin status update
succeeds exactly when the requested status, after `normalizeText` (trimmed, `<` and `>`
removed), is one of Hazirlaniyor, Kargoya Verildi, Yolda, Teslim Edildi; a rejected
request (such as Iptal Edildi) changes nothing; on success the stored status is the
normalized value, `cancelled` is false whatever it was before, every other field of
the order and the product store are unchanged. -/
theorem updateOrderStatus_effect (now : Int) (rawOrderNo rawStatus : String) (s : Store)
    (i : Nat) (o : Order)
    (hfound : findOrder (fun item => item.orderNo == normalizeText rawOrderNo) s.orders =
      some (i, o)) :
    (normalizeText rawStatus ∈ validStatuses →
      updateOrderStatus now rawOrderNo rawStatus s =
        (.updated "Siparis durumu guncellendi."
            { o with status := normalizeText rawStatus, cancelled := false }
            (resolveTrackingStatus now o.createdAt),
          { products := s.products
            orders := s.orders.set i
              { o with status := normalizeText rawStatus, cancelled := false } })) ∧
    (normalizeText rawStatus ∉ validStatuses →
      updateOrderStatus now rawOrderNo rawStatus s = (.failure .invalidStatus, s)) ∧
    updateOrderStatus now rawOrderNo "Iptal Edildi" s = (.failure .invalidStatus, s) := by
  refine ⟨?_, ?_, ?_⟩
  · intro hvalid
    have hne : (normalizeText rawStatus).data.isEmpty = false := by
      cases he : (normalizeText rawStatus).data.isEmpty with
      | false => rfl
      | true =>
        rw [normalizeText_data_nil_iff] at he
        rw [he] at hvalid
        exact absurd hvalid (by decide)
    have hc : validStatuses.contains (normalizeText rawStatus) = true := by
      simpa using hvalid
    simp only [updateOrderStatus, hne, hc, Bool.not_true, Bool.or_self, Bool.false_eq_true,
      if_false, hfound]
    cases hcan : o.cancelled <;> simp [hcan]
  · intro hinvalid
    have hc : validStatuses.contains (normalizeText rawStatus) = false := by
      simpa using hinvalid
    simp [updateOrderStatus, hc, hinvalid]
  · have hm : normalizeText "Iptal Edildi" ∉ validStatuses := by decide
    simp [updateOrderStatus, hm]

/-- C12 at the cancelled sample order: the update to Yolda succeeds and stores
`cancelled = false`; the stock stays 2 as the cancellation left it. -/
theorem updateOrderStatus_effect_witness :
    (normalizeText "Yolda" ∈ validStatuses →
      updateOrderStatus 1700007200000 sampleOrderNo "Yolda" storeCancelled =
        (.updated "Siparis durumu guncellendi."
            { markCancelled 1700003600000 sampleOrder with
                status := normalizeText "Yolda", cancelled := false }
            (resolveTrackingStatus 1700007200000
              (markCancelled 1700003600000 sampleOrder).createdAt),
          { products := storeCancelled.products
            orders := storeCancelled.orders.set 0
              { markCancelled 1700003600000 sampleOrder with
                  status := normalizeText "Yolda", cancelled := false } })) ∧
    (normalizeText "Yolda" ∉ validStatuses →
      updateOrderStatus 1700007200000 sampleOrderNo "Yolda" storeCancelled =
        (.failure .invalidStatus, storeCancelled)) ∧
    updateOrderStatus 1700007200000 sampleOrderNo "Iptal Edildi" storeCancelled =
      (.failure .invalidStatus, storeCancelled) :=
  updateOrderStatus_effect 1700007200000 sampleOrderNo "Yolda" storeCancelled 0
    (markCancelled 1700003600000 sampleOrder) (by decide)

/-- C12 as stated fails: the requested value `Yol<da` is none of the four statuses, yet
the update succeeds, and the stored status is `Yolda`, not the requested value. -/
theorem updateOrderStatus_accepts_other_value :
    "Yol<da" ∉ validStatuses ∧
    (updateOrderStatus 1700007200000 sampleOrderNo "Yol<da" storeWithOrder).1 =
      .updated "Siparis durumu guncellendi." { sampleOrder with status := "Yolda" }
        "Kargoya Verildi" ∧
    ((updateOrderStatus 1700007200000 sampleOrderNo "Yol<da" storeWithOrder).2.orders.map
      (fun o => o.status)) = ["Yolda"] := by
  decide

/-! ### Order numbers -/

set_option maxRecDepth 100000 in
theorem draw_toString : ∀ d : Fin 900, (toString (d.val + 100)).data.length = 3 ∧
    digitsValue (toString (d.val + 100)).data = d.val + 100 := by
  decide

theorem createOrderNo_eq_iff (now now' : Int) (draw draw' : Fin 900) :
    createOrderNo now' draw' = createOrderNo now draw ↔
      sliceLast 8 (toString now') = sliceLast 8 (toString now) ∧ draw' = draw := by
  constructor
  · intro h
    have h' := congrArg String.data h
    simp only [createOrderNo, String.data_append] at h'
    have hlen : (toString (draw'.val + 100)).data.length = (toString (draw.val + 100)).data.length := by
      rw [(draw_toString draw').1, (draw_toString draw).1]
    obtain ⟨hx, ht⟩ := List.append_inj' h' hlen
    obtain ⟨hy, _⟩ := List.append_inj' hx rfl
    have ha := List.append_cancel_left hy
    refine ⟨String.ext ha, ?_⟩
    have hv := congrArg digitsValue ht
    rw [(draw_toString draw').2, (draw_toString draw).2] at hv
    exact Fin.ext (by omega)
  · rintro ⟨ha, hd⟩
    simp only [createOrderNo, ha, hd]

/-- C13, as amended: the number of a newly created order is
`GS-<last eight digits of the clock>-<100 + draw>`, computed without looking at the
order store; it equals a number generated at another clock reading and draw exactly
when the two clock readings have the same last eight digits and the draws are equal,
and differs from it otherwise. -/
theorem createOrder_orderNo (env : CreateEnv) (user : User) (req : OrderRequest) (s : Store)
    (orderNo : String) (total : Int) (tracking : String) (approval : Option String)
    (hok : (createOrder env user req s).1 = .created orderNo total tracking approval) :
    orderNo = createOrderNo env.nowOrderNo env.drawOrderNo ∧
    (∃ o, (createOrder env user req s).2.orders = s.orders ++ [o] ∧ o.orderNo = orderNo) ∧
    (∀ (now : Int) (draw : Fin 900),
      createOrderNo now draw = orderNo ↔
        sliceLast 8 (toString now) = sliceLast 8 (toString env.nowOrderNo) ∧
          draw = env.drawOrderNo) := by
  rw [createOrder_eq] at hok ⊢
  cases hfv : firstViolation env user req s with
  | some e => simp [hfv] at hok
  | none =>
    simp only [hfv, Response.created.injEq] at hok ⊢
    have hno : orderNo = createOrderNo env.nowOrderNo env.drawOrderNo := hok.1.symm
    refine ⟨hno, ⟨_, rfl, hok.1⟩, ?_⟩
    intro now draw
    rw [hno]
    exact createOrderNo_eq_iff env.nowOrderNo now env.drawOrderNo draw

/-- C13 at the sample request: the stored number is `GS-00000000-123`. -/
theorem createOrder_orderNo_witness :
    sampleOrderNo = createOrderNo sampleCreateEnv.nowOrderNo sampleCreateEnv.drawOrderNo ∧
    (∃ o, (createOrder sampleCreateEnv sampleUser oneLineRequest ⟨[sampleProduct], []⟩).2.orders =
      [] ++ [o] ∧ o.orderNo = sampleOrderNo) ∧
    (∀ (now : Int) (draw : Fin 900),
      createOrderNo now draw = sampleOrderNo ↔
        sliceLast 8 (toString now) = sliceLast 8 (toString sampleCreateEnv.nowOrderNo) ∧
          draw = sampleCreateEnv.drawOrderNo) :=
  createOrder_orderNo sampleCreateEnv sampleUser oneLineRequest ⟨[sampleProduct], []⟩
    sampleOrderNo 479 "Hazirlaniyor" none (by decide)

/-- C13 as stated fails: the store holds one order, so its numbers are pairwise distinct;
a creation 100000000 ms later with the same draw succeeds and stores a second order
with the number of the first. -/
theorem createOrder_repeats_orderNo :
    (storeWithOrder.orders.map (fun o => o.orderNo)).Nodup ∧
    (createOrder laterCreateEnv otherUser otherUserRequest storeWithOrder).1 =
      .created "GS-00000000-123" 479 "Hazirlaniyor" none ∧
    (createOrder laterCreateEnv otherUser otherUserRequest storeWithOrder).2.orders.map
      (fun o => (o.orderNo, o.userId)) =
        [("GS-00000000-123", "USR-1"), ("GS-00000000-123", "USR-2")] := by
  decide

/-! ### Payment snapshot -/

theorem snapshotOf_card (env : CardEnv) (req : OrderRequest) (snap : PaymentSnapshot)
    (hm : paymentMethodOf req = "Kredi Karti")
    (h : validateCardPayment env req.payment = .accepted snap) : snapshotOf env req = snap := by
  simp [snapshotOf, hm, h]

/-- C14: the snapshot of an accepted card payload is made of the method, the normalized
card holder, the detected brand and the last four digits (and the approval code, which
is drawn from the clock); so two accepted payloads with the same card holder, the same
brand prefix (the same detected brand) and the same last four digits have equal method,
cardHolder, cardBrand and cardLast4, whatever their other digits, expiry and CVV; and
the payment field of the order stored for an accepted card request is that snapshot. -/
theorem payment_snapshot_redacted (env₁ env₂ : CardEnv) (p₁ p₂ : CardPayload)
    (snap₁ snap₂ : PaymentSnapshot)
    (h₁ : validateCardPayment env₁ p₁ = .accepted snap₁)
    (h₂ : validateCardPayment env₂ p₂ = .accepted snap₂)
    (hholder : p₁.cardHolder = p₂.cardHolder)
    (hbrand : detectCardBrand (onlyDigits p₁.cardNumber) =
      detectCardBrand (onlyDigits p₂.cardNumber))
    (hlast : sliceLast 4 (onlyDigits p₁.cardNumber) = sliceLast 4 (onlyDigits p₂.cardNumber)) :
    (snap₁.method = snap₂.method ∧ snap₁.cardHolder = snap₂.cardHolder ∧
      snap₁.cardBrand = snap₂.cardBrand ∧ snap₁.cardLast4 = snap₂.cardLast4) ∧
    (∀ (env : CreateEnv) (user : User) (req : OrderRequest) (s : Store),
      env.card = env₁ → req.payment = p₁ → paymentMethodOf req = "Kredi Karti" →
      firstViolation env user req s = none →
      ∃ o, (createOrder env user req s).2.orders = s.orders ++ [o] ∧ o.payment = snap₁) := by
  have e₁ := (validateCardPayment_accepted env₁ p₁ snap₁ h₁).2
  have e₂ := (validateCardPayment_accepted env₂ p₂ snap₂ h₂).2
  constructor
  · rw [e₁, e₂]
    simp [cardSnapshot, hholder, hbrand, hlast]
  · intro env user req s henv hpay hm hfv
    refine ⟨orderOf env user req s.products, ?_, ?_⟩
    · rw [createOrder_eq, hfv]
    · have : snapshotOf env.card req = snap₁ := by
        apply snapshotOf_card env.card req snap₁ hm
        rw [henv, hpay]
        exact h₁
      simp [orderOf, this]

/-- C14 at two Visa payloads of one holder that end in 1111. -/
theorem payment_snapshot_redacted_witness :
    (sampleSnapshot.method = twinSnapshot.method ∧
      sampleSnapshot.cardHolder = twinSnapshot.cardHolder ∧
      sampleSnapshot.cardBrand = twinSnapshot.cardBrand ∧
      sampleSnapshot.cardLast4 = twinSnapshot.cardLast4) ∧
    (∀ (env : CreateEnv) (user : User) (req : OrderRequest) (s : Store),
      env.card = sampleCardEnv → req.payment = sampleCard →
      paymentMethodOf req = "Kredi Karti" → firstViolation env user req s = none →
      ∃ o, (createOrder env user req s).2.orders = s.orders ++ [o] ∧
        o.payment = sampleSnapshot) :=
  payment_snapshot_redacted sampleCardEnv laterCardEnv sampleCard sampleCardTwin
    sampleSnapshot twinSnapshot (by decide) (by decide) (by decide) (by decide) (by decide)

/-! ### Single-line orders -/

theorem productIndex_some (ps : List Product) (id : String) (j : Nat)
    (h : productIndex ps id = some j) : ∃ p, ps[j]? = some p ∧ p.id = id := by
  induction ps generalizing j with
  | nil => simp [productIndex] at h
  | cons p rest ih =>
    unfold productIndex at h
    cases hr : productIndex rest id with
    | some k =>
      simp only [hr, Option.some.injEq] at h
      subst h
      simpa using ih k hr
    | none =>
      simp only [hr] at h
      by_cases hp : p.id = id
      · simp only [hp, if_true, Option.some.injEq] at h
        subst h
        exact ⟨p, by simp, hp⟩
      · simp [hp] at h

theorem productIndex_congr (ps qs : List Product) (id : String)
    (h : ps.map (fun p => p.id) = qs.map (fun p => p.id)) :
    productIndex ps id = productIndex qs id := by
  induction ps generalizing qs with
  | nil =>
    cases qs with
    | nil => rfl
    | cons q rest => simp at h
  | cons p rest ih =>
    cases qs with
    | nil => simp at h
    | cons q rest' =>
      simp only [List.map_cons, List.cons.injEq] at h
      simp only [productIndex, ih rest' h.2, h.1]

theorem map_id_set (ps : List Product) (j : Nat) (p p' : Product) (hp : ps[j]? = some p)
    (hid : p'.id = p.id) : (ps.set j p').map (fun x => x.id) = ps.map (fun x => x.id) := by
  apply List.ext_getElem?
  intro k
  simp only [List.getElem?_map, List.getElem?_set]
  by_cases hk : j = k
  · subst hk
    have hlt : j < ps.length := by
      rcases List.getElem?_eq_some_iff.mp hp with ⟨h, _⟩
      exact h
    simp [hlt, hp, hid]
  · simp [hk]

theorem addStock_eq_set (ps : List Product) (j : Nat) (delta : Int) (p : Product)
    (hp : ps[j]? = some p) :
    addStock ps j delta = ps.set j { p with stock := p.stock + delta } := by
  apply List.ext_getElem?
  intro k
  rw [addStock_getElem?, List.getElem?_set]
  by_cases hk : k = j
  · subst hk
    have hlt : k < ps.length := by
      rcases List.getElem?_eq_some_iff.mp hp with ⟨h, _⟩
      exact h
    simp [hlt, hp]
  · have : ¬ j = k := fun h => hk h.symm
    simp [hk, this]

theorem productById_of_index (ps : List Product) (id : String) (j : Nat) (p : Product)
    (hidx : productIndex ps id = some j) (hp : ps[j]? = some p) : productById ps id = some p := by
  simp [productById, hidx, hp]

/-- The first failing check of an otherwise valid single-line request is decided by the
quantity alone. -/
theorem firstViolation_single_line (env : CreateEnv) (user : User) (req : OrderRequest)
    (s : Store) (raw : RawItem) (product : Product)
    (hitems : req.items = [raw])
    (hcust : customerViolation user req = none)
    (hpay : paymentViolation env.card req = none)
    (hprod : productById s.products (normalizeText raw.productId) = some product)
    (hsize : normalizeText raw.size ≠ "" ∧ normalizeText raw.size ∈ product.sizes) :
    firstViolation env user req s =
      match toInt raw.quantity with
      | .finite q =>
        if q ≤ 0 then some (.invalidQuantity product.name)
        else if product.stock < q then some (.insufficientStock product.name product.stock)
        else none
      | _ => some (.invalidQuantity product.name) := by
  have hcart : cartViolation req = none := by simp [cartViolation, hitems]
  have hs : ¬ (normalizeText raw.size = "" ∨ normalizeText raw.size ∉ product.sizes) := by
    push_neg
    exact hsize
  unfold firstViolation lineViolation toInt
  simp only [hitems, hcust, hcart, hpay, List.map_cons, List.map_nil, List.cons_append,
    List.nil_append, List.findSome?_cons, List.findSome?_nil, id, productMissing, sizeInvalid,
    quantityInvalid, stockInsufficient, hprod, hs, if_false]
  cases parseInt10 raw.quantity with
  | nan => rfl
  | infinity negative => rfl
  | finite q =>
    simp only [JsNumber.gt]
    by_cases h0 : q ≤ 0
    · have : ¬ 0 < q := by omega
      simp [h0, this]
    · have : 0 < q := by omega
      by_cases h1 : product.stock < q
      · simp [h0, this, h1]
      · simp [h0, this, h1]

theorem okItems_single_line (products : List Product) (raw : RawItem) (product : Product)
    (q : Int)
    (hprod : productById products (normalizeText raw.productId) = some product)
    (hsize : normalizeText raw.size ≠ "" ∧ normalizeText raw.size ∈ product.sizes)
    (hq : toInt raw.quantity = .finite q) (h1 : 1 ≤ q) (h2 : q ≤ product.stock) :
    okItems products [raw] =
      [{ productId := product.id, name := product.name, size := normalizeText raw.size,
         quantity := q, unitPrice := product.price, lineTotal := product.price * q }] := by
  have hdata : ¬ (normalizeText raw.size).data = [] := by
    intro h
    exact hsize.1 (String.ext h)
  have ha : ¬ q ≤ 0 := by omega
  have hb : ¬ q > product.stock := by omega
  simp [okItems, checkItem, hprod, hq, hsize.2, hdata, ha, hb]

/-- C15: for a single-line request whose customer and payment checks pass and whose line
names a product with stock `s` and a declared size, creation succeeds exactly when the
quantity is read as a whole number `q` with `1 <= q <= s`; it then writes stock `s - q`
for that product and leaves every other product as it was; with `q = s` the stock is 0
and, on the resulting store, every such request for that product fails and changes
nothing, with the insufficient-stock error whenever its quantity is a positive whole
number. -/
theorem single_line_reserve (env : CreateEnv) (user : User) (req : OrderRequest) (s : Store)
    (raw : RawItem) (j : Nat) (product : Product)
    (hitems : req.items = [raw])
    (hcust : customerViolation user req = none)
    (hpay : paymentViolation env.card req = none)
    (hidx : productIndex s.products (normalizeText raw.productId) = some j)
    (hprod : s.products[j]? = some product)
    (hsize : normalizeText raw.size ≠ "" ∧ normalizeText raw.size ∈ product.sizes) :
    ((∃ orderNo total tracking approval,
        (createOrder env user req s).1 = .created orderNo total tracking approval) ↔
      ∃ q, toInt raw.quantity = .finite q ∧ 1 ≤ q ∧ q ≤ product.stock) ∧
    (∀ q, toInt raw.quantity = .finite q → 1 ≤ q → q ≤ product.stock →
      (createOrder env user req s).2.products =
        s.products.set j { product with stock := product.stock - q }) ∧
    (∀ q, toInt raw.quantity = .finite q → 1 ≤ q → q = product.stock →
      ∀ (env' : CreateEnv) (user' : User) (req' : OrderRequest) (raw' : RawItem),
        req'.items = [raw'] → customerViolation user' req' = none →
        paymentViolation env'.card req' = none →
        normalizeText raw'.productId = normalizeText raw.productId →
        (normalizeText raw'.size ≠ "" ∧ normalizeText raw'.size ∈ product.sizes) →
        (∃ e, createOrder env' user' req' (createOrder env user req s).2 =
          (.failure e, (createOrder env user req s).2)) ∧
        (∀ q', toInt raw'.quantity = .finite q' → 1 ≤ q' →
          createOrder env' user' req' (createOrder env user req s).2 =
            (.failure (.insufficientStock product.name 0), (createOrder env user req s).2))) := by
  have hby := productById_of_index s.products _ j product hidx hprod
  have hfv := firstViolation_single_line env user req s raw product hitems hcust hpay hby hsize
  obtain ⟨p0, hp0, hid⟩ := productIndex_some s.products _ j hidx
  have hpeq : p0 = product := by
    rw [hprod] at hp0
    exact (Option.some.inj hp0).symm
  subst hpeq
  have hproducts : ∀ q, toInt raw.quantity = .finite q → 1 ≤ q → q ≤ p0.stock →
      (createOrder env user req s).2.products = s.products.set j { p0 with stock := p0.stock - q } := by
    intro q hq h1 h2
    have hnone : firstViolation env user req s = none := by
      rw [hfv, hq]
      have ha : ¬ q ≤ 0 := by omega
      have hb : ¬ p0.stock < q := by omega
      simp [ha, hb]
    rw [createOrder_eq, hnone]
    simp only [hitems]
    rw [okItems_single_line s.products raw p0 q hby hsize hq h1 h2]
    have hidx2 : productIndex s.products p0.id = some j := by rw [hid]; exact hidx
    simp only [reserveStock, List.foldl_cons, List.foldl_nil, hidx2]
    rw [addStock_eq_set s.products j (-q) p0 hprod, sub_eq_add_neg]
  refine ⟨?_, hproducts, ?_⟩
  · rw [createOrder_eq, hfv]
    constructor
    · rintro ⟨orderNo, total, tracking, approval, h⟩
      cases hq : toInt raw.quantity with
      | nan => simp [hq] at h
      | infinity negative => simp [hq] at h
      | finite q =>
        simp only [hq] at h
        by_cases h0 : q ≤ 0
        · simp [h0] at h
        · by_cases h1 : p0.stock < q
          · simp [h0, h1] at h
          · exact ⟨q, rfl, by omega, by omega⟩
    · rintro ⟨q, hq, h1, h2⟩
      have ha : ¬ q ≤ 0 := by omega
      have hb : ¬ p0.stock < q := by omega
      simp only [hq, ha, hb, if_false]
      exact ⟨_, _, _, _, rfl⟩
  · intro q hq h1 hqs env' user' req' raw' hitems' hcust' hpay' hsame hsize'
    have h2 : q ≤ p0.stock := by omega
    have hp := hproducts q hq h1 h2
    have hzero : p0.stock - q = 0 := by omega
    rw [hzero] at hp
    have hids : (createOrder env user req s).2.products.map (fun x => x.id) =
        s.products.map (fun x => x.id) := by
      rw [hp]
      exact map_id_set s.products j p0 { p0 with stock := 0 } hprod rfl
    have hidx' : productIndex (createOrder env user req s).2.products
        (normalizeText raw'.productId) = some j := by
      rw [productIndex_congr _ _ _ hids, hsame]
      exact hidx
    have hlt : j < s.products.length := by
      rcases List.getElem?_eq_some_iff.mp hprod with ⟨h, _⟩
      exact h
    have hget : (createOrder env user req s).2.products[j]? = some { p0 with stock := 0 } := by
      rw [hp]
      simp [hlt]
    have hby' := productById_of_index _ _ j _ hidx' hget
    have hfv' := firstViolation_single_line env' user' req' (createOrder env user req s).2 raw'
      { p0 with stock := 0 } hitems' hcust' hpay' hby' hsize'
    constructor
    · rw [createOrder_eq, hfv']
      cases hq' : toInt raw'.quantity with
      | nan => exact ⟨_, rfl⟩
      | infinity negative => exact ⟨_, rfl⟩
      | finite q' =>
        simp only []
        by_cases h0 : q' ≤ 0
        · simp only [h0, if_true]
          exact ⟨_, rfl⟩
        · have hb : (0 : Int) < q' := by omega
          simp only [h0, hb, if_false, if_true]
          exact ⟨_, rfl⟩
    · intro q' hq' h1'
      rw [createOrder_eq, hfv', hq']
      have ha : ¬ q' ≤ 0 := by omega
      have hb : (0 : Int) < q' := by omega
      simp [ha, hb]

/-- C15 at the specification's scenario: stock 2, an order for 2 succeeds and leaves
stock 0, then an order for 1 fails with the insufficient-stock error. -/
theorem single_line_reserve_witness :
    (∃ orderNo total tracking approval,
      (createOrder sampleCreateEnv sampleUser wholeStockRequest ⟨[sampleProduct], []⟩).1 =
        .created orderNo total tracking approval) ∧
    (createOrder sampleCreateEnv sampleUser wholeStockRequest ⟨[sampleProduct], []⟩).2.products =
      [{ sampleProduct with stock := 0 }] ∧
    createOrder laterCreateEnv sampleUser oneLineRequest
        (createOrder sampleCreateEnv sampleUser wholeStockRequest ⟨[sampleProduct], []⟩).2 =
      (.failure (.insufficientStock "Gomlek" 0),
        (createOrder sampleCreateEnv sampleUser wholeStockRequest ⟨[sampleProduct], []⟩).2) :=
  have h := single_line_reserve sampleCreateEnv sampleUser wholeStockRequest
    ⟨[sampleProduct], []⟩ ⟨"P1", "M", "2"⟩ 0 sampleProduct (by decide) (by decide) (by decide)
    (by decide) (by decide) (by decide)
  ⟨h.1.mpr ⟨2, by decide, by decide, by decide⟩, h.2.1 2 (by decide) (by decide) (by decide),
    (h.2.2 2 (by decide) (by decide) (by decide) laterCreateEnv sampleUser oneLineRequest
      ⟨"P1", "M", "1"⟩ (by decide) (by decide) (by decide) (by decide) (by decide)).2 1
      (by decide) (by decide)⟩

/-! ### Card number check in order creation -/

theorem isValidCardNumber_onlyDigits (x : String) :
    isValidCardNumber (onlyDigits x) = isValidCardNumber x := by
  rw [Bool.eq_iff_iff, isValidCardNumber_iff, isValidCardNumber_iff, onlyDigits_data]
  simp [List.filter_filter]

/-- C16, as amended: a request with payment method Kredi Karti, a complete customer
record, a non-empty cart and a card number that `isValidCardNumber` rejects is answered
with a card error and changes neither store; the error is the card-number error when the
normalized card holder has at least 2 characters, and the card-holder error otherwise. -/
theorem createOrder_invalid_card_number (env : CreateEnv) (user : User) (req : OrderRequest)
    (s : Store)
    (hmethod : paymentMethodOf req = "Kredi Karti")
    (hcust : customerViolation user req = none)
    (hcart : req.items ≠ [])
    (hluhn : isValidCardNumber req.payment.cardNumber = false) :
    (2 ≤ jsLength (normalizeText req.payment.cardHolder) →
      createOrder env user req s = (.failure (.payment "Kart numarasi gecersiz."), s)) ∧
    (jsLength (normalizeText req.payment.cardHolder) < 2 →
      createOrder env user req s = (.failure (.payment "Kart uzerindeki isim gecersiz."), s)) := by
  have hcartv : cartViolation req = none := by simp [cartViolation, hcart]
  have hnum : isValidCardNumber (onlyDigits req.payment.cardNumber) = false := by
    rw [isValidCardNumber_onlyDigits]
    exact hluhn
  constructor
  · intro hlen
    have hname : ¬ jsLength (normalizeText req.payment.cardHolder) < 2 := by omega
    have hv : validateCardPayment env.card req.payment = .rejected "Kart numarasi gecersiz." := by
      rw [validateCardPayment_eq]
      simp [firstViolatedRule, cardRules, List.find?_cons, CardRule.violated, hname, hnum,
        CardRule.message]
    rw [createOrder_eq]
    simp [firstViolation, hcust, hcartv, paymentViolation, hmethod, hv]
  · intro hlen
    have hv : validateCardPayment env.card req.payment =
        .rejected "Kart uzerindeki isim gecersiz." := by
      rw [validateCardPayment_eq]
      simp [firstViolatedRule, cardRules, List.find?_cons, CardRule.violated, hlen,
        CardRule.message]
    rw [createOrder_eq]
    simp [firstViolation, hcust, hcartv, paymentViolation, hmethod, hv]

/-- C16 at the specification's number `4111111111111112` with a valid card holder. -/
theorem createOrder_invalid_card_number_witness :
    (2 ≤ jsLength (normalizeText badNumberRequest.payment.cardHolder) →
      createOrder sampleCreateEnv sampleUser badNumberRequest storeWithOrder =
        (.failure (.payment "Kart numarasi gecersiz."), storeWithOrder)) ∧
    (jsLength (normalizeText badNumberRequest.payment.cardHolder) < 2 →
      createOrder sampleCreateEnv sampleUser badNumberRequest storeWithOrder =
        (.failure (.payment "Kart uzerindeki isim gecersiz."), storeWithOrder)) :=
  createOrder_invalid_card_number sampleCreateEnv sampleUser badNumberRequest storeWithOrder
    (by decide) (by decide) (by decide) (by decide)

/-- C16 as stated fails: a Kredi Karti request with a complete customer record, a
non-empty cart and the Luhn-invalid number `4111111111111112` but no card holder is
answered with the card-holder error, not with the card-number error. -/
theorem createOrder_holder_error_before_number_error :
    paymentMethodOf badNumberNoHolderRequest = "Kredi Karti" ∧
    customerViolation sampleUser badNumberNoHolderRequest = none ∧
    badNumberNoHolderRequest.items ≠ [] ∧
    isValidCardNumber badNumberNoHolderRequest.payment.cardNumber = false ∧
    (createOrder sampleCreateEnv sampleUser badNumberNoHolderRequest storeWithOrder).1 =
      .failure (.payment "Kart uzerindeki isim gecersiz.") ∧
    (createOrder sampleCreateEnv sampleUser badNumberNoHolderRequest storeWithOrder).1 ≠
      .failure (.payment "Kart numarasi gecersiz.") := by
  decide

/-! ### Reading orders -/

theorem perm_insertByCreated (x : Order × String) (l : List (Order × String)) :
    (insertByCreated x l).Perm (x :: l) := by
  induction l with
  | nil => exact List.Perm.refl _
  | cons y rest ih =>
    unfold insertByCreated
    by_cases h : compareCreated x y ≤ 0
    · simp only [h, if_true]
      exact List.Perm.refl _
    · simp only [h, if_false]
      exact (List.Perm.cons y ih).trans (List.Perm.swap x y rest)

theorem perm_sortByCreated (l : List (Order × String)) : (sortByCreated l).Perm l := by
  induction l with
  | nil => exact List.Perm.refl _
  | cons x rest ih =>
    show (insertByCreated x (sortByCreated rest)).Perm (x :: rest)
    exact (perm_insertByCreated x _).trans (List.Perm.cons x ih)

theorem withTrackingAll_map_fst (nowAt : Nat → Int) (k : Nat) (l : List Order) :
    (withTrackingAll nowAt k l).map Prod.fst = l := by
  induction l generalizing k with
  | nil => rfl
  | cons o rest ih => simp [withTrackingAll, withTracking, ih]

theorem withTrackingAll_mem (nowAt : Nat → Int) (k : Nat) (l : List Order) (x : Order × String)
    (hx : x ∈ withTrackingAll nowAt k l) : ∃ n, x = withTracking (nowAt n) x.1 := by
  induction l generalizing k with
  | nil => simp [withTrackingAll] at hx
  | cons o rest ih =>
    simp only [withTrackingAll, List.mem_cons] at hx
    rcases hx with h | h
    · exact ⟨k, by rw [h]; rfl⟩
    · exact ih (k + 1) h

theorem newestFirst_insert (x : Order × String) (l : List (Order × String))
    (hx : x.1.createdAt ≠ none) (hl : ∀ y ∈ l, y.1.createdAt ≠ none)
    (hs : l.Pairwise NewestFirst) : (insertByCreated x l).Pairwise NewestFirst := by
  induction l with
  | nil => simp [insertByCreated]
  | cons y rest ih =>
    obtain ⟨tx, htx⟩ := Option.ne_none_iff_exists'.mp hx
    obtain ⟨ty, hty⟩ := Option.ne_none_iff_exists'.mp (hl y (List.mem_cons_self _ _))
    rw [List.pairwise_cons] at hs
    unfold insertByCreated
    by_cases h : compareCreated x y ≤ 0
    · simp only [h, if_true]
      have hxy : ty ≤ tx := by
        simp only [compareCreated, htx, hty] at h
        omega
      rw [List.pairwise_cons]
      refine ⟨?_, List.pairwise_cons.mpr hs⟩
      intro z hz
      rcases List.mem_cons.mp hz with rfl | hz'
      · exact ⟨tx, ty, htx, hty, hxy⟩
      · obtain ⟨ty', tz, h1, h2, h3⟩ := hs.1 z hz'
        rw [hty] at h1
        cases h1
        exact ⟨tx, tz, htx, h2, by omega⟩
    · simp only [h, if_false]
      have hyx : tx ≤ ty := by
        simp only [compareCreated, htx, hty] at h
        omega
      rw [List.pairwise_cons]
      refine ⟨?_, ih (fun z hz => hl z (List.mem_cons_of_mem _ hz)) hs.2⟩
      intro z hz
      rcases List.mem_cons.mp ((perm_insertByCreated x rest).subset hz) with rfl | hz'
      · exact ⟨ty, tx, hty, htx, hyx⟩
      · exact hs.1 z hz'

theorem newestFirst_sortByCreated (l : List (Order × String))
    (hl : ∀ y ∈ l, y.1.createdAt ≠ none) : (sortByCreated l).Pairwise NewestFirst := by
  induction l with
  | nil => simp [sortByCreated]
  | cons x rest ih =>
    show (insertByCreated x (sortByCreated rest)).Pairwise NewestFirst
    apply newestFirst_insert x _ (hl x (List.mem_cons_self _ _))
    · intro y hy
      exact hl y (List.mem_cons_of_mem _ ((perm_sortByCreated rest).subset hy))
    · exact ih (fun y hy => hl y (List.mem_cons_of_mem _ hy))

/-- C17: `GET /api/orders/my` answers with a list that holds exactly the orders of the
store whose `userId` is the caller's id (a permutation of them, so each once and none of
another user), each paired with the tracking status derived from its `createdAt` at the
time of its `withTracking` call, and, when the `createdAt` of these orders are valid
dates, ordered from the newest to the oldest. -/
theorem myOrders_lists_own_orders_newest_first (nowAt : Nat → Int) (user : User) (s : Store) :
    ∃ result, myOrders nowAt user s = .listed result ∧
      (result.map Prod.fst).Perm (s.orders.filter (fun o => o.userId == user.id)) ∧
      (∀ x ∈ result, x.1 ∈ s.orders ∧ x.1.userId = user.id ∧
        ∃ n, x.2 = resolveTrackingStatus (nowAt n) x.1.createdAt) ∧
      ((∀ o ∈ s.orders, o.userId = user.id → o.createdAt ≠ none) →
        result.Pairwise NewestFirst) := by
  refine ⟨_, rfl, ?_, ?_, ?_⟩
  · have h := (perm_sortByCreated
      (withTrackingAll nowAt 0 (s.orders.filter (fun o => o.userId == user.id)))).map Prod.fst
    rwa [withTrackingAll_map_fst] at h
  · intro x hx
    have hx' := (perm_sortByCreated _).subset hx
    have hmem : x.1 ∈ s.orders.filter (fun o => o.userId == user.id) := by
      have := List.mem_map_of_mem Prod.fst hx'
      rwa [withTrackingAll_map_fst] at this
    rw [List.mem_filter] at hmem
    obtain ⟨n, hn⟩ := withTrackingAll_mem nowAt 0 _ x hx'
    refine ⟨hmem.1, by simpa using hmem.2, n, ?_⟩
    have := congrArg Prod.snd hn
    simpa [withTracking] using this
  · intro hparse
    apply newestFirst_sortByCreated
    intro y hy
    have hmem : y.1 ∈ s.orders.filter (fun o => o.userId == user.id) := by
      have := List.mem_map_of_mem Prod.fst hy
      rwa [withTrackingAll_map_fst] at this
    rw [List.mem_filter] at hmem
    exact hparse y.1 hmem.1 (by simpa using hmem.2)

/-! ### Owner-only access -/

theorem findOrder_eq_none (pred : Order → Bool) (l : List Order)
    (h : ∀ x ∈ l, pred x = false) : findOrder pred l = none := by
  induction l with
  | nil => rfl
  | cons x rest ih =>
    have hx := h x (List.mem_cons_self _ _)
    have hr := ih (fun y hy => h y (List.mem_cons_of_mem _ hy))
    simp [findOrder, hx, hr]

/-! ### Fields that never change -/

theorem sameFixedFields_refl (o : Order) : SameFixedFields o o :=
  ⟨rfl, rfl, rfl, rfl, rfl, rfl, rfl, rfl, rfl, rfl⟩

/-- A cancel or status request leaves the order list as it is or replaces one order by
one with the same fixed fields. -/
theorem handle_orders_shape (r : Request) (s : Store) (hr : r.isCreate = false) :
    (handle r s).2.orders = s.orders ∨
    ∃ k ok o', s.orders[k]? = some ok ∧ SameFixedFields ok o' ∧
      (handle r s).2.orders = s.orders.set k o' := by
  cases r with
  | create env user req => simp [Request.isCreate] at hr
  | cancel env user orderNo =>
    simp only [handle, cancelOrder]
    cases hf : findOrder (fun item => item.orderNo == normalizeText orderNo &&
        item.userId == user.id) s.orders with
    | none => exact Or.inl rfl
    | some found =>
      obtain ⟨i, o⟩ := found
      simp only []
      split
      · exact Or.inl rfl
      · split
        · exact Or.inl rfl
        · exact Or.inr ⟨i, o, markCancelled env.nowCancelled o, (findOrder_some _ _ _ _ hf).1,
            ⟨rfl, rfl, rfl, rfl, rfl, rfl, rfl, rfl, rfl, rfl⟩, rfl⟩
  | adminCancel env orderNo =>
    simp only [handle, adminCancelOrder]
    cases hf : findOrder (fun item => item.orderNo == normalizeText orderNo) s.orders with
    | none => exact Or.inl rfl
    | some found =>
      obtain ⟨i, o⟩ := found
      simp only []
      split
      · exact Or.inl rfl
      · exact Or.inr ⟨i, o, markCancelled env.nowCancelled o, (findOrder_some _ _ _ _ hf).1,
          ⟨rfl, rfl, rfl, rfl, rfl, rfl, rfl, rfl, rfl, rfl⟩, rfl⟩
  | adminStatus now orderNo status =>
    simp only [handle, updateOrderStatus]
    split
    · exact Or.inl rfl
    · cases hf : findOrder (fun item => item.orderNo == normalizeText orderNo) s.orders with
      | none => exact Or.inl rfl
      | some found =>
        obtain ⟨i, o⟩ := found
        simp only []
        refine Or.inr ⟨i, o, _, (findOrder_some _ _ _ _ hf).1, ?_, rfl⟩
        split <;> exact ⟨rfl, rfl, rfl, rfl, rfl, rfl, rfl, rfl, rfl, rfl⟩

/-- C19: a self-service cancel, an admin cancel or an admin status update, successful or
not, keeps the length of the order store, changes at most one order of it, and leaves
in every order the fields orderNo, userId, createdAt, customer, items, paymentMethod,
payment, subtotal, shipping and total as they were. -/
theorem order_fields_frozen (r : Request) (s : Store) (hr : r.isCreate = false) :
    (handle r s).2.orders.length = s.orders.length ∧
    (∃ k, ∀ i : Nat, i ≠ k → (handle r s).2.orders[i]? = s.orders[i]?) ∧
    (∀ (i : Nat) (o : Order), s.orders[i]? = some o →
      ∃ o', (handle r s).2.orders[i]? = some o' ∧ SameFixedFields o o') := by
  rcases handle_orders_shape r s hr with h | ⟨k, ok, o', hk, hsame, h⟩
  · rw [h]
    exact ⟨rfl, ⟨0, fun _ _ => rfl⟩, fun i o ho => ⟨o, ho, sameFixedFields_refl o⟩⟩
  · rw [h]
    refine ⟨by simp, ⟨k, fun i hi => ?_⟩, fun i o ho => ?_⟩
    · have hki : ¬ k = i := fun h => hi h.symm
      rw [List.getElem?_set]
      simp [hki]
    · by_cases hik : i = k
      · subst hik
        have hlt : i < s.orders.length := by
          rcases List.getElem?_eq_some_iff.mp hk with ⟨h, _⟩
          exact h
        rw [ho] at hk
        cases hk
        exact ⟨o', by simp [hlt], hsame⟩
      · refine ⟨o, ?_, sameFixedFields_refl o⟩
        have hki : ¬ k = i := fun h => hik h.symm
        rw [List.getElem?_set]
        simp [hki, ho]

/-- C19 at the owner's cancellation of the sample order. -/
theorem order_fields_frozen_witness :
    (handle (.cancel sampleCancelEnv sampleUser sampleOrderNo) storeWithOrder).2.orders.length =
      storeWithOrder.orders.length ∧
    (∃ k, ∀ i : Nat, i ≠ k →
      (handle (.cancel sampleCancelEnv sampleUser sampleOrderNo) storeWithOrder).2.orders[i]? =
        storeWithOrder.orders[i]?) ∧
    (∀ (i : Nat) (o : Order), storeWithOrder.orders[i]? = some o →
      ∃ o', (handle (.cancel sampleCancelEnv sampleUser sampleOrderNo)
          storeWithOrder).2.orders[i]? = some o' ∧ SameFixedFields o o') :=
  order_fields_frozen (.cancel sampleCancelEnv sampleUser sampleOrderNo) storeWithOrder
    (by decide)

/-! ### Card brand and last four digits -/

theorem char_eq_iff_toNat (c d : Char) : c = d ↔ c.toNat = d.toNat := by
  constructor
  · intro h
    rw [h]
  · intro h
    have := congrArg Char.ofNat h
    simpa [Char.ofNat_toNat] using this

theorem detectCardBrand_eq_spec (number : String) :
    detectCardBrand (onlyDigits number) = cardBrandSpec number := by
  unfold detectCardBrand cardBrandSpec digitsOf
  rw [onlyDigits_data]
  have hall : ∀ c ∈ number.data.filter isDigitChar, isDigitChar c = true :=
    fun c hc => (List.mem_filter.mp hc).2
  generalize number.data.filter isDigitChar = l at hall
  match l, hall with
  | [], _ => simp
  | [c₁], hall =>
    have h1 := hall c₁ (by simp)
    simp only [isDigitChar, Bool.and_eq_true, decide_eq_true_eq] at h1
    have e4 : (c₁ == '4') = decide (c₁.toNat - 48 = 4) := by
      rw [Bool.eq_iff_iff]
      simp only [beq_iff_eq, decide_eq_true_eq, char_eq_iff_toNat]
      have : ('4' : Char).toNat = 52 := by decide
      omega
    simp only [e4, List.map_cons, List.map_nil, List.head?_cons, Option.some.injEq,
      List.length_singleton, decide_eq_true_eq]
    by_cases h : c₁.toNat - 48 = 4
    · simp [h]
    · simp [h]
  | c₁ :: c₂ :: rest, hall =>
    have h1 := hall c₁ (by simp)
    have h2 := hall c₂ (by simp)
    simp only [isDigitChar, Bool.and_eq_true, decide_eq_true_eq] at h1 h2
    have k1 : ('1' : Char).toNat = 49 := by decide
    have k2 : ('2' : Char).toNat = 50 := by decide
    have k3 : ('3' : Char).toNat = 51 := by decide
    have k4 : ('4' : Char).toNat = 52 := by decide
    have k5 : ('5' : Char).toNat = 53 := by decide
    have k7 : ('7' : Char).toNat = 55 := by decide
    simp only [List.map_cons, List.head?_cons, Option.some.injEq, List.length_cons,
      List.getD_cons_zero, List.getD_cons_succ, beq_iff_eq, char_eq_iff_toNat, k1, k2, k3, k4,
      k5, k7, Bool.and_eq_true, Bool.or_eq_true, decide_eq_true_eq]
    split_ifs <;> first | rfl | omega

/-- C20: on an accepted card payment `cardBrand` is the brand the specification names
for the digits-only number (Visa for a leading 4, Mastercard for 51..55 or 22..27, Amex
for 34 or 37, Kart in every other case), and `cardLast4` is the last four characters
of the digits-only number. -/
theorem accepted_card_brand_and_last4 (env : CardEnv) (p : CardPayload)
    (snap : PaymentSnapshot) (h : validateCardPayment env p = .accepted snap) :
    snap.cardBrand = some (cardBrandSpec p.cardNumber) ∧
    ∃ lead last4 : List Char, (onlyDigits p.cardNumber).data = lead ++ last4 ∧
      last4.length = 4 ∧ snap.cardLast4 = some ⟨last4⟩ := by
  obtain ⟨hnone, hsnap⟩ := validateCardPayment_accepted env p snap h
  have hvalid : isValidCardNumber (onlyDigits p.cardNumber) = true := by
    unfold firstViolatedRule cardRules at hnone
    rw [List.find?_eq_none] at hnone
    have := hnone CardRule.number (by simp)
    simpa [CardRule.violated] using this
  have hlen : 13 ≤ (onlyDigits p.cardNumber).data.length := by
    have h13 := ((isValidCardNumber_iff _).mp hvalid).1
    exact le_trans h13 (List.length_filter_le _ _)
  refine ⟨?_, (onlyDigits p.cardNumber).data.take ((onlyDigits p.cardNumber).data.length - 4),
    (onlyDigits p.cardNumber).data.drop ((onlyDigits p.cardNumber).data.length - 4), ?_, ?_, ?_⟩
  · rw [hsnap]
    simp [cardSnapshot, detectCardBrand_eq_spec]
  · exact (List.take_append_drop _ _).symm
  · rw [List.length_drop]
    omega
  · rw [hsnap]
    rfl

/-- C20 at the sample Visa payload: brand Visa and last four digits 1111. -/
theorem accepted_card_brand_and_last4_witness :
    sampleSnapshot.cardBrand = some (cardBrandSpec sampleCard.cardNumber) ∧
    ∃ lead last4 : List Char, (onlyDigits sampleCard.cardNumber).data = lead ++ last4 ∧
      last4.length = 4 ∧ sampleSnapshot.cardLast4 = some ⟨last4⟩ :=
  accepted_card_brand_and_last4 sampleCardEnv sampleCard sampleSnapshot (by decide)

/-! ### Status and cancelled flag -/

theorem statusOk_orderOf (env : CreateEnv) (user : User) (req : OrderRequest)
    (products : List Product) : StatusOk (orderOf env user req products) := by
  unfold StatusOk orderOf
  simp

theorem statusOk_markCancelled (now : Int) (o : Order) : StatusOk (markCancelled now o) := by
  unfold StatusOk markCancelled
  simp

theorem statusOk_set (l : List Order) (i : Nat) (o' : Order)
    (hl : ∀ o ∈ l, StatusOk o) (ho : StatusOk o') : ∀ o ∈ l.set i o', StatusOk o := by
  intro o hmem
  rcases List.mem_or_eq_of_mem_set hmem with h | h
  · exact hl o h
  · exact h ▸ ho

theorem statusOk_of_valid (o : Order) (newStatus : String) (h : newStatus ∈ validStatuses) :
    StatusOk { o with status := newStatus, cancelled := false } := by
  unfold StatusOk
  simp only [validStatuses, List.mem_cons, List.mem_singleton, List.not_mem_nil, or_false] at h ⊢
  rcases h with h | h | h | h <;> subst h <;> simp

theorem handle_statusOk (r : Request) (s : Store) (hs : ∀ o ∈ s.orders, StatusOk o) :
    ∀ o ∈ (handle r s).2.orders, StatusOk o := by
  cases r with
  | create env user req =>
    simp only [handle, createOrder_eq]
    cases firstViolation env user req s with
    | some e => exact hs
    | none =>
      intro o hmem
      simp only [List.mem_append, List.mem_singleton] at hmem
      rcases hmem with h | h
      · exact hs o h
      · exact h ▸ statusOk_orderOf env user req s.products
  | cancel env user orderNo =>
    simp only [handle, cancelOrder]
    cases hf : findOrder (fun item => item.orderNo == normalizeText orderNo &&
        item.userId == user.id) s.orders with
    | none => exact hs
    | some found =>
      obtain ⟨i, o⟩ := found
      simp only []
      split
      · exact hs
      · split
        · exact hs
        · exact statusOk_set _ _ _ hs (statusOk_markCancelled _ _)
  | adminCancel env orderNo =>
    simp only [handle, adminCancelOrder]
    cases hf : findOrder (fun item => item.orderNo == normalizeText orderNo) s.orders with
    | none => exact hs
    | some found =>
      obtain ⟨i, o⟩ := found
      simp only []
      split
      · exact hs
      · exact statusOk_set _ _ _ hs (statusOk_markCancelled _ _)
  | adminStatus now orderNo status =>
    simp only [handle, updateOrderStatus]
    split
    · exact hs
    · rename_i hvalid
      have hv : normalizeText status ∈ validStatuses := by
        by_contra hnot
        apply hvalid
        have hc : validStatuses.contains (normalizeText status) = false := by simpa using hnot
        simp [hc, hnot]
      cases hf : findOrder (fun item => item.orderNo == normalizeText orderNo) s.orders with
      | none => exact hs
      | some found =>
        obtain ⟨i, o⟩ := found
        simp only []
        apply statusOk_set _ _ _ hs
        cases hc : o.cancelled
        · have := statusOk_of_valid o (normalizeText status) hv
          simpa [hc] using this
        · have := statusOk_of_valid o (normalizeText status) hv
          simpa [hc] using this

theorem run_statusOk (requests : List Request) (s : Store) (hs : ∀ o ∈ s.orders, StatusOk o) :
    ∀ o ∈ (run s requests).orders, StatusOk o := by
  induction requests generalizing s with
  | nil => exact hs
  | cons r rest ih => exact ih (handle r s).2 (handle_statusOk r s hs)


/-- C27: starting from an empty order store, after any sequence of order creations,
self-service cancellations, admin cancellations and admin status updates, every stored
order has `cancelled = true` exactly when its status is Iptal Edildi, and its status is
one of Hazirlaniyor, Kargoya Verildi, Yolda, Teslim Edildi, Iptal Edildi. -/
theorem cancelled_iff_status_cancelled (products : List Product) (requests : List Request) :
    ∀ o ∈ (run ⟨products, []⟩ requests).orders,
      (o.cancelled = true ↔ o.status = "Iptal Edildi") ∧
      o.status ∈ ["Hazirlaniyor", "Kargoya Verildi", "Yolda", "Teslim Edildi", "Iptal Edildi"] :=
  run_statusOk requests ⟨products, []⟩ (by simp)

/-- C27 at the sample order after creation and cancellation. -/
theorem cancelled_iff_status_cancelled_witness :
    ((markCancelled 1700003600000 sampleOrder).cancelled = true ↔
      (markCancelled 1700003600000 sampleOrder).status = "Iptal Edildi") ∧
    (markCancelled 1700003600000 sampleOrder).status ∈
      ["Hazirlaniyor", "Kargoya Verildi", "Yolda", "Teslim Edildi", "Iptal Edildi"] :=
  cancelled_iff_status_cancelled [sampleProduct] createThenCancel
    (markCancelled 1700003600000 sampleOrder) (by decide)

/-! ### Monotone tracking status -/

theorem statusRank_values :
    statusRank "Hazirlaniyor" = 0 ∧ statusRank "Kargoya Verildi" = 1 ∧
    statusRank "Yolda" = 2 ∧ statusRank "Teslim Edildi" = 3 := by
  decide

/-- C28: the derived tracking status never moves backwards: for every `createdAt` and
instants `t1 <= t2` the status resolved at `t1` is not later, in the order
Hazirlaniyor < Kargoya Verildi < Yolda < Teslim Edildi, than the status resolved at
`t2`; an unparsable `createdAt` and a `createdAt` after the current instant resolve to
Hazirlaniyor. -/
theorem resolveTrackingStatus_monotone (createdAt : Option Int) (t₁ t₂ : Int) (h : t₁ ≤ t₂) :
    statusRank (resolveTrackingStatus t₁ createdAt) ≤
      statusRank (resolveTrackingStatus t₂ createdAt) ∧
    resolveTrackingStatus t₁ none = "Hazirlaniyor" ∧
    (∀ created : Int, t₁ < created → resolveTrackingStatus t₁ (some created) = "Hazirlaniyor") := by
  obtain ⟨r0, r1, r2, r3⟩ := statusRank_values
  refine ⟨?_, rfl, ?_⟩
  · cases createdAt with
    | none => simp [resolveTrackingStatus]
    | some c =>
      simp only [resolveTrackingStatus]
      split_ifs <;> simp only [r0, r1, r2, r3] <;> omega
  · intro created hc
    have : t₁ - created < 2 * 3600000 := by omega
    simp only [resolveTrackingStatus, this, if_true]

/-- C28 at an order created at 1700000000000: one hour later and 30 hours later. -/
theorem resolveTrackingStatus_monotone_witness :
    statusRank (resolveTrackingStatus 1700003600000 (some 1700000000000)) ≤
      statusRank (resolveTrackingStatus 1700108000000 (some 1700000000000)) ∧
    resolveTrackingStatus 1700003600000 none = "Hazirlaniyor" ∧
    (∀ created : Int, 1700003600000 < created →
      resolveTrackingStatus 1700003600000 (some created) = "Hazirlaniyor") :=
  resolveTrackingStatus_monotone (some 1700000000000) 1700003600000 1700108000000 (by decide)

/-! ### Check digit -/

theorem digitChar_spec : ∀ k, k < 10 →
    isDigitChar (digitChar k) = true ∧ (digitChar k).toNat - 48 = k := by
  decide

theorem isValidCardNumber_digits (l : List Char) (hl : ∀ c ∈ l, isDigitChar c = true) :
    isValidCardNumber ⟨l⟩ = true ↔
      13 ≤ l.length ∧ l.length ≤ 19 ∧ luhnLoop l.reverse 0 false % 10 = 0 := by
  rw [isValidCardNumber_iff]
  have : l.filter isDigitChar = l := List.filter_eq_self.mpr hl
  simp only [this]

theorem luhnLoop_snoc (p : List Char) (d : Char) :
    luhnLoop (p ++ [d]).reverse 0 false = (d.toNat - 48) + luhnLoop p.reverse 0 true := by
  rw [List.reverse_append, List.reverse_singleton, List.singleton_append, luhnLoop_cons,
    luhnLoop_acc]
  simp [luhnDigit]

/-- C29: for every digit string `p` of length 12 to 18 there is exactly one digit `d`
such that `isValidCardNumber` accepts `p` followed by `d`. -/
theorem luhn_check_digit_unique (p : List Char) (hp : ∀ c ∈ p, isDigitChar c = true)
    (hlo : 12 ≤ p.length) (hhi : p.length ≤ 18) :
    ∃! d : Char, isDigitChar d = true ∧ isValidCardNumber ⟨p ++ [d]⟩ = true := by
  have hall : ∀ d : Char, isDigitChar d = true → ∀ c ∈ p ++ [d], isDigitChar c = true := by
    intro d hd c hc
    rcases List.mem_append.mp hc with h | h
    · exact hp c h
    · rw [List.mem_singleton.mp h]
      exact hd
  have hiff : ∀ d : Char, isDigitChar d = true →
      (isValidCardNumber ⟨p ++ [d]⟩ = true ↔
        ((d.toNat - 48) + luhnLoop p.reverse 0 true) % 10 = 0) := by
    intro d hd
    rw [isValidCardNumber_digits _ (hall d hd), luhnLoop_snoc]
    simp only [List.length_append, List.length_singleton]
    constructor
    · exact fun h => h.2.2
    · exact fun h => ⟨by omega, by omega, h⟩
  generalize luhnLoop p.reverse 0 true = t at hiff
  have hk : (10 - t % 10) % 10 < 10 := Nat.mod_lt _ (by decide)
  obtain ⟨hd, hv⟩ := digitChar_spec _ hk
  refine ⟨digitChar ((10 - t % 10) % 10), ⟨hd, (hiff _ hd).mpr (by rw [hv]; omega)⟩, ?_⟩
  rintro d' ⟨hd', hacc⟩
  have h' := (hiff d' hd').mp hacc
  have hlt := digit_val_lt d' hd'
  apply digit_val_inj d' _ hd' hd
  rw [hv]
  omega

/-- C29 at the first fifteen digits of the test number: the check digit is 1. -/
theorem luhn_check_digit_unique_witness :
    ∃! d : Char, isDigitChar d = true ∧
      isValidCardNumber ⟨"411111111111111".data ++ [d]⟩ = true :=
  luhn_check_digit_unique "411111111111111".data (by decide) (by decide) (by decide)

/-! ### Checkout page and server -/

theorem app_luhnLoop_eq (l : List Char) (sum : Nat) (b : Bool) :
    App.luhnLoop l sum b = luhnLoop l sum b := by
  induction l generalizing sum b with
  | nil => rfl
  | cons c rest ih => simp only [App.luhnLoop, luhnLoop, ih]

theorem app_onlyDigits_eq (value : String) : App.onlyDigits value = onlyDigits value :=
  String.ext (onlyDigits_data value).symm

/-- C30: for every string the card-number check of the checkout page
(`src/public/app.js`) returns the same boolean as that of the server (`src/server.js`),
and so do their digits-only helpers, although the server trims and drops `<` and `>`
first. -/
theorem app_isValidCardNumber_eq_server (rawNumber : String) :
    App.isValidCardNumber rawNumber = isValidCardNumber rawNumber ∧
    App.onlyDigits rawNumber = onlyDigits rawNumber := by
  refine ⟨?_, app_onlyDigits_eq rawNumber⟩
  unfold App.isValidCardNumber isValidCardNumber
  simp only [app_onlyDigits_eq, app_luhnLoop_eq]

/-! ### Card-holder rule -/

theorem cardRule_message_inj : ∀ r : CardRule, r.message = CardRule.name.message → r = .name := by
  intro r
  cases r <;> decide

theorem firstViolatedRule_name_iff (env : CardEnv) (p : CardPayload) :
    firstViolatedRule env p = some .name ↔ jsLength (normalizeText p.cardHolder) < 2 := by
  unfold firstViolatedRule cardRules
  by_cases h : jsLength (normalizeText p.cardHolder) < 2
  · simp [List.find?_cons, CardRule.violated, h]
  · simp only [h, iff_false]
    intro hf
    have := List.find?_some hf
    simp [CardRule.violated, h] at this

/-- C22, as amended: `validateCardPayment` rejects with the name-invalid reason exactly
when the card holder, trimmed and then stripped of every `<` and `>`, has fewer than 2
characters (UTF-16 code units); a card holder with at least 2 such characters passes
rule 1, so a rejection then carries another reason. -/
theorem card_holder_rule (env : CardEnv) (p : CardPayload) :
    (validateCardPayment env p = .rejected "Kart uzerindeki isim gecersiz." ↔
      jsLength (normalizeText p.cardHolder) < 2) ∧
    (normalizeText p.cardHolder).data =
      (jsTrim p.cardHolder.data).filter (fun c => !(c == '<' || c == '>')) := by
  refine ⟨?_, rfl⟩
  rw [← firstViolatedRule_name_iff env p, validateCardPayment_eq]
  cases hf : firstViolatedRule env p with
  | none => simp
  | some r =>
    simp only [CardValidation.rejected.injEq, Option.some.injEq]
    constructor
    · intro h
      exact cardRule_message_inj r h
    · intro h
      rw [h]
      rfl

/-- C22 as stated fails: the card holder `<A>` between two blanks has 3 characters after
trimming, yet the payload, valid in every other field, is rejected with the name-invalid
reason; with a plain holder the same payload is accepted. -/
theorem card_holder_angle_brackets_rejected :
    (jsTrim " <A> ".data).length = 3 ∧
    validateCardPayment sampleCardEnv ⟨" <A> ", "4111 1111 1111 1111", "12", "26", "123"⟩ =
      .rejected "Kart uzerindeki isim gecersiz." ∧
    validateCardPayment sampleCardEnv ⟨"Ayse Yilmaz", "4111 1111 1111 1111", "12", "26", "123"⟩ =
      .accepted sampleSnapshot := by
  decide

/-! ### Customer check -/

theorem str_isEmpty_iff (t : String) : t.data.isEmpty = true ↔ t = "" := by
  rw [List.isEmpty_iff]
  exact ⟨fun h => String.ext h, fun h => by rw [h]⟩

theorem missingFields_eq_nil_iff (c : Customer) :
    missingFields c = [] ↔
      c.fullName ≠ "" ∧ c.email ≠ "" ∧ c.phone ≠ "" ∧ c.address ≠ "" ∧ c.city ≠ "" ∧
        c.district ≠ "" ∧ c.postalCode ≠ "" := by
  unfold missingFields
  have hd : ∀ t : String, t.data = [] ↔ t = "" :=
    fun t => ⟨fun h => String.ext h, fun h => by rw [h]⟩
  rw [List.map_eq_nil_iff, List.filter_eq_nil_iff]
  simp [hd]

theorem mem_missingFields (c : Customer) (f : String) :
    f ∈ missingFields c ↔
      (f = "fullName" ∧ c.fullName = "") ∨ (f = "email" ∧ c.email = "") ∨
      (f = "phone" ∧ c.phone = "") ∨ (f = "address" ∧ c.address = "") ∨
      (f = "city" ∧ c.city = "") ∨ (f = "district" ∧ c.district = "") ∨
      (f = "postalCode" ∧ c.postalCode = "") := by
  unfold missingFields
  simp only [List.mem_map, List.mem_filter, List.mem_cons, List.mem_singleton, List.not_mem_nil,
    or_false, str_isEmpty_iff, Prod.exists]
  constructor
  · rintro ⟨a, b, ⟨h | h | h | h | h | h | h, hb⟩, rfl⟩ <;>
      simp only [Prod.mk.injEq] at h <;> obtain ⟨rfl, rfl⟩ := h <;> simp [hb]
  · rintro (⟨rfl, h⟩ | ⟨rfl, h⟩ | ⟨rfl, h⟩ | ⟨rfl, h⟩ | ⟨rfl, h⟩ | ⟨rfl, h⟩ | ⟨rfl, h⟩)
    · exact ⟨_, _, ⟨Or.inl rfl, h⟩, rfl⟩
    · exact ⟨_, _, ⟨Or.inr (Or.inl rfl), h⟩, rfl⟩
    · exact ⟨_, _, ⟨Or.inr (Or.inr (Or.inl rfl)), h⟩, rfl⟩
    · exact ⟨_, _, ⟨Or.inr (Or.inr (Or.inr (Or.inl rfl))), h⟩, rfl⟩
    · exact ⟨_, _, ⟨Or.inr (Or.inr (Or.inr (Or.inr (Or.inl rfl)))), h⟩, rfl⟩
    · exact ⟨_, _, ⟨Or.inr (Or.inr (Or.inr (Or.inr (Or.inr (Or.inl rfl))))), h⟩, rfl⟩
    · exact ⟨_, _, ⟨Or.inr (Or.inr (Or.inr (Or.inr (Or.inr (Or.inr rfl))))), h⟩, rfl⟩

theorem lineViolation_not_missing (products : List Product) (raw : RawItem)
    (fields : List String) : lineViolation products raw ≠ some (.missingCustomer fields) := by
  intro h
  unfold lineViolation at h
  obtain ⟨x, hx, hsome⟩ := List.exists_of_findSome?_eq_some h
  simp only [id] at hsome
  simp only [List.mem_cons, List.mem_singleton, List.not_mem_nil, or_false] at hx
  rcases hx with rfl | rfl | rfl | rfl
  · unfold productMissing at hsome
    split at hsome <;> simp at hsome
  · unfold sizeInvalid at hsome
    split at hsome
    · split at hsome <;> simp at hsome
    · simp at hsome
  · unfold quantityInvalid at hsome
    split at hsome
    · split at hsome <;> simp at hsome
    · simp at hsome
    · simp at hsome
  · unfold stockInsufficient at hsome
    split at hsome
    · split at hsome <;> simp at hsome
    · simp at hsome

theorem other_checks_not_missing (env : CreateEnv) (user : User) (req : OrderRequest)
    (s : Store) (fields : List String) (hc : customerViolation user req = none) :
    firstViolation env user req s ≠ some (.missingCustomer fields) := by
  unfold firstViolation
  simp only [List.cons_append, List.nil_append, List.findSome?_cons, id, hc]
  intro h
  have hcart : cartViolation req ≠ some (.missingCustomer fields) := by
    unfold cartViolation
    split <;> simp
  have hpay : paymentViolation env.card req ≠ some (.missingCustomer fields) := by
    unfold paymentViolation
    split
    · split <;> simp
    · simp
  cases hcv : cartViolation req with
  | some e =>
    rw [hcv] at h hcart
    exact hcart h
  | none =>
    rw [hcv] at h
    cases hpv : paymentViolation env.card req with
    | some e =>
      rw [hpv] at h hpay
      exact hpay h
    | none =>
      rw [hpv] at h
      simp only [] at h
      obtain ⟨x, hx, hsome⟩ := List.exists_of_findSome?_eq_some h
      obtain ⟨raw, _, rfl⟩ := List.mem_map.mp hx
      exact lineViolation_not_missing s.products raw fields hsome


/-- C23, as amended: order creation is rejected with the missing-customer-fields error
exactly when a field of the cleaned customer record is empty, where `fullName` and
`phone` are the submitted values after `normalizeText` or, when that is empty, those of
the account, `email` is always that of the account, and `address`, `city`, `district`,
`postalCode` are the submitted values after `normalizeText`; `missingFields` lists exactly
the empty fields of that record; the stores are unchanged and the check precedes all
others, the empty-cart check included. -/
theorem customer_check (env : CreateEnv) (user : User) (req : OrderRequest) (s : Store) :
    ((∃ fields, (createOrder env user req s).1 = .failure (.missingCustomer fields)) ↔
      ((cleanCustomer user req.customer).fullName = "" ∨
        (cleanCustomer user req.customer).email = "" ∨
        (cleanCustomer user req.customer).phone = "" ∨
        (cleanCustomer user req.customer).address = "" ∨
        (cleanCustomer user req.customer).city = "" ∨
        (cleanCustomer user req.customer).district = "" ∨
        (cleanCustomer user req.customer).postalCode = "")) ∧
    (missingFields (cleanCustomer user req.customer) ≠ [] →
      createOrder env user req s =
        (.failure (.missingCustomer (missingFields (cleanCustomer user req.customer))), s)) ∧
    (∀ f, f ∈ missingFields (cleanCustomer user req.customer) ↔
      (f = "fullName" ∧ (cleanCustomer user req.customer).fullName = "") ∨
      (f = "email" ∧ (cleanCustomer user req.customer).email = "") ∨
      (f = "phone" ∧ (cleanCustomer user req.customer).phone = "") ∨
      (f = "address" ∧ (cleanCustomer user req.customer).address = "") ∨
      (f = "city" ∧ (cleanCustomer user req.customer).city = "") ∨
      (f = "district" ∧ (cleanCustomer user req.customer).district = "") ∨
      (f = "postalCode" ∧ (cleanCustomer user req.customer).postalCode = "")) ∧
    ((cleanCustomer user req.customer).fullName =
        (if normalizeText req.customer.fullName = "" then user.fullName
          else normalizeText req.customer.fullName) ∧
      (cleanCustomer user req.customer).email = user.email ∧
      (cleanCustomer user req.customer).phone =
        (if normalizeText req.customer.phone = "" then user.phone
          else normalizeText req.customer.phone) ∧
      (cleanCustomer user req.customer).address = normalizeText req.customer.address ∧
      (cleanCustomer user req.customer).city = normalizeText req.customer.city ∧
      (cleanCustomer user req.customer).district = normalizeText req.customer.district ∧
      (cleanCustomer user req.customer).postalCode = normalizeText req.customer.postalCode) := by
  have hfail : missingFields (cleanCustomer user req.customer) ≠ [] →
      createOrder env user req s =
        (.failure (.missingCustomer (missingFields (cleanCustomer user req.customer))), s) := by
    intro h
    simp [createOrder, h]
  refine ⟨?_, hfail, mem_missingFields _, ?_⟩
  · constructor
    · rintro ⟨fields, hresp⟩
      by_contra hnone
      have hnil : missingFields (cleanCustomer user req.customer) = [] := by
        rw [missingFields_eq_nil_iff]
        simp only [not_or] at hnone
        exact hnone
      have hc : customerViolation user req = none := by simp [customerViolation, hnil]
      have hne := other_checks_not_missing env user req s fields hc
      rw [createOrder_eq] at hresp
      cases hfv : firstViolation env user req s with
      | none => simp [hfv] at hresp
      | some e =>
        simp only [hfv, Response.failure.injEq] at hresp
        rw [hfv, hresp] at hne
        exact hne rfl
    · intro hsome
      have hne : missingFields (cleanCustomer user req.customer) ≠ [] := by
        intro hnil
        rw [missingFields_eq_nil_iff] at hnil
        obtain ⟨h1, h2, h3, h4, h5, h6, h7⟩ := hnil
        rcases hsome with h | h | h | h | h | h | h
        · exact h1 h
        · exact h2 h
        · exact h3 h
        · exact h4 h
        · exact h5 h
        · exact h6 h
        · exact h7 h
      exact ⟨_, by rw [hfail hne]⟩
  · have hd : ∀ t : String, t.data.isEmpty = true ↔ t = "" := str_isEmpty_iff
    refine ⟨?_, rfl, ?_, rfl, rfl, rfl, rfl⟩
    · by_cases h : normalizeText req.customer.fullName = ""
      · simp [cleanCustomer, h]
      · have : ¬ (normalizeText req.customer.fullName).data = [] := fun hh => h (String.ext hh)
        simp [cleanCustomer, h, this]
    · by_cases h : normalizeText req.customer.phone = ""
      · simp [cleanCustomer, h]
      · have : ¬ (normalizeText req.customer.phone).data = [] := fun hh => h (String.ext hh)
        simp [cleanCustomer, h, this]

/-- C23 as stated fails: the submitted customer record has no fullName, no email and no
phone, yet the request is accepted, because these three are taken from the account of
the caller. -/
theorem customer_fields_from_account :
    accountCustomerRequest.customer.fullName = "" ∧
    accountCustomerRequest.customer.email = "" ∧
    accountCustomerRequest.customer.phone = "" ∧
    (createOrder sampleCreateEnv sampleUser accountCustomerRequest ⟨[sampleProduct], []⟩).1 =
      .created "GS-00000000-123" 479 "Hazirlaniyor" none ∧
    ((createOrder sampleCreateEnv sampleUser accountCustomerRequest
      ⟨[sampleProduct], []⟩).2.orders.map (fun o => o.customer)) =
      [⟨"Ayse Yilmaz", "ayse@example.com", "5550000000", "Cadde 1", "Izmir", "Konak", "35000"⟩] := by
  decide

/-! ### Self-service cancellation and the persisted status -/

/-- C24, as amended: self-service cancellation of an order that the handler finds
succeeds exactly when the order is not cancelled and its derived tracking status is not
Teslim Edildi; the persisted status is not consulted; when it does not succeed, the
order store and the product store are unchanged. -/
theorem self_cancel_by_derived_status (env : CancelEnv) (user : User) (orderNo : String)
    (s : Store) (i : Nat) (o : Order)
    (hfound : Canceller.lookup (.owner user) orderNo s.orders = some (i, o)) :
    ((∃ message cancelled tracking,
        (cancelOrder env user orderNo s).1 = .updated message cancelled tracking) ↔
      o.cancelled = false ∧
        resolveTrackingStatus env.nowTracking o.createdAt ≠ "Teslim Edildi") ∧
    ((o.cancelled = true ∨ resolveTrackingStatus env.nowTracking o.createdAt = "Teslim Edildi") →
      (cancelOrder env user orderNo s).2 = s) ∧
    (∀ status : String, o.cancelled = false →
      resolveTrackingStatus env.nowTracking o.createdAt ≠ "Teslim Edildi" →
      ∃ message tracking,
        (cancelOrder env user orderNo { s with orders := s.orders.set i { o with status := status } }).1 =
          .updated message (markCancelled env.nowCancelled o) tracking) := by
  have h := cancelBy_eq (.owner user) env orderNo s
  rw [hfound] at h
  simp only [cancelBy, Canceller.blockedByDelivery, decide_eq_true_eq] at h
  refine ⟨?_, ?_, ?_⟩
  · rw [h]
    constructor
    · rintro ⟨message, cancelled, tracking, hresp⟩
      by_cases hc : o.cancelled = true
      · simp [hc] at hresp
      · by_cases hd : resolveTrackingStatus env.nowTracking o.createdAt = "Teslim Edildi"
        · simp [hc, hd] at hresp
        · exact ⟨by simpa using hc, hd⟩
    · rintro ⟨hc, hd⟩
      simp only [hc, hd, Bool.false_eq_true, if_false]
      exact ⟨_, _, _, rfl⟩
  · rw [h]
    rintro (hc | hd)
    · simp [hc]
    · by_cases hc : o.cancelled = true
      · simp [hc]
      · simp [hc, hd]
  · intro status hc hd
    have hfound' : Canceller.lookup (.owner user) orderNo
        (s.orders.set i { o with status := status }) = some (i, { o with status := status }) := by
      simp only [Canceller.lookup] at hfound ⊢
      exact findOrder_set _ _ _ _ _ hfound (findOrder_some _ _ _ _ hfound).2
    have h' := cancelBy_eq (.owner user) env orderNo
      { s with orders := s.orders.set i { o with status := status } }
    rw [hfound'] at h'
    simp only [cancelBy] at h'
    rw [h']
    simp only [Canceller.blockedByDelivery, decide_eq_true_eq, hc, hd,
      Bool.false_eq_true, if_false]
    exact ⟨_, _, rfl⟩

/-- C24 at the sample order an hour after creation: cancellation by the owner succeeds. -/
theorem self_cancel_by_derived_status_witness :
    ((∃ message cancelled tracking,
        (cancelOrder sampleCancelEnv sampleUser sampleOrderNo storeWithOrder).1 =
          .updated message cancelled tracking) ↔
      sampleOrder.cancelled = false ∧
        resolveTrackingStatus sampleCancelEnv.nowTracking sampleOrder.createdAt ≠
          "Teslim Edildi") ∧
    ((sampleOrder.cancelled = true ∨
        resolveTrackingStatus sampleCancelEnv.nowTracking sampleOrder.createdAt =
          "Teslim Edildi") →
      (cancelOrder sampleCancelEnv sampleUser sampleOrderNo storeWithOrder).2 = storeWithOrder) ∧
    (∀ status : String, sampleOrder.cancelled = false →
      resolveTrackingStatus sampleCancelEnv.nowTracking sampleOrder.createdAt ≠ "Teslim Edildi" →
      ∃ message tracking,
        (cancelOrder sampleCancelEnv sampleUser sampleOrderNo
          { storeWithOrder with
              orders := storeWithOrder.orders.set 0 { sampleOrder with status := status } }).1 =
          .updated message (markCancelled sampleCancelEnv.nowCancelled sampleOrder) tracking) :=
  self_cancel_by_derived_status sampleCancelEnv sampleUser sampleOrderNo storeWithOrder 0
    sampleOrder (by decide)

/-- C24 as stated fails: an admin sets the one hour old sample order to Teslim Edildi, and
the owner's cancellation still succeeds: the order becomes Iptal Edildi and the stock
goes from 1 back to 2. -/
theorem delivered_status_order_cancelled :
    storeDelivered.orders.map (fun o => (o.status, o.cancelled)) = [("Teslim Edildi", false)] ∧
    storeDelivered.products.map (fun p => p.stock) = [1] ∧
    (cancelOrder sampleCancelEnv sampleUser sampleOrderNo storeDelivered).1 =
      .updated "Siparis basariyla iptal edildi." (markCancelled 1700003600000 sampleOrder)
        "Hazirlaniyor" ∧
    (cancelOrder sampleCancelEnv sampleUser sampleOrderNo storeDelivered).2.products.map
      (fun p => p.stock) = [2] := by
  decide

/-! ### Create-then-cancel round trip -/

theorem reserveStock_ids (products : List Product) (items : List OrderItem) :
    (reserveStock products items).map (fun p => p.id) = products.map (fun p => p.id) := by
  apply List.ext_getElem?
  intro j
  simp only [List.getElem?_map, reserveStock_getElem?]
  cases products[j]? <;> rfl

theorem lineQuantity_congr (ps qs : List Product) (items : List OrderItem) (j : Nat)
    (h : ps.map (fun p => p.id) = qs.map (fun p => p.id)) :
    lineQuantity ps items j = lineQuantity qs items j := by
  unfold lineQuantity
  have : (fun item : OrderItem => productIndex ps item.productId == some j) =
      (fun item : OrderItem => productIndex qs item.productId == some j) := by
    funext item
    rw [productIndex_congr ps qs item.productId h]
  rw [this]

/-- Releasing the lines that were reserved gives back the product list. -/
theorem releaseStock_reserveStock (products : List Product) (items : List OrderItem) :
    releaseStock (reserveStock products items) items = products := by
  apply List.ext_getElem?
  intro j
  rw [releaseStock_getElem?, reserveStock_getElem?,
    lineQuantity_congr _ _ items j (reserveStock_ids products items)]
  cases products[j]? with
  | none => rfl
  | some p => simp

/-- C25: when an order is created successfully and a cancel call (by the owner while
the order is younger than 72 hours, or by an admin) addressed to that order follows
directly, the call succeeds and the product store is again the one before the creation,
every stock included, however many lines of the order name the same product. -/
theorem create_then_cancel_restores_stock (c : Canceller) (cenv : CreateEnv) (env : CancelEnv)
    (user : User) (req : OrderRequest) (orderNo : String) (s : Store)
    (no : String) (total : Int) (tracking : String) (code : Option String)
    (hcreated : (createOrder cenv user req s).1 = .created no total tracking code)
    (hfound : c.lookup orderNo (createOrder cenv user req s).2.orders =
      some (s.orders.length, orderOf cenv user req s.products))
    (hage : c = .admin ∨ env.nowTracking - cenv.nowCreated < 72 * 3600000) :
    (cancelBy c env orderNo (createOrder cenv user req s).2).1 =
        .updated "Siparis basariyla iptal edildi."
          (markCancelled env.nowCancelled (orderOf cenv user req s.products))
          (resolveTrackingStatus env.nowResponse (some cenv.nowCreated)) ∧
      (cancelBy c env orderNo (createOrder cenv user req s).2).2.products = s.products ∧
      ∀ j p, s.products[j]? = some p →
        ((createOrder cenv user req s).2.products[j]?.map (fun q => q.stock) =
            some (p.stock - lineQuantity s.products (okItems s.products req.items) j) ∧
          (cancelBy c env orderNo (createOrder cenv user req s).2).2.products[j]?.map
            (fun q => q.stock) = some p.stock) := by
  have hblocked : c.blockedByDelivery env (orderOf cenv user req s.products) = false := by
    rcases hage with rfl | hage
    · rfl
    · cases c with
      | admin => rfl
      | owner u =>
        simp only [Canceller.blockedByDelivery, orderOf, resolveTrackingStatus,
          decide_eq_false_iff_not]
        split_ifs <;> decide
  have hc := createOrder_eq cenv user req s
  cases hv : firstViolation cenv user req s with
  | some e =>
    rw [hc, hv] at hcreated
    simp at hcreated
  | none =>
    rw [hv] at hc
    simp only at hc
    rw [hc] at hfound ⊢
    simp only at hfound ⊢
    have h := cancelBy_eq c env orderNo
      { products := reserveStock s.products (okItems s.products req.items)
        orders := s.orders ++ [orderOf cenv user req s.products] }
    simp only [hfound] at h
    have hnc : (orderOf cenv user req s.products).cancelled = false := rfl
    have hitems : (orderOf cenv user req s.products).items = okItems s.products req.items := rfl
    simp only [hnc, hblocked, Bool.false_eq_true, if_false, hitems,
      releaseStock_reserveStock] at h
    rw [h]
    refine ⟨rfl, rfl, ?_⟩
    intro j p hp
    simp [reserveStock_getElem?, hp]

/-- C25 at a cart with two lines for the sample product: stock 2 becomes -2 at creation
and is 2 again after the owner cancels an hour later. -/
theorem create_then_cancel_restores_stock_witness :
    (cancelBy (.owner sampleUser) sampleCancelEnv sampleOrderNo
        (createOrder sampleCreateEnv sampleUser twoSizesRequest ⟨[sampleProduct], []⟩).2).1 =
        .updated "Siparis basariyla iptal edildi."
          (markCancelled sampleCancelEnv.nowCancelled
            (orderOf sampleCreateEnv sampleUser twoSizesRequest [sampleProduct]))
          (resolveTrackingStatus sampleCancelEnv.nowResponse (some sampleCreateEnv.nowCreated)) ∧
      (cancelBy (.owner sampleUser) sampleCancelEnv sampleOrderNo
        (createOrder sampleCreateEnv sampleUser twoSizesRequest
          ⟨[sampleProduct], []⟩).2).2.products = [sampleProduct] ∧
      ∀ j p, [sampleProduct][j]? = some p →
        ((createOrder sampleCreateEnv sampleUser twoSizesRequest
            ⟨[sampleProduct], []⟩).2.products[j]?.map (fun q => q.stock) =
            some (p.stock - lineQuantity [sampleProduct]
              (okItems [sampleProduct] twoSizesRequest.items) j) ∧
          (cancelBy (.owner sampleUser) sampleCancelEnv sampleOrderNo
            (createOrder sampleCreateEnv sampleUser twoSizesRequest
              ⟨[sampleProduct], []⟩).2).2.products[j]?.map
            (fun q => q.stock) = some p.stock) :=
  create_then_cancel_restores_stock (.owner sampleUser) sampleCreateEnv sampleCancelEnv
    sampleUser twoSizesRequest sampleOrderNo ⟨[sampleProduct], []⟩
    "GS-00000000-123" 1600 "Hazirlaniyor" none (by decide) (by decide) (Or.inr (by decide))

/-! ### Stock conservation -/

theorem activeQuantity_congr (ps qs : List Product) (orders : List Order) (j : Nat)
    (h : ps.map (fun p => p.id) = qs.map (fun p => p.id)) :
    activeQuantity ps orders j = activeQuantity qs orders j := by
  unfold activeQuantity
  have : (fun o : Order => if o.cancelled then 0 else lineQuantity ps o.items j) =
      (fun o : Order => if o.cancelled then 0 else lineQuantity qs o.items j) := by
    funext o
    rw [lineQuantity_congr ps qs o.items j h]
  rw [this]

theorem activeQuantity_append (ps : List Product) (orders : List Order) (o : Order) (j : Nat) :
    activeQuantity ps (orders ++ [o]) j =
      activeQuantity ps orders j + (if o.cancelled then 0 else lineQuantity ps o.items j) := by
  simp [activeQuantity]

theorem sum_map_set (f : Order → Int) (l : List Order) (i : Nat) (o o' : Order)
    (h : l[i]? = some o) : ((l.set i o').map f).sum = (l.map f).sum - f o + f o' := by
  induction l generalizing i with
  | nil => simp at h
  | cons x rest ih =>
    cases i with
    | zero =>
      simp only [List.getElem?_cons_zero, Option.some.injEq] at h
      subst h
      simp only [List.set_cons_zero, List.map_cons, List.sum_cons]
      ring
    | succ i =>
      simp only [List.getElem?_cons_succ] at h
      simp only [List.set_cons_succ, List.map_cons, List.sum_cons, ih i h]
      ring

theorem activeQuantity_set (ps : List Product) (orders : List Order) (i : Nat) (o o' : Order)
    (j : Nat) (h : orders[i]? = some o) :
    activeQuantity ps (orders.set i o') j =
      activeQuantity ps orders j - (if o.cancelled then 0 else lineQuantity ps o.items j) +
        (if o'.cancelled then 0 else lineQuantity ps o'.items j) := by
  unfold activeQuantity
  exact sum_map_set _ orders i o o' h

theorem releaseStock_ids (products : List Product) (items : List OrderItem) :
    (releaseStock products items).map (fun p => p.id) = products.map (fun p => p.id) := by
  apply List.ext_getElem?
  intro j
  simp only [List.getElem?_map, releaseStock_getElem?]
  cases products[j]? <;> rfl

theorem conserved_create (init : List Product) (s : Store) (o : Order)
    (ho : o.cancelled = false) (h : Conserved init s) :
    Conserved init ⟨reserveStock s.products o.items, s.orders ++ [o]⟩ := by
  refine ⟨(reserveStock_ids _ _).trans h.1, ?_⟩
  intro j
  have hj := h.2 j
  simp only [reserveStock_getElem?, activeQuantity_append, ho, Bool.false_eq_true, if_false,
    activeQuantity_congr _ _ (s.orders) j (reserveStock_ids s.products o.items),
    lineQuantity_congr _ _ o.items j (reserveStock_ids s.products o.items)]
  rw [← hj]
  cases s.products[j]? with
  | none => rfl
  | some p =>
    simp only [Option.map_some', Option.some.injEq]
    ring

theorem conserved_cancel (init : List Product) (s : Store) (i : Nat) (o : Order) (now : Int)
    (hi : s.orders[i]? = some o) (ho : o.cancelled = false) (h : Conserved init s) :
    Conserved init ⟨releaseStock s.products o.items, s.orders.set i (markCancelled now o)⟩ := by
  refine ⟨(releaseStock_ids _ _).trans h.1, ?_⟩
  intro j
  have hj := h.2 j
  have hm : (markCancelled now o).cancelled = true := rfl
  simp only [releaseStock_getElem?, activeQuantity_set _ _ _ _ _ _ hi, ho, hm,
    Bool.false_eq_true, if_false, if_true,
    activeQuantity_congr _ _ (s.orders) j (releaseStock_ids s.products o.items),
    lineQuantity_congr _ _ o.items j (releaseStock_ids s.products o.items)]
  rw [← hj]
  cases s.products[j]? with
  | none => rfl
  | some p =>
    simp only [Option.map_some', Option.some.injEq]
    ring

/-- Every handler other than the status update keeps stock conservation. -/
theorem handle_conserved (init : List Product) (r : Request) (s : Store)
    (hr : r.isStatusUpdate = false) (h : Conserved init s) : Conserved init (handle r s).2 := by
  cases r with
  | create env user req =>
    simp only [handle, createOrder_eq]
    cases firstViolation env user req s with
    | some e => exact h
    | none => exact conserved_create init s (orderOf env user req s.products) rfl h
  | cancel env user orderNo =>
    have hc := cancelBy_eq (.owner user) env orderNo s
    simp only [cancelBy] at hc
    simp only [handle, hc]
    cases hf : (Canceller.owner user).lookup orderNo s.orders with
    | none => exact h
    | some found =>
      obtain ⟨i, o⟩ := found
      simp only []
      split
      · exact h
      · rename_i hnc
        split
        · exact h
        · exact conserved_cancel init s i o _ (findOrder_some _ _ _ _ hf).1 (by simpa using hnc) h
  | adminCancel env orderNo =>
    have hc := cancelBy_eq .admin env orderNo s
    simp only [cancelBy] at hc
    simp only [handle, hc]
    cases hf : Canceller.admin.lookup orderNo s.orders with
    | none => exact h
    | some found =>
      obtain ⟨i, o⟩ := found
      simp only []
      split
      · exact h
      · rename_i hnc
        split
        · exact h
        · exact conserved_cancel init s i o _ (findOrder_some _ _ _ _ hf).1 (by simpa using hnc) h
  | adminStatus now orderNo status => simp [Request.isStatusUpdate] at hr

theorem run_conserved_from (init : List Product) (requests : List Request) (s : Store)
    (h : Conserved init s) (hr : ∀ r ∈ requests, r.isStatusUpdate = false) :
    Conserved init (run s requests) := by
  induction requests generalizing s with
  | nil => exact h
  | cons r rest ih =>
    exact ih (handle r s).2 (handle_conserved init r s (hr r (List.mem_cons_self _ _)) h)
      (fun x hx => hr x (List.mem_cons_of_mem _ hx))

/-- Stock conservation holds after every sequence of order creations, self-service
cancellations and admin cancellations that starts from an empty order store. -/
theorem run_conserved (init : List Product) (requests : List Request)
    (hr : ∀ r ∈ requests, r.isStatusUpdate = false) :
    Conserved init (run ⟨init, []⟩ requests) := by
  refine run_conserved_from init requests ⟨init, []⟩ ⟨rfl, ?_⟩ hr
  intro j
  simp only [activeQuantity, List.map_nil, List.sum_nil, add_zero]

/-- C26 fails at a reinstated order: the sample order is created, cancelled by its owner
and set to Yolda by an admin; the stock of the product is then 2, the order is not
cancelled and holds quantity 1, so stock plus ordered quantity is 3 and the initial stock
is 2; a following admin cancellation stores stock 3. -/
theorem uncancel_breaks_stock_conservation :
    (run ⟨[sampleProduct], []⟩ uncancelRequests).products.map (fun p => p.stock) = [2] ∧
    (run ⟨[sampleProduct], []⟩ uncancelRequests).orders.map
      (fun o => (o.status, o.cancelled, o.items.map (fun item => item.quantity))) =
      [("Yolda", false, [1])] ∧
    activeQuantity (run ⟨[sampleProduct], []⟩ uncancelRequests).products
      (run ⟨[sampleProduct], []⟩ uncancelRequests).orders 0 = 1 ∧
    sampleProduct.stock = 2 ∧
    (run ⟨[sampleProduct], []⟩
      (uncancelRequests ++ [.adminCancel sampleCancelEnv "GS-00000000-123"])).products.map
      (fun p => p.stock) = [3] := by
  decide

/-! ### Card expiry -/

theorem dayFromYear_succ (y : Int) :
    dayFromYear (y + 1) = dayFromYear y + (if isLeapYear y then 366 else 365) := by
  unfold dayFromYear
  by_cases h : isLeapYear y = true
  · rw [if_pos h]
    simp only [isLeapYear, Bool.or_eq_true, Bool.and_eq_true, beq_iff_eq, bne_iff_ne, ne_eq] at h
    omega
  · rw [if_neg h]
    simp only [isLeapYear, Bool.or_eq_true, Bool.and_eq_true, beq_iff_eq, bne_iff_ne, ne_eq] at h
    omega

/-- The local time the `Date` constructor is given is the last millisecond of the month,
for every month from 1 to 12. -/
theorem makeDay_last_day (y m : Int) (hm1 : 1 ≤ m) (hm12 : m ≤ 12) :
    makeDay y m 0 * 86400000 + (23 * 3600000 + 59 * 60000 + 59 * 1000 + 999) =
      monthStart y m + daysInMonth y m * 86400000 - 1 := by
  have hsucc := dayFromYear_succ y
  unfold makeDay monthStart
  interval_cases m <;> cases hl : isLeapYear y <;>
    simp [hl, daysBeforeMonth, daysInMonth, List.range_succ] at hsucc ⊢ <;> omega

/-- For a month from 1 to 12 and a year outside 0..99 whose month end is a valid time
value, the code reports the card expired exactly when the last instant of the month is
strictly before the current instant. -/
theorem isCardExpired_eq_spec (tzOffset : Int → Int) (now m y : Int) (hm1 : 1 ≤ m)
    (hm12 : m ≤ 12) (hy : y < 0 ∨ 99 < y)
    (hrange : (lastInstantOfMonth tzOffset m y).natAbs ≤ 8640000000000000) :
    isCardExpired tzOffset now m y = decide (lastInstantOfMonth tzOffset m y < now) := by
  have hyr : ¬ (0 ≤ y ∧ y ≤ 99) := by omega
  have hlocal := makeDay_last_day y m hm1 hm12
  have hclip : lastMomentOfMonth tzOffset m y = some (lastInstantOfMonth tzOffset m y) := by
    unfold lastMomentOfMonth lastInstantOfMonth timeClip
    simp only [hyr, if_false, hlocal]
    unfold lastInstantOfMonth at hrange
    simp only at hrange
    rw [if_neg (by omega)]
  unfold isCardExpired
  rw [hclip]

/-- C21 fails for an expiry year the `Date` constructor cannot represent: the year sent
as -300000 is normalised to -298000, the month end is an invalid date, the comparison
with the current instant is false, and the payload is accepted although the last instant
of January of that year lies before the current instant. -/
theorem far_past_expiry_accepted :
    normalizeExpiryYear farPastCard.expiryYear = some (-298000) ∧
    toInt farPastCard.expiryMonth = .finite 1 ∧
    lastMomentOfMonth sampleCardEnv.tzOffset 1 (-298000) = none ∧
    isCardExpired sampleCardEnv.tzOffset sampleCardEnv.nowExpiry 1 (-298000) = false ∧
    lastInstantOfMonth sampleCardEnv.tzOffset 1 (-298000) = -9466136236800001 ∧
    lastInstantOfMonth sampleCardEnv.tzOffset 1 (-298000) < sampleCardEnv.nowExpiry ∧
    validateCardPayment sampleCardEnv farPastCard =
      .accepted ⟨"Kredi Karti", some "Ayse Yilmaz", some "Visa", some "1111",
        some "APR-000000-100"⟩ := by
  decide

/-! ### The five rules of the payment validator -/

/-- The code's expiry test against the calendar, for every month from 1 to 12: the card
is reported expired exactly when the last instant of the month, in the year the `Date`
constructor takes, is a valid time value strictly before the current instant. -/
theorem isCardExpired_eq_lastInstant (tzOffset : Int → Int) (now m y : Int) (hm1 : 1 ≤ m)
    (hm12 : m ≤ 12) :
    isCardExpired tzOffset now m y =
      decide ((lastInstantOfMonth tzOffset m (dateYear y)).natAbs ≤ 8640000000000000 ∧
        lastInstantOfMonth tzOffset m (dateYear y) < now) := by
  have hlocal := makeDay_last_day (dateYear y) m hm1 hm12
  have hmoment : lastMomentOfMonth tzOffset m y =
      timeClip (lastInstantOfMonth tzOffset m (dateYear y)) := by
    unfold lastMomentOfMonth lastInstantOfMonth
    simp only [dateYear] at hlocal ⊢
    rw [hlocal]
  unfold isCardExpired
  rw [hmoment]
  unfold timeClip
  by_cases hr : (lastInstantOfMonth tzOffset m (dateYear y)).natAbs > 8640000000000000
  · have : ¬ (lastInstantOfMonth tzOffset m (dateYear y)).natAbs ≤ 8640000000000000 := by omega
    simp [hr, this]
  · have : (lastInstantOfMonth tzOffset m (dateYear y)).natAbs ≤ 8640000000000000 := by omega
    simp [hr, this]

theorem brokenBy_number (env : CardEnv) (p : CardPayload) :
    CardRule.brokenBy env p .number = CardRule.violated env p .number := by
  simp only [CardRule.brokenBy, CardRule.violated]
  congr 1
  rw [Bool.eq_iff_iff, isValidCardNumber_onlyDigits, isValidCardNumber_iff,
    ← luhnSumSpec_digitsOf]
  simp [digitsOf, and_assoc]

theorem brokenBy_cvv (env : CardEnv) (p : CardPayload) :
    CardRule.brokenBy env p .cvv = CardRule.violated env p .cvv := by
  simp only [CardRule.brokenBy, CardRule.violated, onlyDigits_data, digitsOf, List.length_map]

theorem expiryOf_eq (p : CardPayload) :
    expiryOf p =
      match toInt p.expiryMonth, normalizeExpiryYear p.expiryYear with
      | .finite month, some year => some (month, year)
      | _, _ => none := by
  unfold expiryOf normalizeExpiryYear toInt
  cases parseInt10 p.expiryMonth <;> cases parseInt10 p.expiryYear <;> simp
  split <;> rfl

/-- The rules stated on the payload single out the same first rule as the tests of the
code. -/
theorem firstBrokenRule_eq (env : CardEnv) (p : CardPayload) :
    firstBrokenRule env p = firstViolatedRule env p := by
  unfold firstBrokenRule firstViolatedRule cardRules
  have hname : CardRule.brokenBy env p .name = CardRule.violated env p .name := rfl
  simp only [List.find?_cons, List.find?_nil, hname, brokenBy_number, brokenBy_cvv]
  cases CardRule.violated env p .name with
  | true => rfl
  | false =>
    cases CardRule.violated env p .number with
    | true => rfl
    | false =>
      simp only [CardRule.brokenBy, CardRule.violated, expiryOf_eq]
      cases toInt p.expiryMonth with
      | nan => rfl
      | infinity negative => rfl
      | finite month =>
        cases normalizeExpiryYear p.expiryYear with
        | none => rfl
        | some year =>
          simp only []
          by_cases hf : month < 1 ∨ 12 < month ∨ year = 0
          · simp [hf]
          · have h1 : 1 ≤ month := by omega
            have h12 : month ≤ 12 := by omega
            have h0 : year ≠ 0 := by omega
            rw [isCardExpired_eq_lastInstant env.tzOffset env.nowExpiry month year h1 h12]
            simp [hf, h1, h12, h0]

/-- C6, as amended: `validateCardPayment` applies five rules in the order name, card
number, expiry format, card expired, CVV, each rule being stated on the payload itself
(`CardRule.brokenBy`): the answer is the rejection with the message of the
lowest-numbered rule that the payload breaks, and an acceptance exactly when the payload
breaks no rule. -/
theorem validateCardPayment_first_broken_rule (env : CardEnv) (p : CardPayload) :
    (match firstBrokenRule env p with
      | some r => validateCardPayment env p = .rejected r.message
      | none => ∃ snapshot, validateCardPayment env p = .accepted snapshot) ∧
    ((∃ snapshot, validateCardPayment env p = .accepted snapshot) ↔
      ∀ r : CardRule, r.brokenBy env p = false) ∧
    (∀ r : CardRule, validateCardPayment env p = .rejected r.message ↔
      (r.brokenBy env p = true ∧ ∀ r' ∈ cardRules.takeWhile (fun x => x ≠ r),
        r'.brokenBy env p = false)) := by
  have heq := validateCardPayment_eq env p
  rw [← firstBrokenRule_eq] at heq
  have hall : ∀ r : CardRule, r ∈ cardRules := by
    intro r
    cases r <;> simp [cardRules]
  refine ⟨?_, ?_, ?_⟩
  · cases hf : firstBrokenRule env p with
    | some r => simp only [heq, hf]
    | none =>
      simp only [heq, hf]
      exact ⟨_, rfl⟩
  · rw [heq]
    constructor
    · rintro ⟨snapshot, h⟩
      cases hf : firstBrokenRule env p with
      | some r => simp [hf] at h
      | none =>
        intro r
        have := List.find?_eq_none.mp hf r (hall r)
        simpa using this
    · intro h
      have hf : firstBrokenRule env p = none := by
        unfold firstBrokenRule
        rw [List.find?_eq_none]
        intro r _
        simp [h r]
      rw [hf]
      exact ⟨_, rfl⟩
  · intro r
    rw [heq]
    unfold firstBrokenRule cardRules
    simp only [List.find?_cons, List.find?_nil]
    cases h1 : CardRule.brokenBy env p .name <;> cases h2 : CardRule.brokenBy env p .number <;>
      cases h3 : CardRule.brokenBy env p .expiryFormat <;>
      cases h4 : CardRule.brokenBy env p .expired <;>
      cases h5 : CardRule.brokenBy env p .cvv <;>
      cases r <;>
      simp [h1, h2, h3, h4, h5, CardRule.message, List.takeWhile]

/-- C6 as stated fails with the rules as the specification states them: the card holder
`<A>` between two blanks has trimmed length 3, so rule 1 holds, and the number
4111111111111112 fails the Luhn check, so rule 2 is the lowest-numbered rule violated;
yet the answer is the name-invalid reason of rule 1, not the card-number reason. -/
theorem trimmed_holder_passes_rule_one_yet_name_reason :
    (jsTrim bracketHolderBadNumberCard.cardHolder.data).length = 3 ∧
    (digitsOf bracketHolderBadNumberCard.cardNumber).length = 16 ∧
    luhnSumSpec (digitsOf bracketHolderBadNumberCard.cardNumber) % 10 = 1 ∧
    validateCardPayment sampleCardEnv bracketHolderBadNumberCard =
      .rejected "Kart uzerindeki isim gecersiz." ∧
    validateCardPayment sampleCardEnv bracketHolderBadNumberCard ≠
      .rejected "Kart numarasi gecersiz." := by
  decide

/-! ### Owner-only access -/

theorem find?_filter_of_imp (p q : Order → Bool) (l : List Order)
    (h : ∀ x, p x = true → q x = true) : (l.filter q).find? p = l.find? p := by
  induction l with
  | nil => rfl
  | cons x rest ih =>
    by_cases hq : q x = true
    · simp only [List.filter_cons, hq, if_true, List.find?_cons, ih]
    · have hp : p x = false := by
        cases hpx : p x with
        | false => rfl
        | true => exact absurd (h x hpx) hq
      simp only [List.filter_cons, hq, if_false, List.find?_cons, hp, ih, Bool.false_eq_true]

theorem findOrder_snd_eq_find? (p : Order → Bool) (l : List Order) :
    (findOrder p l).map (fun found => found.2) = l.find? p := by
  induction l with
  | nil => rfl
  | cons x rest ih =>
    by_cases hp : p x = true
    · simp [findOrder, hp]
    · have hp' : p x = false := by simpa using hp
      simp only [findOrder, hp', Bool.false_eq_true, if_false, List.find?_cons, ← ih]
      cases findOrder p rest with
      | none => rfl
      | some found => rfl

/-- The answer of the self-service cancel handler and the product list it writes depend
only on the order that its search returns. -/
theorem cancelOrder_of_found (env : CancelEnv) (user : User) (rawOrderNo : String)
    (s t : Store) (hproducts : s.products = t.products)
    (hfound : s.orders.find? (fun item => item.orderNo == normalizeText rawOrderNo &&
        item.userId == user.id) =
      t.orders.find? (fun item => item.orderNo == normalizeText rawOrderNo &&
        item.userId == user.id)) :
    (cancelOrder env user rawOrderNo s).1 = (cancelOrder env user rawOrderNo t).1 ∧
    (cancelOrder env user rawOrderNo s).2.products =
      (cancelOrder env user rawOrderNo t).2.products := by
  rw [← findOrder_snd_eq_find?, ← findOrder_snd_eq_find?] at hfound
  unfold cancelOrder
  simp only []
  cases hs : findOrder (fun item => item.orderNo == normalizeText rawOrderNo &&
      item.userId == user.id) s.orders with
  | none =>
    cases ht : findOrder (fun item => item.orderNo == normalizeText rawOrderNo &&
        item.userId == user.id) t.orders with
    | none => exact ⟨rfl, hproducts⟩
    | some found => simp [hs, ht] at hfound
  | some found =>
    cases ht : findOrder (fun item => item.orderNo == normalizeText rawOrderNo &&
        item.userId == user.id) t.orders with
    | none => simp [hs, ht] at hfound
    | some found' =>
      obtain ⟨i, o⟩ := found
      obtain ⟨i', o'⟩ := found'
      simp only [hs, ht, Option.map_some', Option.some.injEq] at hfound
      subst hfound
      simp only []
      by_cases hc : o.cancelled = true
      · simp [hc, hproducts]
      · by_cases hd : resolveTrackingStatus env.nowTracking o.createdAt = "Teslim Edildi"
        · simp [hc, hd, hproducts]
        · simp [hc, hd, hproducts]

/-- C18, as amended: tracking and self-service cancellation look only at the orders of
the caller.  Both answer exactly as on the store without the orders of other users; when
no order of the caller has the number asked for, whatever orders of other users have it,
tracking answers 404 and cancellation answers 404 and changes neither store; an order
that is returned belongs to the caller, and no order of another user is ever changed. -/
theorem owner_only_access (now : Int) (env : CancelEnv) (user : User) (rawOrderNo : String)
    (s : Store) :
    trackOrder now user rawOrderNo s =
      trackOrder now user rawOrderNo
        { s with orders := s.orders.filter (fun o => o.userId == user.id) } ∧
    (cancelOrder env user rawOrderNo s).1 =
      (cancelOrder env user rawOrderNo
        { s with orders := s.orders.filter (fun o => o.userId == user.id) }).1 ∧
    (cancelOrder env user rawOrderNo s).2.products =
      (cancelOrder env user rawOrderNo
        { s with orders := s.orders.filter (fun o => o.userId == user.id) }).2.products ∧
    ((∀ o ∈ s.orders, o.orderNo = normalizeText rawOrderNo → o.userId ≠ user.id) →
      trackOrder now user rawOrderNo s = .failure .orderNotFound ∧
      cancelOrder env user rawOrderNo s = (.failure .orderNotFound, s)) ∧
    ApiError.status .orderNotFound = 404 ∧
    (∀ o tracking, trackOrder now user rawOrderNo s = .tracked o tracking →
      o ∈ s.orders ∧ o.userId = user.id ∧ o.orderNo = normalizeText rawOrderNo) ∧
    (∀ message o tracking,
      (cancelOrder env user rawOrderNo s).1 = .updated message o tracking →
        o.userId = user.id ∧ o.orderNo = normalizeText rawOrderNo) ∧
    (∀ (j : Nat) (o : Order), s.orders[j]? = some o → o.userId ≠ user.id →
      (cancelOrder env user rawOrderNo s).2.orders[j]? = some o) := by
  have hfilter : (s.orders.filter (fun o => o.userId == user.id)).find?
      (fun item => item.orderNo == normalizeText rawOrderNo && item.userId == user.id) =
      s.orders.find?
        (fun item => item.orderNo == normalizeText rawOrderNo && item.userId == user.id) :=
    find?_filter_of_imp _ _ s.orders (fun x hx => by
      simp only [Bool.and_eq_true] at hx
      exact hx.2)
  have hcancel := cancelOrder_of_found env user rawOrderNo s
    { s with orders := s.orders.filter (fun o => o.userId == user.id) } rfl hfilter.symm
  refine ⟨?_, hcancel.1, hcancel.2, ?_, rfl, ?_, ?_, ?_⟩
  · unfold trackOrder
    simp only [hfilter]
  · intro hnone
    have hno : ∀ x ∈ s.orders,
        (x.orderNo == normalizeText rawOrderNo && x.userId == user.id) = false := by
      intro x hx
      by_cases h1 : x.orderNo = normalizeText rawOrderNo
      · have := hnone x hx h1
        simp [h1, this]
      · simp [h1]
    constructor
    · have hf : s.orders.find? (fun item => item.orderNo == normalizeText rawOrderNo &&
          item.userId == user.id) = none := by
        rw [List.find?_eq_none]
        intro x hx
        simp [hno x hx]
      simp only [trackOrder, hf]
    · simp only [cancelOrder, findOrder_eq_none _ _ hno]
  · intro o tracking h
    unfold trackOrder at h
    simp only [] at h
    cases hf : s.orders.find? (fun item => item.orderNo == normalizeText rawOrderNo &&
        item.userId == user.id) with
    | none => simp [hf] at h
    | some found =>
      simp only [hf, withTracking, Response.tracked.injEq] at h
      have hmem := List.mem_of_find?_eq_some hf
      have hp := List.find?_some hf
      simp only [Bool.and_eq_true, beq_iff_eq] at hp
      rw [← h.1]
      exact ⟨hmem, hp.2, hp.1⟩
  · intro message o tracking h
    have hu := cancelBy_updated (.owner user) env rawOrderNo s message o tracking h
    obtain ⟨i, o0, hlookup, _, hmark, _⟩ := hu
    simp only [Canceller.lookup] at hlookup
    have hp := (findOrder_some _ _ _ _ hlookup).2
    simp only [Bool.and_eq_true, beq_iff_eq] at hp
    rw [hmark]
    exact ⟨hp.2, hp.1⟩
  · intro j o hj hother
    have hc := cancelBy_eq (.owner user) env rawOrderNo s
    simp only [cancelBy] at hc
    rw [hc]
    cases hl : (Canceller.owner user).lookup rawOrderNo s.orders with
    | none => exact hj
    | some found =>
      obtain ⟨i, o0⟩ := found
      simp only []
      split
      · exact hj
      · split
        · exact hj
        · simp only [Canceller.lookup] at hl
          have hfound := findOrder_some _ _ _ _ hl
          have hp := hfound.2
          simp only [Bool.and_eq_true, beq_iff_eq] at hp
          have hij : i ≠ j := by
            intro hij
            subst hij
            rw [hfound.1] at hj
            exact hother ((Option.some.inj hj) ▸ hp.2)
          simp only []
          rw [List.getElem?_set_ne hij]
          exact hj

/-- C18 as stated fails: the first order of the store belongs to USR-1 and has the
number GS-00000000-123; USR-2, whose id differs, tracks that number and gets an order (an
own one with the same number), not the 404 answer, and the self-service cancellation by
USR-2 succeeds and changes the order store and the stock. -/
theorem other_user_same_number_not_404 :
    storeSharedNo.orders.map (fun o => (o.orderNo, o.userId)) =
      [("GS-00000000-123", "USR-1"), ("GS-00000000-123", "USR-2")] ∧
    otherUser.id = "USR-2" ∧
    trackOrder 1700103600000 otherUser "GS-00000000-123" storeSharedNo =
      .tracked (orderOf laterCreateEnv otherUser otherUserRequest storeWithOrder.products)
        "Hazirlaniyor" ∧
    trackOrder 1700103600000 otherUser "GS-00000000-123" storeSharedNo ≠
      .failure .orderNotFound ∧
    (cancelOrder ⟨1700103600000, 1700103600000, 1700103600000⟩ otherUser
        "GS-00000000-123" storeSharedNo).1 =
      .updated "Siparis basariyla iptal edildi."
        (markCancelled 1700103600000
          (orderOf laterCreateEnv otherUser otherUserRequest storeWithOrder.products))
        "Hazirlaniyor" ∧
    storeSharedNo.products.map (fun p => p.stock) = [0] ∧
    (cancelOrder ⟨1700103600000, 1700103600000, 1700103600000⟩ otherUser
      "GS-00000000-123" storeSharedNo).2.products.map (fun p => p.stock) = [1] ∧
    (cancelOrder ⟨1700103600000, 1700103600000, 1700103600000⟩ otherUser
      "GS-00000000-123" storeSharedNo).2.orders.map (fun o => (o.userId, o.cancelled)) =
      [("USR-1", false), ("USR-2", true)] := by
  decide

/-! ### Numerals beyond the doubles -/

set_option maxRecDepth 100000 in
/-- The number model on numerals that are not exact doubles: a numeral of 401 digits is
read as `Infinity`, so as a quantity it is answered with the invalid-quantity error and as
an expiry year with the expiry-invalid reason; a numeral just above `2 ^ 53` is read as
the nearest double. -/
theorem huge_numerals_not_whole_numbers :
    toInt hugeNumeral = .infinity false ∧
    toInt "9007199254740993" = .finite 9007199254740992 ∧
    createOrder sampleCreateEnv sampleUser hugeQuantityRequest ⟨[sampleProduct], []⟩ =
      (.failure (.invalidQuantity "Gomlek"), ⟨[sampleProduct], []⟩) ∧
    validateCardPayment sampleCardEnv
        ⟨"Ayse Yilmaz", "4111 1111 1111 1111", "12", hugeNumeral, "123"⟩ =
      .rejected "Son kullanma tarihi gecersiz." := by
  decide

end Giyim
